import Mathlib

/-!
# Firestore value encoding and request dispatch

A shallow embedding of the hand-assembled JSON encoders of the Firestore
client (`src/firestore/DataOptions.h`: the `FSUT` string utilities, the
classes of the `Values` namespace, `Document`, `Write`, `Writes`) and of the
dispatchers of `src/firestore/FirestoreBase.h` and
`src/cloud_storage/CloudStorage.h`.

* An Arduino `String` is modelled as the list of the characters it holds
  (`Str`); its primitives follow the ESP32 core: appending, assignment and
  `substring` go by the stored length, searching goes by `strstr`.  The
  accessors `c_str()` and `val()` hand out a `const char *`; whoever reads it
  (the `String(const char *)` constructor, `strlen`, `Print::print`) stops at
  the first NUL character, so an accessor is modelled as the prefix of the
  buffer before the first NUL (`cstr`).  A text given by a caller is a C text
  when it holds no NUL (`NoNul`).
* An object is the record of its members; a method that changes the object is
  a function to the object after the call.
* `JsonHelper` is not among the sources; the functions used here are modelled
  from the wire shapes of the specification.
* The renderings `String(double)` are parameters: floating point formatting is
  not modelled.
* The transport and the other types of the core are not among the sources;
  the dispatchers are functions to the calls they make and the state they
  leave, see the section on the dispatchers.
-/

namespace Firestore

/-! ## Arduino `String` primitives -/

/-- Contents of an Arduino `String`: its characters, in order. -/
abbrev Str := List Char

/-- The terminator of a C string. -/
def NUL : Char := Char.ofNat 0

/-- What a reader of a `const char *` sees: the characters before the first NUL. -/
def cstr (s : Str) : Str := s.takeWhile (fun c => c != NUL)

/-- A text without NUL character: the contents of a C string. -/
def NoNul (s : Str) : Prop := ∀ c ∈ s, c ≠ NUL

instance NoNul.decidable (s : Str) : Decidable (NoNul s) :=
  inferInstanceAs (Decidable (∀ c ∈ s, c ≠ NUL))

/-- Conversion of an `int` index to the `unsigned int` parameter of
`String::substring`: `-1` becomes the greatest 32 bit value, an index that
was found is unchanged. -/
def toUnsigned (i : Int) : Nat := if i < 0 then 4294967296 - i.natAbs else i.toNat

/-- `String::substring(left, right)`: the arguments are swapped when
`left > right`, an out of range `left` gives the empty string, `right` is
clipped to the length. -/
def substring (s : Str) (left right : Nat) : Str :=
  let l := if left > right then right else left
  let r := if left > right then left else right
  if l ≥ s.length then []
  else
    let r := if r > s.length then s.length else r
    (s.take r).drop l

/-- Scan for `String::indexOf`: position of the first suffix of `s` that
starts with `pat`, counted from `i`. -/
def indexOfAux (pat : Str) : Str → Nat → Int
  | [], _ => -1
  | c :: s, i => if pat.isPrefixOf (c :: s) then (i : Int) else indexOfAux pat s (i + 1)

/-- `String::indexOf(pat)`: index of the first occurrence of `pat`, `-1` when
there is none.  The search is `strstr` on the buffer, which reads it as a C
string. -/
def indexOf (s pat : Str) : Int := indexOfAux pat (cstr s) 0

/-- Scan for `String::lastIndexOf`: the greatest position `≤ i` at which
`pat` occurs in `s`. -/
def lastIndexOfAux (s pat : Str) : Nat → Int
  | 0 => if pat.isPrefixOf s then 0 else -1
  | i + 1 => if pat.isPrefixOf (s.drop (i + 1)) then ((i + 1 : Nat) : Int)
             else lastIndexOfAux s pat i

/-- `String::lastIndexOf(pat)`: index of the last occurrence of `pat`, `-1`
when there is none (also for an empty pattern or an empty string).  The
occurrences are found by `strstr` on the buffer, which reads it as a C string;
the lengths are those of the `String` objects. -/
def lastIndexOf (s pat : Str) : Int :=
  if pat.length = 0 ∨ s.length = 0 ∨ pat.length > s.length then -1
  else lastIndexOfAux (cstr s) pat (s.length - pat.length)

/-- The `unsigned int` value of `n - 1` (32 bit): it wraps around at zero. -/
def usub1 (n : Nat) : Nat := if n = 0 then 4294967295 else n - 1

/-- `buf[buf.length() - 1] = c`: overwrite the last character in place; the
length is unchanged (an empty buffer is left alone). -/
def setLast (buf : Str) (c : Char) : Str := buf.set (usub1 buf.length) c

/-! ## `JsonHelper` -/

/-- Modelled from the spec: `JsonHelper::addObject(buf, name, value, last)`,
whose definition is not among the sources.  It appends one member to the
object under construction in `buf`: an opening brace when `buf` is empty and
a comma otherwise, then the quoted `name`, a colon and `value` as given, and
the closing brace when `last` is set (the "terminating marker of the outer
object"), as in the wire shapes the spec gives for documents and values. -/
def JsonHelper.addObject (buf name value : Str) (last : Bool) : Str :=
  let buf := if buf.length = 0 then buf ++ "\x7b".toList else buf ++ ",".toList
  let buf := buf ++ "\"".toList ++ name ++ "\":".toList ++ value
  if last then buf ++ "\x7d".toList else buf

/-- Modelled from the spec: `JsonHelper::toString(value)`, whose definition is
not among the sources: the text enclosed in double quotes, as the `name` of
a document is in the spec's end-to-end example. -/
def JsonHelper.toString (value : Str) : Str := "\"".toList ++ value ++ "\"".toList

/-! ## `FSUT` -/

/-- `FIRESTORE_RESOURCE_PATH_BASE`: the placeholder of the resource path. -/
def FIRESTORE_RESOURCE_PATH_BASE : Str := "<resource_path>".toList

/-- `FSUT::getArrayStr`. -/
def FSUT.getArrayStr (value : Str) : Str := "[".toList ++ value ++ "]".toList

/-- `FSUT::getBoolStr`. -/
def FSUT.getBoolStr (value : Bool) : Str := if value then "true".toList else "false".toList

/-- `FSUT::setBool`: the new contents of `buf`. -/
def FSUT.setBool (value : Bool) : Str := FSUT.getBoolStr value

/-- `FSUT::setString`: the new contents of `buf`. -/
def FSUT.setString (value : Str) : Str := "\"".toList ++ value ++ "\"".toList

/-- `FSUT::setPair`: `buf` is emptied, then receives one closed object with
the single member `key`; the result is the new contents of `buf`. -/
def FSUT.setPair (key value : Str) (isArrayValue : Bool) : Str :=
  JsonHelper.addObject [] key (if isArrayValue then FSUT.getArrayStr value else value) true

/-- `FSUT::addArray`: the new contents of `buf`. -/
def FSUT.addArray (buf v : Str) : Str :=
  let p := lastIndexOf buf "]\x7d".toList
  substring buf 0 (toUnsigned p) ++ ",".toList ++ v ++ "]\x7d".toList

/-- `FSUT::addObject`: the new contents of `buf`. -/
def FSUT.addObject (buf v : Str) : Str :=
  let p := lastIndexOf buf "\x7d\x7d".toList
  substring buf 0 (toUnsigned p) ++ ",".toList ++ substring v 1 (usub1 v.length) ++ "\x7d\x7d".toList

/-- `FSUT::getDocPath`. -/
def FSUT.getDocPath (document : Str) : Str :=
  let doc_path := FIRESTORE_RESOURCE_PATH_BASE
  if document.length ≠ 0 then
    let doc_path :=
      if document.length ≠ 0 ∧ document.head? ≠ some '/' then doc_path ++ "/".toList
      else doc_path
    doc_path ++ document
  else doc_path

/-! ## The value classes of namespace `Values` -/

/-- `firestore_const_key`: the texts of the value tags, indexed by
`firestore_const_key_type`. -/
def firestore_const_key : List Str :=
  ["nullValue".toList, "booleanValue".toList, "integerValue".toList, "doubleValue".toList,
   "timestampValue".toList, "stringValue".toList, "bytesValue".toList,
   "referenceValue".toList, "geoPointValue".toList, "arrayValue".toList, "mapValue".toList]

/-! The enumerators of `firestore_const_key_type`. -/

def firestore_const_key_nullValue : Nat := 0
def firestore_const_key_booleanValue : Nat := 1
def firestore_const_key_integerValue : Nat := 2
def firestore_const_key_doubleValue : Nat := 3
def firestore_const_key_timestampValue : Nat := 4
def firestore_const_key_stringValue : Nat := 5
def firestore_const_key_bytesValue : Nat := 6
def firestore_const_key_referenceValue : Nat := 7
def firestore_const_key_geoPointValue : Nat := 8
def firestore_const_key_arrayValue : Nat := 9
def firestore_const_key_mapValue : Nat := 10
def firestore_const_key_maxType : Nat := 11

/-- `firestore_const_key[i].text`. -/
def firestore_const_key_text (i : Nat) : Str := firestore_const_key.getD i []

/-- An argument passed for a template parameter `T value`.  The templates
reach it only through `value.c_str()` and `value.val()`, so it is given by the
two buffers these accessors read. -/
structure TValue where
  c_buf : Str
  val_buf : Str
deriving DecidableEq

/-- `value.c_str()` of a template argument. -/
def TValue.c_str (t : TValue) : Str := cstr t.c_buf

/-- `value.val()` of a template argument. -/
def TValue.val (t : TValue) : Str := cstr t.val_buf

namespace Values

/-- An object of one of the nine scalar classes (`NullValue`, `StringValue`,
`BooleanValue`, `IntegerValue`, `DoubleValue`, `TimestampValue`, `BytesValue`,
`ReferenceValue`, `GeoPointValue`).  They share their members and accessors
and differ in the constructor and in the tag `val()` passes to `setPair`:
`key` is the index of that tag, `buf` the member `buf`. -/
structure Scalar where
  key : Nat
  buf : Str
deriving DecidableEq

/-- `c_str()` of a scalar class. -/
def Scalar.c_str (v : Scalar) : Str := cstr v.buf

/-- `val()` of a scalar class: `fsut.setPair(str, firestore_const_key[key].text, buf)`. -/
def Scalar.val (v : Scalar) : Str :=
  cstr (FSUT.setPair (firestore_const_key_text v.key) v.buf false)

/-- A scalar object as a template argument. -/
def Scalar.toT (v : Scalar) : TValue :=
  ⟨v.buf, FSUT.setPair (firestore_const_key_text v.key) v.buf false⟩

/-- `String(int)`: the decimal rendering, with a minus sign for a negative number. -/
def String_ofInt (value : Int) : Str :=
  if value < 0 then "-".toList ++ Nat.toDigits 10 value.natAbs else Nat.toDigits 10 value.toNat

/-- `NullValue()`. -/
def NullValue : Scalar := ⟨firestore_const_key_nullValue, "null".toList⟩

/-- `StringValue(value)`. -/
def StringValue (value : Str) : Scalar := ⟨firestore_const_key_stringValue, FSUT.setString value⟩

/-- `BooleanValue(value)`. -/
def BooleanValue (value : Bool) : Scalar := ⟨firestore_const_key_booleanValue, FSUT.setBool value⟩

/-- `IntegerValue(value)`: `buf = StringValue(String(value)).c_str()`. -/
def IntegerValue (value : Int) : Scalar :=
  ⟨firestore_const_key_integerValue, (StringValue (String_ofInt value)).c_str⟩

/-- `DoubleValue(value)`: `buf = String(value)`.  The floating point rendering
is not modelled; the parameter is the text `String(value)`. -/
def DoubleValue (rendered : Str) : Scalar := ⟨firestore_const_key_doubleValue, rendered⟩

/-- `TimestampValue(value)`. -/
def TimestampValue (value : Str) : Scalar :=
  ⟨firestore_const_key_timestampValue, (StringValue value).c_str⟩

/-- `BytesValue(value)`. -/
def BytesValue (value : Str) : Scalar := ⟨firestore_const_key_bytesValue, (StringValue value).c_str⟩

/-- `ReferenceValue(value)`. -/
def ReferenceValue (value : Str) : Scalar :=
  ⟨firestore_const_key_referenceValue, (StringValue value).c_str⟩

/-- `GeoPointValue(lat, lng)`; the parameters are the texts `String(lat)` and
`String(lng)`. -/
def GeoPointValue (lat lng : Str) : Scalar :=
  ⟨firestore_const_key_geoPointValue,
    JsonHelper.addObject (JsonHelper.addObject [] "latitude".toList lat false)
      "longitude".toList lng true⟩

/-- The class `ArrayValue`: the member `buf` and the eleven `flags`, one for
each tag of `firestore_const_key`. -/
structure ArrayValue where
  buf : Str
  flags : List Bool
deriving DecidableEq

/-- The loop of `ArrayValue::isExisted` over the remaining indexes: a tag text
that occurs in `tmp` ends the loop with `true` when its flag is set, and gets
its flag set otherwise.  The result is the returned value and the flags after
the call. -/
def ArrayValue.isExistedLoop (tmp : Str) : List Nat → List Bool → Bool × List Bool
  | [], flags => (false, flags)
  | i :: rest, flags =>
    if indexOf tmp (firestore_const_key_text i) > -1 then
      if flags.getD i false then (true, flags)
      else ArrayValue.isExistedLoop tmp rest (flags.set i true)
    else ArrayValue.isExistedLoop tmp rest flags

/-- `ArrayValue::isExisted(value)`: the returned value and the object after
the call (the loop runs over `0 .. firestore_const_key_mapValue`). -/
def ArrayValue.isExisted (a : ArrayValue) (value : TValue) : Bool × ArrayValue :=
  let tmp := value.val
  let r := ArrayValue.isExistedLoop tmp (List.range (firestore_const_key_mapValue + 1)) a.flags
  (r.1, { a with flags := r.2 })

/-- `ArrayValue::set(value)`. -/
def ArrayValue.set (a : ArrayValue) (value : TValue) : ArrayValue :=
  let r := a.isExisted value
  if r.1 then r.2
  else { r.2 with buf := FSUT.setPair "values".toList value.val true }

/-- `ArrayValue(value)`, the template constructor: the flags are cleared, then
`set(value)`.  It runs for an argument of every class but `ArrayValue` itself:
`ArrayValue(v)` for an `ArrayValue` `v` is the copy constructor, `copy`. -/
def ArrayValue.new (value : TValue) : ArrayValue :=
  ArrayValue.set ⟨[], List.replicate 11 false⟩ value

/-- `ArrayValue(const ArrayValue &)`, the implicit copy constructor: the new
object has the members of the argument. -/
def ArrayValue.copy (v : ArrayValue) : ArrayValue := v

/-- `ArrayValue::add(value)`: the object after the call, which is also the
object the call returns (`*this`). -/
def ArrayValue.add (a : ArrayValue) (value : TValue) : ArrayValue :=
  let r := a.isExisted value
  if !r.1 then
    if r.2.buf.length = 0 then r.2.set value
    else { r.2 with buf := FSUT.addArray r.2.buf value.val }
  else r.2

/-- `ArrayValue::c_str()`. -/
def ArrayValue.c_str (a : ArrayValue) : Str := cstr a.buf

/-- `ArrayValue::val()`. -/
def ArrayValue.val (a : ArrayValue) : Str :=
  cstr (FSUT.setPair (firestore_const_key_text firestore_const_key_arrayValue) a.buf false)

/-- An `ArrayValue` as a template argument. -/
def ArrayValue.toT (a : ArrayValue) : TValue :=
  ⟨a.buf, FSUT.setPair (firestore_const_key_text firestore_const_key_arrayValue) a.buf false⟩

/-- The struct `MAP`: its member `buf`. -/
structure MAP where
  buf : Str
deriving DecidableEq

/-- `MAP(key, value, val)`. -/
def MAP.new (key : Str) (value : TValue) (val : Bool) : MAP :=
  ⟨FSUT.setPair key (if val then value.val else value.c_str) false⟩

/-- `MAP::c_str()`. -/
def MAP.c_str (m : MAP) : Str := cstr m.buf

/-- The class `MapValue`: its member `buf`. -/
structure MapValue where
  buf : Str
deriving DecidableEq

/-- `MapValue()`. -/
def MapValue.empty : MapValue := ⟨[]⟩

/-- `MapValue::set(key, value)`. -/
def MapValue.set (_m : MapValue) (key : Str) (value : TValue) : MapValue :=
  ⟨FSUT.setPair "fields".toList (MAP.new key value true).c_str false⟩

/-- `MapValue(key, value)`. -/
def MapValue.new (key : Str) (value : TValue) : MapValue := MapValue.empty.set key value

/-- `MapValue::add(key, value)`: the object after the call, which is also the
object the call returns. -/
def MapValue.add (m : MapValue) (key : Str) (value : TValue) : MapValue :=
  if m.buf.length = 0 then m.set key value
  else ⟨FSUT.addObject m.buf (MAP.new key value true).c_str⟩

/-- `MapValue::c_str()`. -/
def MapValue.c_str (m : MapValue) : Str := cstr m.buf

/-- `MapValue::val()`. -/
def MapValue.val (m : MapValue) : Str :=
  cstr (FSUT.setPair (firestore_const_key_text firestore_const_key_mapValue) m.buf false)

/-- A `MapValue` as a template argument. -/
def MapValue.toT (m : MapValue) : TValue :=
  ⟨m.buf, FSUT.setPair (firestore_const_key_text firestore_const_key_mapValue) m.buf false⟩

/-- The class `Value`: its member `buf`. -/
structure Value where
  buf : Str
deriving DecidableEq

/-- `Value()`. -/
def Value.empty : Value := ⟨[]⟩

/-- `Value(value)`: `buf = value.val()`. -/
def Value.new (value : TValue) : Value := ⟨value.val⟩

/-- `Value::c_str()`. -/
def Value.c_str (v : Value) : Str := cstr v.buf

/-- `Value::val()`. -/
def Value.val (v : Value) : Str := cstr v.buf

/-- A `Value` as a template argument. -/
def Value.toT (v : Value) : TValue := ⟨v.buf, v.buf⟩

end Values

/-! ## `DocumentMask`, `Precondition`, `Document`, `Write` -/

/-- The class `DocumentMask`: the members `mask` and `str`. -/
structure DocumentMask where
  mask : Str
  str : Str
deriving DecidableEq

/-- `DocumentMask()`. -/
def DocumentMask.empty : DocumentMask := ⟨[], []⟩

/-- `DocumentMask::c_str()`. -/
def DocumentMask.c_str (m : DocumentMask) : Str := cstr m.str

/-- The class `Precondition`: the members `buf` (query form) and `str` (body form). -/
structure Precondition where
  buf : Str
  str : Str
deriving DecidableEq

/-- `Precondition()`. -/
def Precondition.empty : Precondition := ⟨[], []⟩

/-- `Precondition(bool exists)`. -/
def Precondition.ofExists (b : Bool) : Precondition :=
  ⟨".exists=".toList ++ FSUT.getBoolStr b,
   FSUT.setPair "exists".toList (FSUT.getBoolStr b) false⟩

/-- `Precondition(const String &updateTime)`. -/
def Precondition.ofUpdateTime (updateTime : Str) : Precondition :=
  ⟨".updateTime=".toList ++ JsonHelper.toString updateTime,
   FSUT.setPair "updateTime".toList (JsonHelper.toString updateTime) false⟩

/-- `Precondition::c_str()`. -/
def Precondition.c_str (p : Precondition) : Str := cstr p.str

/-- The class `Document<Values::Value>`: its members. -/
structure Document where
  mv : Values.MapValue
  buf : Str
  map_obj : Str
  name_obj : Str
  name : Str
deriving DecidableEq

/-- `Document::getBuf()`: the object after the call. -/
def Document.getBuf (d : Document) : Document :=
  let map_obj := d.mv.c_str
  let name_obj :=
    JsonHelper.addObject [] "name".toList (JsonHelper.toString (FSUT.getDocPath d.name)) true
  let buf := name_obj
  let buf :=
    if map_obj.length ≠ 0 then
      setLast buf ',' ++ substring map_obj 1 (usub1 map_obj.length) ++ "\x7d".toList
    else buf
  { d with buf := buf, map_obj := map_obj, name_obj := name_obj }

/-- `Document(name)`. -/
def Document.new (name : Str) : Document :=
  Document.getBuf ⟨Values.MapValue.empty, [], [], [], name⟩

/-- `Document(key, value)`. -/
def Document.newKV (key : Str) (value : Values.Value) : Document :=
  Document.getBuf ⟨Values.MapValue.empty.add key value.toT, [], [], [], []⟩

/-- `Document::add(key, value)`: the object after the call, which is also the
object the call returns. -/
def Document.add (d : Document) (key : Str) (value : Values.Value) : Document :=
  Document.getBuf { d with mv := d.mv.add key value.toT }

/-- `Document::setName(name)`. -/
def Document.setName (d : Document) (name : Str) : Document :=
  Document.getBuf { d with name := name }

/-- `Document::c_str()`: the text the call returns (after `getBuf()`). -/
def Document.c_str (d : Document) : Str := cstr d.getBuf.buf

/-- A mutation of a document after its construction. -/
inductive DocOp where
  | add (key : Str) (value : Values.Value)
  | setName (name : Str)
deriving DecidableEq

/-- One mutation applied to a document. -/
def Document.apply (d : Document) : DocOp → Document
  | .add key value => d.add key value
  | .setName name => d.setName name

/-- A sequence of mutations applied in order. -/
def Document.run (d : Document) (ops : List DocOp) : Document := ops.foldl Document.apply d

/-- The (key, value) pairs a sequence of mutations adds, in order. -/
def DocOp.fields : List DocOp → List (Str × Values.Value)
  | [] => []
  | .add key value :: ops => (key, value) :: DocOp.fields ops
  | .setName _ :: ops => DocOp.fields ops

/-- The name a document has after a sequence of mutations, `name` being the
one it had before. -/
def DocOp.lastName (name : Str) : List DocOp → Str
  | [] => name
  | .add _ _ :: ops => DocOp.lastName name ops
  | .setName n :: ops => DocOp.lastName n ops

/-- `Write::firestore_write_type`. -/
inductive firestore_write_type where
  | firestore_write_type_undefined
  | firestore_write_type_update
  | firestore_write_type_delete
  | firestore_write_type_transform
deriving DecidableEq

/-- The class `Write`: the members `buf`, `write_type` and `updateTrans`. -/
structure Write where
  buf : Str
  write_type : firestore_write_type
  updateTrans : Bool
deriving DecidableEq

/-- `Write(DocumentMask updateMask, Document update, Precondition currentDocument)`. -/
def Write.newUpdate (updateMask : DocumentMask) (update : Document)
    (currentDocument : Precondition) : Write :=
  let curdoc : Bool := currentDocument.c_str.length != 0
  let updatemask : Bool := updateMask.c_str.length != 0
  let buf := JsonHelper.addObject [] "update".toList update.c_str (!updatemask && !curdoc)
  let buf :=
    if updatemask then JsonHelper.addObject buf "updateMask".toList updateMask.c_str (!curdoc)
    else buf
  let buf :=
    if curdoc then JsonHelper.addObject buf "currentDocument".toList currentDocument.c_str true
    else buf
  ⟨buf, .firestore_write_type_update, false⟩

/-- `Write::c_str()`. -/
def Write.c_str (w : Write) : Str := cstr w.buf

/-! ## Sequences of calls and wire shapes -/

/-- Texts joined by commas, as the elements of an array or the members of an
object are written. -/
def joinComma : List Str → Str
  | [] => []
  | [x] => x
  | x :: y :: rest => x ++ ",".toList ++ joinComma (y :: rest)

/-- The member of an object: the quoted key, a colon and the value text. -/
def member (key value : Str) : Str := "\"".toList ++ key ++ "\":".toList ++ value

/-- The calls `add(key, value)` made in order on a `MapValue`. -/
def Values.MapValue.adds (m : Values.MapValue) (kvs : List (Str × TValue)) : Values.MapValue :=
  kvs.foldl (fun m kv => m.add kv.1 kv.2) m

/-- The calls `add(value)` made in order on an `ArrayValue`. -/
def Values.ArrayValue.adds (a : Values.ArrayValue) (vs : List TValue) : Values.ArrayValue :=
  vs.foldl Values.ArrayValue.add a

/-- Whether every one of the calls `add(value)` made in order is accepted,
that is `isExisted(value)` answers `false`. -/
def Values.ArrayValue.allAccepted (a : Values.ArrayValue) : List TValue → Bool
  | [] => true
  | v :: vs => !(a.isExisted v).1 && Values.ArrayValue.allAccepted (a.add v) vs

/-- The elements an array holds after the calls `add(value)` made in order,
`es` being those it held before: each accepted value is a new last element. -/
def Values.ArrayValue.heldAfter (a : Values.ArrayValue) (es : List TValue) :
    List TValue → List TValue
  | [] => es
  | v :: vs =>
    Values.ArrayValue.heldAfter (a.add v) (if (a.isExisted v).1 then es else es ++ [v]) vs

/-- The elements held by the array `ArrayValue(v1)` after the calls
`add(value)` for the values of `vs`. -/
def Values.ArrayValue.held (v1 : TValue) (vs : List TValue) : List TValue :=
  Values.ArrayValue.heldAfter (Values.ArrayValue.new v1) [v1] vs

/-- Whether the text `val()` of a value opens with the tag of index `k`, that
is with a brace, the quoted tag and a colon. -/
def topTag (k : Nat) (v : TValue) : Bool :=
  ("\x7b\"".toList ++ firestore_const_key_text k ++ "\":".toList).isPrefixOf v.val

/-- The state of an `ArrayValue` that holds the elements `es`: eleven flags,
the buffer listing the `val()` texts of the elements, and a set flag for every
tag text that occurs in the text of an element. -/
def ArrInv (a : Values.ArrayValue) (es : List TValue) : Prop :=
  a.flags.length = 11 ∧ es ≠ [] ∧
  a.buf = "\x7b\"values\":[".toList ++ joinComma (es.map TValue.val) ++ "]\x7d".toList ∧
  ∀ e ∈ es, ∀ k, k < 11 → indexOf e.val (firestore_const_key_text k) > -1 →
    a.flags.getD k false = true

/-! ## Transforms, the remaining writes and `Writes` -/

/-- Scan of the comma separated tokens of a text: `cur` is the token being
read; empty tokens are dropped. -/
def tokensAux : Str → Str → List Str
  | cur, [] => if cur = [] then [] else [cur]
  | cur, c :: rest =>
    if c = ',' then
      if cur = [] then tokensAux [] rest else cur :: tokensAux [] rest
    else tokensAux (cur ++ [c]) rest

/-- Modelled from the spec: `JsonHelper::addTokens(buf, name, value, last)`,
whose definition is not among the sources.  For a `value` that holds tokens
it adds to the object under construction in `buf` the member `name` whose
value is the list of the comma separated tokens of `value` (the "field-path
list" of a mask), each in quotes, as an array; the member is written as
`addObject` writes one: opening brace or comma, quoted name, colon, value,
closing brace when `last` is set.  For a `value` without tokens it adds
nothing: the spec has the member `updateMask` "only if the mask has entries",
and the `Write` constructor writes it when the text of the mask is not
empty. -/
def JsonHelper.addTokens (buf name value : Str) (last : Bool) : Str :=
  if tokensAux [] value = [] then buf
  else
    JsonHelper.addObject buf name
      ("[".toList ++ joinComma ((tokensAux [] value).map JsonHelper.toString) ++ "]".toList) last

/-- `DocumentMask(fieldPaths)`. -/
def DocumentMask.new (fieldPaths : Str) : DocumentMask :=
  ⟨fieldPaths, JsonHelper.addTokens [] "fieldPaths".toList fieldPaths true⟩

/-- The entries of a mask: the field paths its member `mask` lists, separated
by commas. -/
def DocumentMask.fieldPaths (m : DocumentMask) : List Str := tokensAux [] m.mask

/-- `Precondition::getQuery(mask, hasParam)`. -/
def Precondition.getQuery (p : Precondition) (mask : Str) (hasParam : Bool) : Str :=
  let tmp : Str := []
  if p.buf.length ≠ 0 then
    let tmp := tmp ++ (if hasParam then "&".toList else "?".toList)
    tmp ++ (mask ++ p.buf)
  else tmp

/-- The struct `FieldTransform::FieldTransform`: its member `buf`. -/
structure FieldTransform where
  buf : Str
deriving DecidableEq

/-- `FieldTransform::FieldTransform::c_str()`. -/
def FieldTransform.c_str (t : FieldTransform) : Str := cstr t.buf

/-- The class `DocumentTransform`: its member `buf`. -/
structure DocumentTransform where
  buf : Str
deriving DecidableEq

/-- `DocumentTransform(document, fieldTransforms)`. -/
def DocumentTransform.new (document : Str) (fieldTransforms : FieldTransform) :
    DocumentTransform :=
  let buf := JsonHelper.addObject [] "document".toList
    (JsonHelper.toString (FSUT.getDocPath document)) false
  ⟨JsonHelper.addObject buf "fieldTransforms".toList fieldTransforms.c_str true⟩

/-- `DocumentTransform::c_str()`. -/
def DocumentTransform.c_str (t : DocumentTransform) : Str := cstr t.buf

/-- `Write(const String &deletePath, Precondition currentDocument)`. -/
def Write.newDelete (deletePath : Str) (currentDocument : Precondition) : Write :=
  let buf : Str := []
  let buf :=
    if currentDocument.c_str.length ≠ 0 then
      JsonHelper.addObject buf "currentDocument".toList currentDocument.c_str false
    else buf
  ⟨JsonHelper.addObject buf "delete".toList (JsonHelper.toString (FSUT.getDocPath deletePath)) true,
    .firestore_write_type_delete, false⟩

/-- `Write(DocumentTransform transform, Precondition currentDocument)`. -/
def Write.newTransform (transform : DocumentTransform) (currentDocument : Precondition) : Write :=
  let buf : Str := []
  let buf :=
    if currentDocument.c_str.length ≠ 0 then
      JsonHelper.addObject buf "currentDocument".toList currentDocument.c_str false
    else buf
  ⟨JsonHelper.addObject buf "transform".toList transform.c_str true,
    .firestore_write_type_transform, false⟩

/-- `Write::addUpdateTransform(updateTransforms)`: the object after the call,
which is also the object the call returns.  On the first call the last
character of `buf` is overwritten with NUL (`buf[buf.length() - 1] = 0`, the
length stays) before the member is appended. -/
def Write.addUpdateTransform (w : Write) (updateTransforms : FieldTransform) :
    Write :=
  if w.write_type = .firestore_write_type_update then
    let buf :=
      if !w.updateTrans then
        JsonHelper.addObject (setLast w.buf NUL) "updateTransforms".toList
          (FSUT.getArrayStr updateTransforms.c_str) true
      else FSUT.addArray w.buf updateTransforms.c_str
    { w with buf := buf, updateTrans := true }
  else w

/-- The class `Writes`: its member `buf`. -/
structure Writes where
  buf : Str
deriving DecidableEq

/-- `Writes(write, transaction)`. -/
def Writes.new (write : Write) (transaction : Str) : Writes :=
  let buf : Str := []
  let buf :=
    if transaction.length ≠ 0 then
      JsonHelper.addObject buf "transaction".toList (JsonHelper.toString transaction) false
    else buf
  ⟨JsonHelper.addObject buf "writes".toList (FSUT.getArrayStr write.c_str) true⟩

/-- `Writes::add(write)`: the object after the call, which is also the object
the call returns. -/
def Writes.add (ws : Writes) (write : Write) : Writes := ⟨FSUT.addArray ws.buf write.c_str⟩

/-- `Writes::c_str()`. -/
def Writes.c_str (ws : Writes) : Str := cstr ws.buf

/-- The calls `add(write)` made in order on a `Writes`. -/
def Writes.adds (ws : Writes) (writes : List Write) : Writes := writes.foldl Writes.add ws

/-- The calls `addUpdateTransform` made in order on a `Write`. -/
def Write.addUpdateTransforms (w : Write) (ts : List FieldTransform) : Write :=
  ts.foldl Write.addUpdateTransform w

/-! ## The dispatchers (`FirestoreBase.h`, `CloudStorage.h`)

The transport (`AsyncClientClass`), its slots, the results and the token
record belong to the core, which is not among the sources.  They are
collaborators with a narrow interface: a call made on the transport or of a
callback is recorded, in order, as a `Call`; what `createSlot` answers is a
parameter of `asyncRequest`; a slot, a result and a request are the records of
the members the dispatchers read or write.  A pointer is an `Option`: `none`
is the null pointer, `some x` points to the object in state `x`. -/

/-- Modelled from the spec: `app_token_t`, the token record of a registered
application ("an opaque token record per registered application handle"); the
dispatchers read its member `project_id`. -/
structure app_token_t where
  project_id : Str
deriving DecidableEq

/-- Modelled from the spec: the error state `lastError` of a result, given by
its code; the code is zero when there is no error ("success code derived from
whether the terminal error code is zero"). -/
structure FirebaseError where
  code : Int
deriving DecidableEq

/-- Modelled from the spec: `lastError.setClientError(code)` records the code
of a client-level error. -/
def FirebaseError.setClientError (_e : FirebaseError) (code : Int) : FirebaseError := ⟨code⟩

/-- Modelled from the spec: `AsyncResult`, the result object of an operation:
the members the dispatchers touch, the "error available" flag, the error
state and the OTA flag of its download data. -/
structure AsyncResult where
  error_available : Bool
  lastError : FirebaseError
  download_data_ota : Bool
deriving DecidableEq

/-- Modelled from the spec: `AsyncResult()`, a fresh result: no error is
available and the error code is zero. -/
def AsyncResult.new : AsyncResult := ⟨false, ⟨0⟩, false⟩

/-- `AsyncResultCallback`: a callback, given by its identity. -/
abbrev AsyncResultCallback := Nat

/-- `async_request_handler_t::http_request_method`: the enumerators the
sources name. -/
inductive http_request_method where
  | http_undefined
  | http_put
  | http_post
  | http_get
  | http_patch
  | http_delete
deriving DecidableEq

/-- `slot_options_t`: the members the sources name (`async` is the argument
the operations pass on, `ota` and `app_token` are read and written by
`asyncRequest`). -/
structure slot_options_t where
  async : Bool
  ota : Bool
  app_token : Option app_token_t
deriving DecidableEq

/-- `file_config_data`: the file attached to a request; `setFileStatus` reads
its `filename`. -/
structure file_config_data where
  filename : Str
deriving DecidableEq

/-- `async_data_item_t`, a slot of the transport: the members the dispatchers
write (`request.payload`, `request.val[payload]`, `request.file_data`,
`request.base64`, `request.ota`, `aResult.download_data.ota`, `cb`, the result
bound by `setRefResult`, `download`, `upload`) or read (`async`). -/
structure async_data_item_t where
  request_payload : Str
  request_val_payload : Str
  request_file_data : file_config_data
  request_base64 : Bool
  request_ota : Bool
  aResult_download_data_ota : Bool
  cb : Option AsyncResultCallback
  refResult : Option AsyncResult
  async : Bool
  download : Bool
  upload : Bool
deriving DecidableEq

/-- A call made by a dispatcher on a collaborator: of the callback with the
result it is given, or of a method of the transport with its arguments. -/
inductive Call where
  | callback (cb : AsyncResultCallback) (result : AsyncResult)
  | createSlot (opt : slot_options_t)
  | newRequest (url path extras : Str) (method : http_request_method) (opt : slot_options_t)
      (uid : Str)
  | setContentLength (len : Nat)
  | setContentType (mime : Str)
  | setFileContentLength
  | process (async : Bool)
  | handleRemove
deriving DecidableEq

/-- Whether a call is made on the transport (every call but that of a callback). -/
def Call.onTransport : Call → Bool
  | .callback _ _ => false
  | _ => true

/-- Modelled from the spec: `List::existed(aVec, app_addr)`, whether the
address of the application is in the list of the registered ones. -/
def existed (aVec : List Nat) (app_addr : Nat) : Bool := aVec.contains app_addr

/-- Scan of `String::replace`: every occurrence of `find` (not empty) is
replaced, an occurrence starting where the one before ends at the earliest;
for a `find` that cannot overlap itself, such as a single character, this is
every occurrence, in whatever order the library visits them.  Where the
replacement is the longer text the library goes from the right and searches
again through what it has written; it finds nothing new there when the last
character of `find` does not occur in the replacement before the first
character of it that `find` lacks, as in the uses here (`%20` for a space,
`%2C` for a comma, `outputUriPrefix` for `inputUriPrefix`, and for the
placeholder the resource path, which starts with `projects/`). -/
def replaceAux (find repl : Str) : Nat → Str → Str
  | 0, s => s
  | _ + 1, [] => []
  | fuel + 1, c :: s =>
    if find.isPrefixOf (c :: s) then repl ++ replaceAux find repl fuel ((c :: s).drop find.length)
    else c :: replaceAux find repl fuel s

/-- `String::replace(find, replace)`: nothing happens for an empty string or
an empty `find`; the occurrences are found by `strstr`, that is in the C
string the buffer starts with, and what follows it is kept. -/
def replace (s find repl : Str) : Str :=
  if s.length = 0 ∨ find.length = 0 then s
  else replaceAux find repl (cstr s).length (cstr s) ++ s.drop (cstr s).length

/-- What `setClientError` leaves: the request after the call (with the
caller's result it points to), the calls made, and the temporary result that
was created and deleted, if any. -/
structure ClientError (Req : Type) where
  request : Req
  calls : List Call
  temporary : Option AsyncResult

/-- What `asyncRequest` leaves: the request and the `service_url` of the
dispatcher after the call, the slot if one was obtained, the calls made in
order, and the temporary result `setClientError` created and deleted, if any. -/
structure Dispatched (Req : Type) where
  request : Req
  service_url : Str
  slot : Option async_data_item_t
  calls : List Call
  temporary : Option AsyncResult

/-- `ParentResource`: the members, and the flag that `isDatabaseIdParam()`
reads (whether the database id goes into the query). -/
structure ParentResource where
  projectId : Str
  databaseId : Str
  documentPath : Str
  databaseIdParam : Bool
deriving DecidableEq

/-- `FirestoreOptions`: the members `asyncRequest` reads. -/
structure FirestoreOptions where
  parent : ParentResource
  payload : Str
  extras : Str
deriving DecidableEq

/-- Modelled from the spec: `URLHelper::addGAPIv1Path`, which appends the
"fixed API version segment" to the path. -/
def URLHelper.addGAPIv1Path (path : Str) : Str := path ++ "/v1/projects/".toList

/-- Modelled from the spec: `URLHelper::addGAPIv1beta1Path`. -/
def URLHelper.addGAPIv1beta1Path (path : Str) : Str := path ++ "/v1beta1/projects/".toList

/-- Modelled from the spec: `URLHelper::addGAPIv1beta2Path`. -/
def URLHelper.addGAPIv1beta2Path (path : Str) : Str := path ++ "/v1beta2/projects/".toList

/-- The class `FirestoreBase`: its members. -/
structure FirestoreBase where
  service_url : Str
  path : Str
  uid : Str
  app_addr : Nat
  app_token : Option app_token_t
deriving DecidableEq

/-- `FirestoreBase::async_request_data_t`: the members but `aClient`, the
transport, whose answers are parameters. -/
structure FirestoreBase.async_request_data_t where
  path : Str
  uid : Str
  method : http_request_method
  opt : slot_options_t
  options : FirestoreOptions
  aResult : Option AsyncResult
  cb : Option AsyncResultCallback
deriving DecidableEq

/-- `FirestoreBase::appToken()`; `aVec` is the list of the registered
applications. -/
def FirestoreBase.appToken (fb : FirestoreBase) (aVec : List Nat) : Option app_token_t :=
  if existed aVec fb.app_addr then fb.app_token else none

/-- `FirestoreBase::addParams(request, extras)`: the new contents of `extras`. -/
def FirestoreBase.addParams (request : FirestoreBase.async_request_data_t) (extras : Str) : Str :=
  let extras := extras ++ request.options.extras
  let extras := replace extras " ".toList "%20".toList
  replace extras ",".toList "%2C".toList

/-- `FirestoreBase::setClientError(request, code)`. -/
def FirestoreBase.setClientError (request : FirestoreBase.async_request_data_t) (code : Int) :
    ClientError FirestoreBase.async_request_data_t :=
  let aResult : AsyncResult :=
    match request.aResult with
    | some r => r
    | none => AsyncResult.new
  let aResult := { aResult with error_available := true }
  let aResult := { aResult with lastError := aResult.lastError.setClientError code }
  let calls : List Call :=
    match request.cb with
    | some cb => [Call.callback cb aResult]
    | none => []
  match request.aResult with
  | some _ => ⟨{ request with aResult := some aResult }, calls, none⟩
  | none => ⟨request, calls, some aResult⟩

/-- `FirestoreBase::asyncRequest(request, beta)`.  The error codes
`FIREBASE_ERROR_APP_WAS_NOT_ASSIGNED` and `FIREBASE_ERROR_OPERATION_CANCELLED`
are constants of the core, taken as parameters, as are the registered
applications `aVec` and `created`, the slot `createSlot` answers with. -/
def FirestoreBase.asyncRequest (FIREBASE_ERROR_APP_WAS_NOT_ASSIGNED
    FIREBASE_ERROR_OPERATION_CANCELLED : Int) (aVec : List Nat) (fb : FirestoreBase)
    (request : FirestoreBase.async_request_data_t) (beta : Int)
    (created : Option async_data_item_t) : Dispatched FirestoreBase.async_request_data_t :=
  match fb.appToken aVec with
  | none =>
    let e := FirestoreBase.setClientError request FIREBASE_ERROR_APP_WAS_NOT_ASSIGNED
    ⟨e.request, fb.service_url, none, e.calls, e.temporary⟩
  | some app_token =>
    let request := { request with opt := { request.opt with app_token := some app_token } }
    let extras : Str := []
    let path :=
      if beta = 2 then URLHelper.addGAPIv1beta2Path request.path
      else if beta = 1 then URLHelper.addGAPIv1beta1Path request.path
      else URLHelper.addGAPIv1Path request.path
    let path := path ++
      (if request.options.parent.projectId.length = 0 then app_token.project_id
       else request.options.parent.projectId)
    let path := path ++ "/databases".toList
    let path :=
      if !request.options.parent.databaseIdParam then
        path ++ "/".toList ++
          (if request.options.parent.databaseId.length > 0 then request.options.parent.databaseId
           else "(default)".toList)
      else path
    let request := { request with path := path }
    let extras := FirestoreBase.addParams request extras
    let service_url := "firestore.googleapis.com".toList
    let calls := [Call.createSlot request.opt]
    match created with
    | none =>
      let e := FirestoreBase.setClientError request FIREBASE_ERROR_OPERATION_CANCELLED
      ⟨e.request, service_url, none, calls ++ e.calls, e.temporary⟩
    | some sData =>
      let calls := calls ++
        [Call.newRequest service_url request.path extras request.method request.opt request.uid]
      let sData :=
        if request.options.payload.length ≠ 0 then
          { sData with request_payload := request.options.payload }
        else sData
      let calls :=
        if request.options.payload.length ≠ 0 then
          calls ++ [Call.setContentLength request.options.payload.length]
        else calls
      let sData :=
        match request.cb with
        | some cb => { sData with cb := some cb }
        | none => sData
      let sData :=
        match request.aResult with
        | some r => { sData with refResult := some r }
        | none => sData
      let calls := calls ++ [Call.process sData.async, Call.handleRemove]
      ⟨request, service_url, some sData, calls, none⟩

/-- `GoogleCloudStorage::google_cloud_storage_request_type`: the enumerators
the operations name. -/
inductive google_cloud_storage_request_type where
  | google_cloud_storage_request_type_download
  | google_cloud_storage_request_type_uploads
  | google_cloud_storage_request_type_download_ota
  | google_cloud_storage_request_type_get_meta
  | google_cloud_storage_request_type_list
  | google_cloud_storage_request_type_delete
deriving DecidableEq

/-- `GoogleCloudStorage::DataOptions`: the members `asyncRequest` reads. -/
structure GoogleCloudStorage.DataOptions where
  payload : Str
  extras : Str
deriving DecidableEq

/-- `GoogleCloudStorage::async_request_data_t`: the members `asyncRequest`
reads or writes, but `aClient`, the transport, whose answers are parameters. -/
structure GoogleCloudStorage.async_request_data_t where
  path : Str
  uid : Str
  method : http_request_method
  opt : slot_options_t
  options : GoogleCloudStorage.DataOptions
  file : Option file_config_data
  mime : Str
  aResult : Option AsyncResult
  cb : Option AsyncResultCallback
deriving DecidableEq

/-- The class `CloudStorage`: its members but `aClient`. -/
structure CloudStorage where
  service_url : Str
  path : Str
  uid : Str
  app_addr : Nat
  app_token : Option app_token_t
deriving DecidableEq

/-- `CloudStorage::appToken()`; `aVec` is the list of the registered
applications. -/
def CloudStorage.appToken (cs : CloudStorage) (aVec : List Nat) : Option app_token_t :=
  if existed aVec cs.app_addr then cs.app_token else none

/-- `CloudStorage::addParams(request, extras)`: the new contents of `extras`. -/
def CloudStorage.addParams (request : GoogleCloudStorage.async_request_data_t) (extras : Str) :
    Str :=
  let extras := extras ++ request.options.extras
  let extras := replace extras " ".toList "%20".toList
  replace extras ",".toList "%2C".toList

/-- `CloudStorage::setFileStatus(sData, request)`: the slot after the call. -/
def CloudStorage.setFileStatus (sData : async_data_item_t)
    (request : GoogleCloudStorage.async_request_data_t) : async_data_item_t :=
  if sData.request_file_data.filename.length ≠ 0 ∨ request.opt.ota then
    { sData with
      download := request.method = .http_get
      upload := request.method = .http_post ∨ request.method = .http_put
        ∨ request.method = .http_patch }
  else sData

/-- `CloudStorage::setClientError(request, code)`. -/
def CloudStorage.setClientError (request : GoogleCloudStorage.async_request_data_t)
    (code : Int) : ClientError GoogleCloudStorage.async_request_data_t :=
  let aResult : AsyncResult :=
    match request.aResult with
    | some r => r
    | none => AsyncResult.new
  let aResult := { aResult with error_available := true }
  let aResult := { aResult with lastError := aResult.lastError.setClientError code }
  let calls : List Call :=
    match request.cb with
    | some cb => [Call.callback cb aResult]
    | none => []
  match request.aResult with
  | some _ => ⟨{ request with aResult := some aResult }, calls, none⟩
  | none => ⟨request, calls, some aResult⟩

/-- `CloudStorage::asyncRequest(request, beta)`, with the same parameters as
the dispatcher of `FirestoreBase`. -/
def CloudStorage.asyncRequest (FIREBASE_ERROR_APP_WAS_NOT_ASSIGNED
    FIREBASE_ERROR_OPERATION_CANCELLED : Int) (aVec : List Nat) (cs : CloudStorage)
    (request : GoogleCloudStorage.async_request_data_t) (_beta : Int)
    (created : Option async_data_item_t) :
    Dispatched GoogleCloudStorage.async_request_data_t :=
  match cs.appToken aVec with
  | none =>
    let e := CloudStorage.setClientError request FIREBASE_ERROR_APP_WAS_NOT_ASSIGNED
    ⟨e.request, cs.service_url, none, e.calls, e.temporary⟩
  | some app_token =>
    let request := { request with opt := { request.opt with app_token := some app_token } }
    let extras : Str := []
    let extras := CloudStorage.addParams request extras
    let service_url := "cloudstorage.googleapis.com".toList
    let calls := [Call.createSlot request.opt]
    match created with
    | none =>
      let e := CloudStorage.setClientError request FIREBASE_ERROR_OPERATION_CANCELLED
      ⟨e.request, service_url, none, calls ++ e.calls, e.temporary⟩
    | some sData =>
      let calls := calls ++
        [Call.newRequest service_url request.path extras request.method request.opt request.uid]
      let sData :=
        match request.file with
        | some file => { sData with request_file_data := file, request_base64 := false }
        | none =>
          if request.options.payload.length ≠ 0 then
            { sData with request_val_payload := request.options.payload }
          else sData
      let calls :=
        match request.file with
        | some _ =>
          (if request.mime.length ≠ 0 then calls ++ [Call.setContentType request.mime]
           else calls) ++ [Call.setFileContentLength]
        | none =>
          if request.options.payload.length ≠ 0 then
            calls ++ [Call.setContentLength request.options.payload.length]
          else calls
      let sData := CloudStorage.setFileStatus sData request
      let sData :=
        if request.opt.ota then
          { sData with request_ota := true, request_base64 := false,
                       aResult_download_data_ota := true }
        else sData
      let sData :=
        match request.cb with
        | some cb => { sData with cb := some cb }
        | none => sData
      let sData :=
        match request.aResult with
        | some r => { sData with refResult := some r }
        | none => sData
      let calls := calls ++ [Call.process sData.async, Call.handleRemove]
      ⟨request, service_url, some sData, calls, none⟩

/-- What `sendRequest` leaves: the caller's result it was given a pointer to,
and the calls made. -/
structure Sent where
  result : Option AsyncResult
  calls : List Call

/-- `CloudStorage::sendRequest(...)`: the body declares the options, sets
their request type and parent, declares the method, and ends; the types of the
parent, the file and the options are those of `cloud_storage/DataOptions.h`,
left open. -/
def CloudStorage.sendRequest {P F B U L : Type} (_cs : CloudStorage)
    (result : Option AsyncResult) (_cb : Option AsyncResultCallback) (_uid : Str) (_parent : P)
    (_file : F) (_baseOptions : Option B) (_uploadOptions : Option U) (_listOptions : Option L)
    (_requestType : google_cloud_storage_request_type) (_async : Bool) : Sent :=
  ⟨result, []⟩

/-- The local `result` of a boolean operation after `sendRequest` was given a
pointer to it. -/
def Sent.local (sent : Sent) (result : AsyncResult) : AsyncResult := sent.result.getD result

/-- `bool CloudStorage::download(aClient, parent, file, options)`. -/
def CloudStorage.download {P F O : Type} (cs : CloudStorage) (parent : P) (file : F)
    (options : O) : Bool :=
  let result := AsyncResult.new
  let sent := cs.sendRequest (some result) none [] parent file (some options)
    (none : Option Unit) (none : Option Unit)
    .google_cloud_storage_request_type_download false
  (sent.local result).lastError.code == 0

/-- `bool CloudStorage::upload(aClient, parent, file, options)`. -/
def CloudStorage.upload {P F O : Type} (cs : CloudStorage) (parent : P) (file : F)
    (options : O) : Bool :=
  let result := AsyncResult.new
  let sent := cs.sendRequest (some result) none [] parent file
    (none : Option Unit) (some options) (none : Option Unit)
    .google_cloud_storage_request_type_uploads false
  (sent.local result).lastError.code == 0

/-- `bool CloudStorage::ota(aClient, parent, options)`. -/
def CloudStorage.ota {P O : Type} (cs : CloudStorage) (parent : P) (options : O) : Bool :=
  let result := AsyncResult.new
  let file : file_config_data := ⟨[]⟩
  let sent := cs.sendRequest (some result) none [] parent file (some options)
    (none : Option Unit) (none : Option Unit)
    .google_cloud_storage_request_type_download_ota false
  (sent.local result).lastError.code == 0

/-- `bool CloudStorage::getMetadata(aClient, parent, options)`. -/
def CloudStorage.getMetadata {P O : Type} (cs : CloudStorage) (parent : P) (options : O) :
    Bool :=
  let result := AsyncResult.new
  let file : file_config_data := ⟨[]⟩
  let sent := cs.sendRequest (some result) none [] parent file (some options)
    (none : Option Unit) (none : Option Unit)
    .google_cloud_storage_request_type_get_meta false
  (sent.local result).lastError.code == 0

/-- `bool CloudStorage::list(aClient, parent, options)`. -/
def CloudStorage.list {P O : Type} (cs : CloudStorage) (parent : P) (options : O) : Bool :=
  let result := AsyncResult.new
  let file : file_config_data := ⟨[]⟩
  let sent := cs.sendRequest (some result) none [] parent file
    (none : Option Unit) (none : Option Unit) (some options)
    .google_cloud_storage_request_type_list false
  (sent.local result).lastError.code == 0

/-- `bool CloudStorage::deleteObject(aClient, parent, options)`. -/
def CloudStorage.deleteObject {P O : Type} (cs : CloudStorage) (parent : P) (options : O) :
    Bool :=
  let result := AsyncResult.new
  let file : file_config_data := ⟨[]⟩
  let sent := cs.sendRequest (some result) none [] parent file (some options)
    (none : Option Unit) (none : Option Unit)
    .google_cloud_storage_request_type_delete false
  (sent.local result).lastError.code == 0

/-- The result `setClientError` marks for the code `code`: the caller's
result `r` when there is one, a fresh result otherwise, with the "error
available" flag set and the client error code recorded. -/
def markedResult (r : Option AsyncResult) (code : Int) : AsyncResult :=
  { (r.getD AsyncResult.new) with error_available := true, lastError := ⟨code⟩ }

/-- The calls of the callback `setClientError` makes for the code `code`: one,
with the marked result, when the request has a callback, none otherwise. -/
def errorCallbacks (cb : Option AsyncResultCallback) (r : Option AsyncResult) (code : Int) :
    List Call :=
  match cb with
  | some cb => [Call.callback cb (markedResult r code)]
  | none => []

/-! The forms of the operations of `CloudStorage` that report through the
caller's result (`...Result`, the overload taking `AsyncResult &aResult`) or
through a callback (`...Callback`, the overload taking `AsyncResultCallback cb`
and `uid`): what `sendRequest` leaves, that is the caller's result after the
call and the calls made. -/

/-- `void CloudStorage::download(aClient, parent, file, options, aResult)`. -/
def CloudStorage.downloadResult {P F O : Type} (cs : CloudStorage) (parent : P) (file : F)
    (options : O) (aResult : AsyncResult) : Sent :=
  cs.sendRequest (some aResult) none [] parent file (some options)
    (none : Option Unit) (none : Option Unit)
    .google_cloud_storage_request_type_download true

/-- `void CloudStorage::download(aClient, parent, file, options, cb, uid)`. -/
def CloudStorage.downloadCallback {P F O : Type} (cs : CloudStorage) (parent : P) (file : F)
    (options : O) (cb : AsyncResultCallback) (uid : Str) : Sent :=
  cs.sendRequest none (some cb) uid parent file (some options)
    (none : Option Unit) (none : Option Unit)
    .google_cloud_storage_request_type_download true

/-- `void CloudStorage::upload(aClient, parent, file, options, aResult)`. -/
def CloudStorage.uploadResult {P F O : Type} (cs : CloudStorage) (parent : P) (file : F)
    (options : O) (aResult : AsyncResult) : Sent :=
  cs.sendRequest (some aResult) none [] parent file
    (none : Option Unit) (some options) (none : Option Unit)
    .google_cloud_storage_request_type_uploads true

/-- `void CloudStorage::upload(aClient, parent, file, options, cb, uid)`. -/
def CloudStorage.uploadCallback {P F O : Type} (cs : CloudStorage) (parent : P) (file : F)
    (options : O) (cb : AsyncResultCallback) (uid : Str) : Sent :=
  cs.sendRequest none (some cb) uid parent file
    (none : Option Unit) (some options) (none : Option Unit)
    .google_cloud_storage_request_type_uploads true

/-- `void CloudStorage::ota(aClient, parent, options, aResult)`. -/
def CloudStorage.otaResult {P O : Type} (cs : CloudStorage) (parent : P)
    (options : O) (aResult : AsyncResult) : Sent :=
  let file : file_config_data := ⟨[]⟩
  cs.sendRequest (some aResult) none [] parent file (some options)
    (none : Option Unit) (none : Option Unit)
    .google_cloud_storage_request_type_download_ota true

/-- `void CloudStorage::ota(aClient, parent, options, cb, uid)`. -/
def CloudStorage.otaCallback {P O : Type} (cs : CloudStorage) (parent : P)
    (options : O) (cb : AsyncResultCallback) (uid : Str) : Sent :=
  let file : file_config_data := ⟨[]⟩
  cs.sendRequest none (some cb) uid parent file (some options)
    (none : Option Unit) (none : Option Unit)
    .google_cloud_storage_request_type_download_ota true

/-- `void CloudStorage::getMetadata(aClient, parent, options, aResult)`. -/
def CloudStorage.getMetadataResult {P O : Type} (cs : CloudStorage) (parent : P)
    (options : O) (aResult : AsyncResult) : Sent :=
  let file : file_config_data := ⟨[]⟩
  cs.sendRequest (some aResult) none [] parent file (some options)
    (none : Option Unit) (none : Option Unit)
    .google_cloud_storage_request_type_get_meta true

/-- `void CloudStorage::getMetadata(aClient, parent, options, cb, uid)`. -/
def CloudStorage.getMetadataCallback {P O : Type} (cs : CloudStorage) (parent : P)
    (options : O) (cb : AsyncResultCallback) (uid : Str) : Sent :=
  let file : file_config_data := ⟨[]⟩
  cs.sendRequest none (some cb) uid parent file (some options)
    (none : Option Unit) (none : Option Unit)
    .google_cloud_storage_request_type_get_meta true

/-- `void CloudStorage::list(aClient, parent, options, aResult)`. -/
def CloudStorage.listResult {P O : Type} (cs : CloudStorage) (parent : P)
    (options : O) (aResult : AsyncResult) : Sent :=
  let file : file_config_data := ⟨[]⟩
  cs.sendRequest (some aResult) none [] parent file
    (none : Option Unit) (none : Option Unit) (some options)
    .google_cloud_storage_request_type_list true

/-- `void CloudStorage::list(aClient, parent, options, cb, uid)`. -/
def CloudStorage.listCallback {P O : Type} (cs : CloudStorage) (parent : P)
    (options : O) (cb : AsyncResultCallback) (uid : Str) : Sent :=
  let file : file_config_data := ⟨[]⟩
  cs.sendRequest none (some cb) uid parent file
    (none : Option Unit) (none : Option Unit) (some options)
    .google_cloud_storage_request_type_list true

/-- `void CloudStorage::deleteObject(aClient, parent, options, aResult)`. -/
def CloudStorage.deleteObjectResult {P O : Type} (cs : CloudStorage) (parent : P)
    (options : O) (aResult : AsyncResult) : Sent :=
  let file : file_config_data := ⟨[]⟩
  cs.sendRequest (some aResult) none [] parent file (some options)
    (none : Option Unit) (none : Option Unit)
    .google_cloud_storage_request_type_delete true

/-- `void CloudStorage::deleteObject(aClient, parent, options, cb, uid)`. -/
def CloudStorage.deleteObjectCallback {P O : Type} (cs : CloudStorage) (parent : P)
    (options : O) (cb : AsyncResultCallback) (uid : Str) : Sent :=
  let file : file_config_data := ⟨[]⟩
  cs.sendRequest none (some cb) uid parent file (some options)
    (none : Option Unit) (none : Option Unit)
    .google_cloud_storage_request_type_delete true

/-! ## The operations of `FirestoreBase`

Each operation builds its options and the request `aReq` and ends in one call
of `asyncRequest`: `...Req` is the request as it is built, the operation
itself is what `asyncRequest` leaves for it.  The members `requestType`,
`collectionId` and `documentId` of the options are written and, apart from the
two that `createDoc` reads back at once, not read by anything here; they are
left out. -/

/-- The helper `URLHelper` of the core is not among the sources.  Its methods
`addPath`, `addParam` and `addParamsTokens`, which the operations call, are
taken as given: each is a function from its arguments to what it leaves in
the buffer, and for `addParam` in the flag, it is passed by reference. -/
structure URLHelper where
  addPath : Str → Str → Str
  addParam : Str → Str → Str → Bool → Str × Bool
  addParamsTokens : Str → Str → Str → Bool → Str

/-- The option classes of the operations (`patchDocumentOptions`,
`GetDocumentOptions`, `BatchGetDocumentOptions`, `TransactionOptions`,
`QueryOptions`, `ListDocumentsOptions`, `ListCollectionIdsOptions`,
`EximDocumentOptions`, `DatabaseIndex::Index`, `CollectionGroupsIndex::Index`)
are not among the sources; the operations only call `c_str()` on an object of
one of them, so it is given by the buffer that call reads. -/
structure Options where
  buf : Str
deriving DecidableEq

/-- The method `c_str()` of an object of an option class. -/
def Options.c_str (o : Options) : Str := cstr o.buf

/-- Modelled from the spec: the macro `RESOURCE_PATH_BASE` the operations hand to
`replace`, which is not among the sources: the "placeholder resource-path
token" the payloads are built with, that is the text of
`FIRESTORE_RESOURCE_PATH_BASE`. -/
def RESOURCE_PATH_BASE : Str := FIRESTORE_RESOURCE_PATH_BASE

/-- Modelled from the spec: the five-argument
`JsonHelper::addObject(buf, name, value, stringValue, last)`: the member is
added as by the four-argument form, its value quoted when `stringValue` is
set. -/
def JsonHelper.addObject5 (buf name value : Str) (stringValue last : Bool) : Str :=
  JsonHelper.addObject buf name (if stringValue then JsonHelper.toString value else value) last

/-- `DocumentMask::getQuery(mask, hasParam)`. -/
def DocumentMask.getQuery (uh : URLHelper) (m : DocumentMask) (mask : Str) (hasParam : Bool) :
    Str :=
  let buf : Str := []
  uh.addParamsTokens buf (mask ++ ".fieldPaths=".toList) m.mask hasParam

/-- `FirestoreBase::addDatabasePath(buf)`: the new contents of `buf`. -/
def FirestoreBase.addDatabasePath (buf : Str) : Str := buf ++ "/databases".toList

/-- `FirestoreBase::addDocsPath(buf)`: the new contents of `buf`. -/
def FirestoreBase.addDocsPath (buf : Str) : Str := buf ++ "/documents".toList

/-- `FirestoreBase::makeResourcePath(parent)`. -/
def FirestoreBase.makeResourcePath (parent : ParentResource) : Str :=
  let str := "projects/".toList
  let str := str ++ parent.projectId
  let str := FirestoreBase.addDatabasePath str
  let str := str ++ ['/']
  let str := str ++
    (if parent.databaseId.length > 0 then parent.databaseId else "(default)".toList)
  FirestoreBase.addDocsPath str

/-- The request `aReq` an operation builds: the `path` of the object, the
method, `slot_options_t(false, false, async, false, false, false)`, the
options, and the result, the callback and the `uid` the operation was given. -/
def FirestoreBase.aReq (fb : FirestoreBase) (method : http_request_method) (async : Bool)
    (options : FirestoreOptions) (result : Option AsyncResult)
    (cb : Option AsyncResultCallback) (uid : Str) : FirestoreBase.async_request_data_t :=
  ⟨fb.path, uid, method, ⟨async, false, none⟩, options, result, cb⟩

/-- `FirestoreBase::eximDocs(aClient, result, cb, uid, parent, eximOptions, isImport, async)`:
the request `aReq` it builds. -/
def FirestoreBase.eximDocsReq (fb : FirestoreBase) (result : Option AsyncResult)
    (cb : Option AsyncResultCallback) (uid : Str) (parent : ParentResource)
    (eximOptions : Options) (isImport : Bool) (async : Bool) :
    FirestoreBase.async_request_data_t :=
  let payload := eximOptions.c_str
  let payload :=
    if !isImport then replace payload "inputUriPrefix".toList "outputUriPrefix".toList
    else payload
  let extras : Str := []
  let extras := extras ++
    (if isImport then ":importDocuments".toList else ":exportDocuments".toList)
  let options : FirestoreOptions := ⟨parent, payload, extras⟩
  fb.aReq .http_post async options result cb uid

/-- `FirestoreBase::eximDocs(...)`: the call `asyncRequest(aReq)` it ends in. -/
def FirestoreBase.eximDocs (FIREBASE_ERROR_APP_WAS_NOT_ASSIGNED
    FIREBASE_ERROR_OPERATION_CANCELLED : Int) (aVec : List Nat) (fb : FirestoreBase)
    (result : Option AsyncResult) (cb : Option AsyncResultCallback) (uid : Str)
    (parent : ParentResource) (eximOptions : Options) (isImport : Bool)
    (async : Bool) (created : Option async_data_item_t) :
    Dispatched FirestoreBase.async_request_data_t :=
  FirestoreBase.asyncRequest FIREBASE_ERROR_APP_WAS_NOT_ASSIGNED
    FIREBASE_ERROR_OPERATION_CANCELLED aVec fb
    (FirestoreBase.eximDocsReq fb result cb uid parent eximOptions isImport async) 0 created

/-- `FirestoreBase::createDoc` (called with `aClient`, `result`, `cb`, `uid` and then
`parent`, `collectionId`, `documentId`, `mask`, `document`, `async`):
the request `aReq` it builds. -/
def FirestoreBase.createDocReq (uh : URLHelper) (fb : FirestoreBase) (result : Option AsyncResult)
    (cb : Option AsyncResultCallback) (uid : Str) (parent : ParentResource)
    (collectionId documentId : Str) (mask : DocumentMask)
    (document : Document) (async : Bool) :
    FirestoreBase.async_request_data_t :=
  let payload := document.c_str
  let extras := FirestoreBase.addDocsPath []
  let extras := extras ++ ['/']
  let extras := extras ++ collectionId
  let hasQueryParams := false
  let added := uh.addParam extras "documentId".toList documentId hasQueryParams
  let extras := added.1
  let hasQueryParams := added.2
  let extras := extras ++ mask.getQuery uh "mask".toList hasQueryParams
  let options : FirestoreOptions := ⟨parent, payload, extras⟩
  fb.aReq .http_post async options result cb uid

/-- `FirestoreBase::createDoc(...)`: the call `asyncRequest(aReq)` it ends in. -/
def FirestoreBase.createDoc (FIREBASE_ERROR_APP_WAS_NOT_ASSIGNED
    FIREBASE_ERROR_OPERATION_CANCELLED : Int) (aVec : List Nat)
    (uh : URLHelper) (fb : FirestoreBase)
    (result : Option AsyncResult) (cb : Option AsyncResultCallback) (uid : Str)
    (parent : ParentResource) (collectionId documentId : Str) (mask : DocumentMask)
    (document : Document)
    (async : Bool) (created : Option async_data_item_t) :
    Dispatched FirestoreBase.async_request_data_t :=
  FirestoreBase.asyncRequest FIREBASE_ERROR_APP_WAS_NOT_ASSIGNED
    FIREBASE_ERROR_OPERATION_CANCELLED aVec fb
    (FirestoreBase.createDocReq uh fb result cb uid parent
      collectionId documentId mask document async) 0 created

/-- `FirestoreBase::patchDoc` (called with `aClient`, `result`, `cb`, `uid` and then
`parent`, `documentPath`, `patchOptions`, `document`, `async`):
the request `aReq` it builds. -/
def FirestoreBase.patchDocReq (fb : FirestoreBase) (result : Option AsyncResult)
    (cb : Option AsyncResultCallback) (uid : Str) (parent : ParentResource)
    (documentPath : Str) (patchOptions : Options)
    (document : Document) (async : Bool) :
    FirestoreBase.async_request_data_t :=
  let payload := document.c_str
  let extras := FirestoreBase.addDocsPath []
  let extras := extras ++ ['/']
  let extras := extras ++ documentPath
  let extras := extras ++ patchOptions.c_str
  let options : FirestoreOptions := ⟨parent, payload, extras⟩
  fb.aReq .http_patch async options result cb uid

/-- `FirestoreBase::patchDoc(...)`: the call `asyncRequest(aReq)` it ends in. -/
def FirestoreBase.patchDoc (FIREBASE_ERROR_APP_WAS_NOT_ASSIGNED
    FIREBASE_ERROR_OPERATION_CANCELLED : Int) (aVec : List Nat) (fb : FirestoreBase)
    (result : Option AsyncResult) (cb : Option AsyncResultCallback) (uid : Str)
    (parent : ParentResource) (documentPath : Str) (patchOptions : Options)
    (document : Document)
    (async : Bool) (created : Option async_data_item_t) :
    Dispatched FirestoreBase.async_request_data_t :=
  FirestoreBase.asyncRequest FIREBASE_ERROR_APP_WAS_NOT_ASSIGNED
    FIREBASE_ERROR_OPERATION_CANCELLED aVec fb
    (FirestoreBase.patchDocReq fb result cb uid parent
      documentPath patchOptions document async) 0 created

/-- `FirestoreBase::commitDoc(aClient, result, cb, uid, parent, writes, async)`:
the request `aReq` it builds. -/
def FirestoreBase.commitDocReq (fb : FirestoreBase) (result : Option AsyncResult)
    (cb : Option AsyncResultCallback) (uid : Str) (parent : ParentResource)
    (writes : Writes) (async : Bool) :
    FirestoreBase.async_request_data_t :=
  let payload := writes.c_str
  let extras := FirestoreBase.addDocsPath []
  let extras := extras ++ ":commit".toList
  let payload := replace payload RESOURCE_PATH_BASE (FirestoreBase.makeResourcePath parent)
  let options : FirestoreOptions := ⟨parent, payload, extras⟩
  fb.aReq .http_post async options result cb uid

/-- `FirestoreBase::commitDoc(...)`: the call `asyncRequest(aReq)` it ends in. -/
def FirestoreBase.commitDoc (FIREBASE_ERROR_APP_WAS_NOT_ASSIGNED
    FIREBASE_ERROR_OPERATION_CANCELLED : Int) (aVec : List Nat) (fb : FirestoreBase)
    (result : Option AsyncResult) (cb : Option AsyncResultCallback) (uid : Str)
    (parent : ParentResource) (writes : Writes)
    (async : Bool) (created : Option async_data_item_t) :
    Dispatched FirestoreBase.async_request_data_t :=
  FirestoreBase.asyncRequest FIREBASE_ERROR_APP_WAS_NOT_ASSIGNED
    FIREBASE_ERROR_OPERATION_CANCELLED aVec fb
    (FirestoreBase.commitDocReq fb result cb uid parent writes async) 0 created

/-- `FirestoreBase::batchWriteDoc(aClient, result, cb, uid, parent, writes, async)`:
the request `aReq` it builds. -/
def FirestoreBase.batchWriteDocReq (fb : FirestoreBase) (result : Option AsyncResult)
    (cb : Option AsyncResultCallback) (uid : Str) (parent : ParentResource)
    (writes : Writes) (async : Bool) :
    FirestoreBase.async_request_data_t :=
  let payload := writes.c_str
  let payload := replace payload RESOURCE_PATH_BASE (FirestoreBase.makeResourcePath parent)
  let extras := FirestoreBase.addDocsPath []
  let extras := extras ++ ":batchWrite".toList
  let options : FirestoreOptions := ⟨parent, payload, extras⟩
  fb.aReq .http_post async options result cb uid

/-- `FirestoreBase::batchWriteDoc(...)`: the call `asyncRequest(aReq)` it ends in. -/
def FirestoreBase.batchWriteDoc (FIREBASE_ERROR_APP_WAS_NOT_ASSIGNED
    FIREBASE_ERROR_OPERATION_CANCELLED : Int) (aVec : List Nat) (fb : FirestoreBase)
    (result : Option AsyncResult) (cb : Option AsyncResultCallback) (uid : Str)
    (parent : ParentResource) (writes : Writes)
    (async : Bool) (created : Option async_data_item_t) :
    Dispatched FirestoreBase.async_request_data_t :=
  FirestoreBase.asyncRequest FIREBASE_ERROR_APP_WAS_NOT_ASSIGNED
    FIREBASE_ERROR_OPERATION_CANCELLED aVec fb
    (FirestoreBase.batchWriteDocReq fb result cb uid parent writes async) 0 created

/-- `FirestoreBase::getDoc(aClient, result, cb, uid, parent, documentPath, getOptions, async)`:
the request `aReq` it builds. -/
def FirestoreBase.getDocReq (fb : FirestoreBase) (result : Option AsyncResult)
    (cb : Option AsyncResultCallback) (uid : Str) (parent : ParentResource)
    (documentPath : Str) (getOptions : Options) (async : Bool) :
    FirestoreBase.async_request_data_t :=
  let extras := FirestoreBase.addDocsPath []
  let extras := extras ++ ['/']
  let extras := extras ++ documentPath
  let extras := extras ++ getOptions.c_str
  let options : FirestoreOptions := ⟨parent, [], extras⟩
  fb.aReq .http_get async options result cb uid

/-- `FirestoreBase::getDoc(...)`: the call `asyncRequest(aReq)` it ends in. -/
def FirestoreBase.getDoc (FIREBASE_ERROR_APP_WAS_NOT_ASSIGNED
    FIREBASE_ERROR_OPERATION_CANCELLED : Int) (aVec : List Nat) (fb : FirestoreBase)
    (result : Option AsyncResult) (cb : Option AsyncResultCallback) (uid : Str)
    (parent : ParentResource) (documentPath : Str) (getOptions : Options)
    (async : Bool) (created : Option async_data_item_t) :
    Dispatched FirestoreBase.async_request_data_t :=
  FirestoreBase.asyncRequest FIREBASE_ERROR_APP_WAS_NOT_ASSIGNED
    FIREBASE_ERROR_OPERATION_CANCELLED aVec fb
    (FirestoreBase.getDocReq fb result cb uid parent documentPath getOptions async) 0 created

/-- `FirestoreBase::batchGetDoc(aClient, result, cb, uid, parent, batchOptions, async)`:
the request `aReq` it builds. -/
def FirestoreBase.batchGetDocReq (fb : FirestoreBase) (result : Option AsyncResult)
    (cb : Option AsyncResultCallback) (uid : Str) (parent : ParentResource)
    (batchOptions : Options) (async : Bool) :
    FirestoreBase.async_request_data_t :=
  let payload := batchOptions.c_str
  let payload := replace payload RESOURCE_PATH_BASE (FirestoreBase.makeResourcePath parent)
  let extras := FirestoreBase.addDocsPath []
  let extras := extras ++ ":batchGet".toList
  let options : FirestoreOptions := ⟨parent, payload, extras⟩
  fb.aReq .http_post async options result cb uid

/-- `FirestoreBase::batchGetDoc(...)`: the call `asyncRequest(aReq)` it ends in. -/
def FirestoreBase.batchGetDoc (FIREBASE_ERROR_APP_WAS_NOT_ASSIGNED
    FIREBASE_ERROR_OPERATION_CANCELLED : Int) (aVec : List Nat) (fb : FirestoreBase)
    (result : Option AsyncResult) (cb : Option AsyncResultCallback) (uid : Str)
    (parent : ParentResource) (batchOptions : Options)
    (async : Bool) (created : Option async_data_item_t) :
    Dispatched FirestoreBase.async_request_data_t :=
  FirestoreBase.asyncRequest FIREBASE_ERROR_APP_WAS_NOT_ASSIGNED
    FIREBASE_ERROR_OPERATION_CANCELLED aVec fb
    (FirestoreBase.batchGetDocReq fb result cb uid parent batchOptions async) 0 created

/-- `FirestoreBase::beginTrans(aClient, result, cb, uid, parent, transOptions, async)`:
the request `aReq` it builds. -/
def FirestoreBase.beginTransReq (fb : FirestoreBase) (result : Option AsyncResult)
    (cb : Option AsyncResultCallback) (uid : Str) (parent : ParentResource)
    (transOptions : Options) (async : Bool) :
    FirestoreBase.async_request_data_t :=
  let payload := JsonHelper.addObject5 [] "options".toList transOptions.c_str false true
  let extras := FirestoreBase.addDocsPath []
  let extras := extras ++ ":beginTransaction".toList
  let options : FirestoreOptions := ⟨parent, payload, extras⟩
  fb.aReq .http_post async options result cb uid

/-- `FirestoreBase::beginTrans(...)`: the call `asyncRequest(aReq)` it ends in. -/
def FirestoreBase.beginTrans (FIREBASE_ERROR_APP_WAS_NOT_ASSIGNED
    FIREBASE_ERROR_OPERATION_CANCELLED : Int) (aVec : List Nat) (fb : FirestoreBase)
    (result : Option AsyncResult) (cb : Option AsyncResultCallback) (uid : Str)
    (parent : ParentResource) (transOptions : Options)
    (async : Bool) (created : Option async_data_item_t) :
    Dispatched FirestoreBase.async_request_data_t :=
  FirestoreBase.asyncRequest FIREBASE_ERROR_APP_WAS_NOT_ASSIGNED
    FIREBASE_ERROR_OPERATION_CANCELLED aVec fb
    (FirestoreBase.beginTransReq fb result cb uid parent transOptions async) 0 created

/-- `FirestoreBase::transRollback(aClient, result, cb, uid, parent, transaction, async)`:
the request `aReq` it builds. -/
def FirestoreBase.transRollbackReq (fb : FirestoreBase) (result : Option AsyncResult)
    (cb : Option AsyncResultCallback) (uid : Str) (parent : ParentResource)
    (transaction : Str) (async : Bool) :
    FirestoreBase.async_request_data_t :=
  let payload := JsonHelper.addObject5 [] "transaction".toList transaction true true
  let extras := FirestoreBase.addDocsPath []
  let extras := extras ++ ":rollback".toList
  let options : FirestoreOptions := ⟨parent, payload, extras⟩
  fb.aReq .http_post async options result cb uid

/-- `FirestoreBase::transRollback(...)`: the call `asyncRequest(aReq)` it ends in. -/
def FirestoreBase.transRollback (FIREBASE_ERROR_APP_WAS_NOT_ASSIGNED
    FIREBASE_ERROR_OPERATION_CANCELLED : Int) (aVec : List Nat) (fb : FirestoreBase)
    (result : Option AsyncResult) (cb : Option AsyncResultCallback) (uid : Str)
    (parent : ParentResource) (transaction : Str)
    (async : Bool) (created : Option async_data_item_t) :
    Dispatched FirestoreBase.async_request_data_t :=
  FirestoreBase.asyncRequest FIREBASE_ERROR_APP_WAS_NOT_ASSIGNED
    FIREBASE_ERROR_OPERATION_CANCELLED aVec fb
    (FirestoreBase.transRollbackReq fb result cb uid parent transaction async) 0 created

/-- `FirestoreBase::runQueryImpl` (called with `aClient`, `result`, `cb`, `uid` and then
`parent`, `documentPath`, `queryOptions`, `async`):
the request `aReq` it builds. -/
def FirestoreBase.runQueryImplReq (uh : URLHelper) (fb : FirestoreBase)
    (result : Option AsyncResult)
    (cb : Option AsyncResultCallback) (uid : Str) (parent : ParentResource)
    (documentPath : Str) (queryOptions : Options) (async : Bool) :
    FirestoreBase.async_request_data_t :=
  let parent := { parent with documentPath := documentPath }
  let payload := queryOptions.c_str
  let extras := FirestoreBase.addDocsPath []
  let extras := uh.addPath extras documentPath
  let extras := extras ++ ":runQuery".toList
  let options : FirestoreOptions := ⟨parent, payload, extras⟩
  fb.aReq .http_post async options result cb uid

/-- `FirestoreBase::runQueryImpl(...)`: the call `asyncRequest(aReq)` it ends in. -/
def FirestoreBase.runQueryImpl (FIREBASE_ERROR_APP_WAS_NOT_ASSIGNED
    FIREBASE_ERROR_OPERATION_CANCELLED : Int) (aVec : List Nat)
    (uh : URLHelper) (fb : FirestoreBase)
    (result : Option AsyncResult) (cb : Option AsyncResultCallback) (uid : Str)
    (parent : ParentResource) (documentPath : Str) (queryOptions : Options)
    (async : Bool) (created : Option async_data_item_t) :
    Dispatched FirestoreBase.async_request_data_t :=
  FirestoreBase.asyncRequest FIREBASE_ERROR_APP_WAS_NOT_ASSIGNED
    FIREBASE_ERROR_OPERATION_CANCELLED aVec fb
    (FirestoreBase.runQueryImplReq uh fb result cb uid parent
      documentPath queryOptions async) 0 created

/-- `FirestoreBase::deleteDocBase` (called with `aClient`, `result`, `cb`, `uid` and then
`parent`, `documentPath`, `currentDocument`, `async`):
the request `aReq` it builds.  The source calls
`currentDocument.getQuery("currentDocument")` with one argument where
`Precondition::getQuery` declares two; the text that call yields is taken as
given, `currentDocumentQuery`. -/
def FirestoreBase.deleteDocBaseReq (uh : URLHelper) (fb : FirestoreBase)
    (result : Option AsyncResult)
    (cb : Option AsyncResultCallback) (uid : Str) (parent : ParentResource)
    (documentPath : Str) (currentDocumentQuery : Str) (async : Bool) :
    FirestoreBase.async_request_data_t :=
  let parent := { parent with documentPath := documentPath }
  let extras := FirestoreBase.addDocsPath []
  let extras := uh.addPath extras documentPath
  let extras := extras ++ currentDocumentQuery
  let options : FirestoreOptions := ⟨parent, [], extras⟩
  fb.aReq .http_delete async options result cb uid

/-- `FirestoreBase::deleteDocBase(...)`: the call `asyncRequest(aReq)` it ends in. -/
def FirestoreBase.deleteDocBase (FIREBASE_ERROR_APP_WAS_NOT_ASSIGNED
    FIREBASE_ERROR_OPERATION_CANCELLED : Int) (aVec : List Nat)
    (uh : URLHelper) (fb : FirestoreBase)
    (result : Option AsyncResult) (cb : Option AsyncResultCallback) (uid : Str)
    (parent : ParentResource) (documentPath : Str) (currentDocumentQuery : Str)
    (async : Bool) (created : Option async_data_item_t) :
    Dispatched FirestoreBase.async_request_data_t :=
  FirestoreBase.asyncRequest FIREBASE_ERROR_APP_WAS_NOT_ASSIGNED
    FIREBASE_ERROR_OPERATION_CANCELLED aVec fb
    (FirestoreBase.deleteDocBaseReq uh fb result cb uid parent
      documentPath currentDocumentQuery async) 0 created

/-- `FirestoreBase::listDocs` (called with `aClient`, `result`, `cb`, `uid` and then
`parent`, `collectionId`, `listDocsOptions`, `async`):
the request `aReq` it builds. -/
def FirestoreBase.listDocsReq (uh : URLHelper) (fb : FirestoreBase) (result : Option AsyncResult)
    (cb : Option AsyncResultCallback) (uid : Str) (parent : ParentResource)
    (collectionId : Str) (listDocsOptions : Options) (async : Bool) :
    FirestoreBase.async_request_data_t :=
  let extras := FirestoreBase.addDocsPath []
  let extras := uh.addPath extras collectionId
  let extras := extras ++ listDocsOptions.c_str
  let options : FirestoreOptions := ⟨parent, [], extras⟩
  fb.aReq .http_get async options result cb uid

/-- `FirestoreBase::listDocs(...)`: the call `asyncRequest(aReq)` it ends in. -/
def FirestoreBase.listDocs (FIREBASE_ERROR_APP_WAS_NOT_ASSIGNED
    FIREBASE_ERROR_OPERATION_CANCELLED : Int) (aVec : List Nat)
    (uh : URLHelper) (fb : FirestoreBase)
    (result : Option AsyncResult) (cb : Option AsyncResultCallback) (uid : Str)
    (parent : ParentResource) (collectionId : Str) (listDocsOptions : Options)
    (async : Bool) (created : Option async_data_item_t) :
    Dispatched FirestoreBase.async_request_data_t :=
  FirestoreBase.asyncRequest FIREBASE_ERROR_APP_WAS_NOT_ASSIGNED
    FIREBASE_ERROR_OPERATION_CANCELLED aVec fb
    (FirestoreBase.listDocsReq uh fb result cb uid parent
      collectionId listDocsOptions async) 0 created

/-- `FirestoreBase::listCollIds` (called with `aClient`, `result`, `cb`, `uid` and then
`parent`, `documentPath`, `listCollectionIdsOptions`, `async`):
the request `aReq` it builds. -/
def FirestoreBase.listCollIdsReq (uh : URLHelper) (fb : FirestoreBase) (result : Option AsyncResult)
    (cb : Option AsyncResultCallback) (uid : Str) (parent : ParentResource)
    (documentPath : Str)
    (listCollectionIdsOptions : Options) (async : Bool) :
    FirestoreBase.async_request_data_t :=
  let parent := { parent with documentPath := documentPath }
  let payload := listCollectionIdsOptions.c_str
  let extras := FirestoreBase.addDocsPath []
  let extras := uh.addPath extras documentPath
  let extras := extras ++ ":listCollectionIds".toList
  let options : FirestoreOptions := ⟨parent, payload, extras⟩
  fb.aReq .http_post async options result cb uid

/-- `FirestoreBase::listCollIds(...)`: the call `asyncRequest(aReq)` it ends in. -/
def FirestoreBase.listCollIds (FIREBASE_ERROR_APP_WAS_NOT_ASSIGNED
    FIREBASE_ERROR_OPERATION_CANCELLED : Int) (aVec : List Nat)
    (uh : URLHelper) (fb : FirestoreBase)
    (result : Option AsyncResult) (cb : Option AsyncResultCallback) (uid : Str)
    (parent : ParentResource) (documentPath : Str)
    (listCollectionIdsOptions : Options)
    (async : Bool) (created : Option async_data_item_t) :
    Dispatched FirestoreBase.async_request_data_t :=
  FirestoreBase.asyncRequest FIREBASE_ERROR_APP_WAS_NOT_ASSIGNED
    FIREBASE_ERROR_OPERATION_CANCELLED aVec fb
    (FirestoreBase.listCollIdsReq uh fb result cb uid parent
      documentPath listCollectionIdsOptions async) 0 created

/-- `FirestoreBase::databaseIndexManager` (called with `aClient`, `result`, `cb`, `uid` and then
`parent`, `index`, `indexId`, `deleteMode`, `async`):
the request `aReq` it builds. -/
def FirestoreBase.databaseIndexManagerReq (fb : FirestoreBase) (result : Option AsyncResult)
    (cb : Option AsyncResultCallback) (uid : Str) (parent : ParentResource)
    (index : Options) (indexId : Str) (deleteMode : Bool) (async : Bool) :
    FirestoreBase.async_request_data_t :=
  let payload := index.c_str
  let extras : Str := []
  let extras := extras ++ "/indexes".toList
  let extras := if indexId.length ≠ 0 then extras ++ ['/'] else extras
  let extras := extras ++ indexId
  let options : FirestoreOptions := ⟨parent, payload, extras⟩
  let method := http_request_method.http_undefined
  let method :=
    if index.c_str.length > 0 then http_request_method.http_post
    else if indexId.length > 0 then
      (if deleteMode then http_request_method.http_delete else http_request_method.http_get)
    else method
  let method :=
    if index.c_str.length = 0 ∧ indexId.length = 0 then http_request_method.http_get
    else method
  fb.aReq method async options result cb uid

/-- `FirestoreBase::databaseIndexManager(...)`: the call `asyncRequest(aReq, 1)` it ends in. -/
def FirestoreBase.databaseIndexManager (FIREBASE_ERROR_APP_WAS_NOT_ASSIGNED
    FIREBASE_ERROR_OPERATION_CANCELLED : Int) (aVec : List Nat) (fb : FirestoreBase)
    (result : Option AsyncResult) (cb : Option AsyncResultCallback) (uid : Str)
    (parent : ParentResource) (index : Options) (indexId : Str) (deleteMode : Bool)
    (async : Bool) (created : Option async_data_item_t) :
    Dispatched FirestoreBase.async_request_data_t :=
  FirestoreBase.asyncRequest FIREBASE_ERROR_APP_WAS_NOT_ASSIGNED
    FIREBASE_ERROR_OPERATION_CANCELLED aVec fb
    (FirestoreBase.databaseIndexManagerReq fb result cb uid parent
      index indexId deleteMode async) 1 created

/-- `FirestoreBase::collectionGroupIndexManager` (called with `aClient`, `result`, `cb`,
`uid` and then `parent`, `index`, `collectionId`, `indexId`, `deleteMode`, `async`):
the request `aReq` it builds. -/
def FirestoreBase.collectionGroupIndexManagerReq (fb : FirestoreBase) (result : Option AsyncResult)
    (cb : Option AsyncResultCallback) (uid : Str) (parent : ParentResource)
    (index : Options) (collectionId indexId : Str)
    (deleteMode : Bool) (async : Bool) :
    FirestoreBase.async_request_data_t :=
  let payload := index.c_str
  let extras : Str := []
  let extras := extras ++ "/collectionGroups".toList
  let extras := if collectionId.length ≠ 0 then extras ++ ['/'] else extras
  let extras := extras ++ collectionId
  let extras := extras ++ "/indexes".toList
  let extras := if indexId.length ≠ 0 then (extras ++ ['/']) ++ indexId else extras
  let options : FirestoreOptions := ⟨parent, payload, extras⟩
  let method := http_request_method.http_undefined
  let method :=
    if index.c_str.length > 0 then http_request_method.http_post
    else if collectionId.length > 0 then
      (if deleteMode then http_request_method.http_delete else http_request_method.http_get)
    else method
  let method :=
    if index.c_str.length = 0 ∧ indexId.length = 0 then http_request_method.http_get
    else method
  fb.aReq method async options result cb uid

/-- `FirestoreBase::collectionGroupIndexManager(...)`: the call `asyncRequest(aReq)` it ends in. -/
def FirestoreBase.collectionGroupIndexManager (FIREBASE_ERROR_APP_WAS_NOT_ASSIGNED
    FIREBASE_ERROR_OPERATION_CANCELLED : Int) (aVec : List Nat) (fb : FirestoreBase)
    (result : Option AsyncResult) (cb : Option AsyncResultCallback) (uid : Str)
    (parent : ParentResource) (index : Options) (collectionId indexId : Str)
    (deleteMode : Bool)
    (async : Bool) (created : Option async_data_item_t) :
    Dispatched FirestoreBase.async_request_data_t :=
  FirestoreBase.asyncRequest FIREBASE_ERROR_APP_WAS_NOT_ASSIGNED
    FIREBASE_ERROR_OPERATION_CANCELLED aVec fb
    (FirestoreBase.collectionGroupIndexManagerReq fb result cb uid parent
      index collectionId indexId deleteMode async) 0 created

/-- The methods of the calls of `newRequest` among the calls made, in order. -/
def methodsRequested : List Call → List http_request_method
  | [] => []
  | Call.newRequest _ _ _ method _ _ :: calls => method :: methodsRequested calls
  | _ :: calls => methodsRequested calls

/-- The text with every character `a` replaced by `repl` and every other
character kept in place. -/
def substChar (a : Char) (repl : Str) : Str → Str
  | [] => []
  | c :: s => (if c = a then repl else [c]) ++ substChar a repl s

/-- The text with every space replaced by `%20`, every comma by `%2C` and
every other character kept in place. -/
def encodeExtras : Str → Str
  | [] => []
  | c :: s =>
    (if c = ' ' then "%20".toList else if c = ',' then "%2C".toList else [c]) ++ encodeExtras s

/-- The pieces of a text put together again with `sep` between one piece and
the next. -/
def joinWith (sep : Str) : List Str → Str
  | [] => []
  | [p] => p
  | p :: q :: ps => p ++ sep ++ joinWith sep (q :: ps)

/-- `Document::printTo(p)`: the text printed, that of the stored buffer (no
call of `getBuf()`). -/
def Document.printTo (d : Document) : Str := cstr d.buf

/-- The double quote. -/
def QUOTE : Char := Char.ofNat 34

/-- The backslash. -/
def BACKSLASH : Char := Char.ofNat 92

/-- Whether a text can stand between the quotes of a JSON string literal as
far as quotes go: a backslash escapes the character after it, there is no
double quote that is not escaped, and no backslash is left without the
character it escapes. -/
def jsonStringContent : Str → Bool
  | [] => true
  | [c] => c != BACKSLASH && c != QUOTE
  | c :: d :: rest =>
    if c = BACKSLASH then jsonStringContent rest
    else if c = QUOTE then false
    else jsonStringContent (d :: rest)

/-! ## The operands of a field transform (namespace `FieldTransform`) -/

/-- An object of one of the operand structs of a field transform
(`Increment`, `Maximum`, `Minimum`, `AppendMissingElements`,
`RemoveAllFromArray`, `SetToServerValue`): they share the member `buf` and
the accessor `c_str()`, and the templates of `FieldTransform` reach their
argument through `c_str()` alone. -/
structure FieldTransform.Operand where
  buf : Str
deriving DecidableEq

/-- `c_str()` of an operand struct. -/
def FieldTransform.Operand.c_str (o : FieldTransform.Operand) : Str := cstr o.buf

/-- `FieldTransform::ServerValue`. -/
inductive FieldTransform.ServerValue where
  | SERVER_VALUE_UNSPECIFIED
  | REQUEST_TIME
deriving DecidableEq

/-- `Increment(value)`: the operand is read through `value.val()`. -/
def FieldTransform.Increment (value : TValue) : FieldTransform.Operand :=
  ⟨FSUT.setPair "increment".toList value.val false⟩

/-- `Maximum(value)`: the operand is read through `value.c_str()`. -/
def FieldTransform.Maximum (value : TValue) : FieldTransform.Operand :=
  ⟨FSUT.setPair "maximum".toList value.c_str false⟩

/-- `Minimum(value)`: the operand is read through `value.c_str()`. -/
def FieldTransform.Minimum (value : TValue) : FieldTransform.Operand :=
  ⟨FSUT.setPair "minimum".toList value.c_str false⟩

/-- `AppendMissingElements(arrayValue)`.  The body reads `value.c_str()`, and
`value` is not a name the constructor declares (its parameter is
`arrayValue`): what the name stands for is the parameter `value` here. -/
def FieldTransform.AppendMissingElements (_arrayValue : TValue) (value : TValue) :
    FieldTransform.Operand :=
  ⟨FSUT.setPair "appendMissingElements".toList value.c_str false⟩

/-- `RemoveAllFromArray(arrayValue)`.  The body reads `value.c_str()`, and
`value` is not a name the constructor declares (its parameter is
`arrayValue`): what the name stands for is the parameter `value` here. -/
def FieldTransform.RemoveAllFromArray (_arrayValue : TValue) (value : TValue) :
    FieldTransform.Operand :=
  ⟨FSUT.setPair "removeAllFromArray".toList value.c_str false⟩

/-- `SetToServerValue(enumValue)`. -/
def FieldTransform.SetToServerValue (enumValue : FieldTransform.ServerValue) :
    FieldTransform.Operand :=
  ⟨FSUT.setPair "setToServerValue".toList
    (JsonHelper.toString
      (if enumValue = .SERVER_VALUE_UNSPECIFIED then "SERVER_VALUE_UNSPECIFIED".toList
       else "REQUEST_TIME".toList)) false⟩

/-- `FieldTransform::FieldTransform::set(fieldPath, v)`: the object after the
call. -/
def FieldTransform.set (t : FieldTransform) (fieldPath : Str) (v : FieldTransform.Operand) :
    FieldTransform :=
  let buf := JsonHelper.addObject t.buf "fieldPath".toList (JsonHelper.toString fieldPath) false
  let buf := buf ++ ",".toList
  let str := v.c_str
  let buf := buf ++ substring str 1 (usub1 str.length)
  ⟨buf ++ "\x7d".toList⟩

/-- `FieldTransform(fieldPath, object)`, the template constructor.  Its body is
`set(fieldPath, value)`, and `value` is not a name the constructor declares
(its parameter is `object`): what the name stands for is the parameter
`value` here. -/
def FieldTransform.new (fieldPath : Str) (_object : FieldTransform.Operand)
    (value : FieldTransform.Operand) : FieldTransform :=
  FieldTransform.set ⟨[]⟩ fieldPath value

/-- `FieldTransform(fieldPath, AppendMissingElements<Values::ArrayValue> arrayvalue)`. -/
def FieldTransform.newAppendMissingElements (fieldPath : Str)
    (arrayvalue : FieldTransform.Operand) : FieldTransform :=
  FieldTransform.set ⟨[]⟩ fieldPath arrayvalue

/-- `FieldTransform(fieldPath, RemoveAllFromArray<Values::ArrayValue> arrayvalue)`. -/
def FieldTransform.newRemoveAllFromArray (fieldPath : Str)
    (arrayvalue : FieldTransform.Operand) : FieldTransform :=
  FieldTransform.set ⟨[]⟩ fieldPath arrayvalue

/-- The calls among those made that set the content of the request
(`setContentType`, `setContentLength`, `setFileContentLength`), in order. -/
def contentCalls : List Call → List Call
  | [] => []
  | Call.setContentType mime :: calls => Call.setContentType mime :: contentCalls calls
  | Call.setContentLength len :: calls => Call.setContentLength len :: contentCalls calls
  | Call.setFileContentLength :: calls => Call.setFileContentLength :: contentCalls calls
  | _ :: calls => contentCalls calls

/-! ## The top-level keys of an object text

A scan of a JSON text that follows the strings (a backslash escapes the
character after it) and the nesting of braces and brackets, and collects the
key of every member of the outermost object: the string that stands before a
colon met at depth one, outside a string. -/

/-- The opening brace. -/
def LBRACE : Char := Char.ofNat 123

/-- The closing brace. -/
def RBRACE : Char := Char.ofNat 125

/-- Where the scan stands: outside a string, inside one, or inside one right
after a backslash. -/
inductive ScanMode where
  | out
  | str
  | esc
deriving DecidableEq

/-- The state of the scan: the nesting depth, the mode, the string being read,
the last string read, and the keys collected so far. -/
structure KeyScan where
  depth : Nat
  mode : ScanMode
  cur : Str
  last : Str
  keys : List Str
deriving DecidableEq

/-- One character of the scan. -/
def KeyScan.step (st : KeyScan) (c : Char) : KeyScan :=
  match st.mode with
  | .esc => { st with mode := .str, cur := st.cur ++ [c] }
  | .str =>
    if c = BACKSLASH then { st with mode := .esc, cur := st.cur ++ [c] }
    else if c = QUOTE then { st with mode := .out, last := st.cur }
    else { st with cur := st.cur ++ [c] }
  | .out =>
    if c = QUOTE then { st with mode := .str, cur := [] }
    else if c = LBRACE ∨ c = '[' then { st with depth := st.depth + 1 }
    else if c = RBRACE ∨ c = ']' then { st with depth := st.depth - 1 }
    else if c = ':' ∧ st.depth = 1 then { st with keys := st.keys ++ [st.last] }
    else st

/-- The scan of a text from a state. -/
def KeyScan.run (st : KeyScan) (s : Str) : KeyScan := s.foldl KeyScan.step st

/-- The keys of the members of the outermost object of a text, in order. -/
def topLevelKeys (s : Str) : List Str := (KeyScan.run ⟨0, .out, [], [], []⟩ s).keys

/-- Whether a text has none of the characters that move the scan outside a
string: double quote, brace, bracket, colon. -/
def plainText (s : Str) : Bool :=
  s.all (fun c => c != QUOTE && c != LBRACE && c != RBRACE && c != '[' && c != ']' && c != ':')

/-- Whether a text stands as the value of a member of the outermost object:
scanned from depth one, outside a string, it ends there and has met no colon
at depth one. -/
def jsonValueText (s : Str) : Bool :=
  decide ((KeyScan.run ⟨1, .out, [], [], []⟩ s).depth = 1
    ∧ (KeyScan.run ⟨1, .out, [], [], []⟩ s).mode = .out
    ∧ (KeyScan.run ⟨1, .out, [], [], []⟩ s).keys = [])

/-! ## Theorems -/

/-! ### C strings -/

theorem noNul_nil : NoNul [] := by
  intro c hc; cases hc

theorem noNul_cons (c : Char) (s : Str) : NoNul (c :: s) ↔ c ≠ NUL ∧ NoNul s := by
  simp [NoNul]

theorem noNul_append (a b : Str) : NoNul (a ++ b) ↔ NoNul a ∧ NoNul b := by
  simp only [NoNul, List.mem_append]
  constructor
  · intro h
    exact ⟨fun c hc => h c (Or.inl hc), fun c hc => h c (Or.inr hc)⟩
  · rintro ⟨ha, hb⟩ c (hc | hc)
    · exact ha c hc
    · exact hb c hc

theorem cstr_of_noNul (s : Str) (h : NoNul s) : cstr s = s := by
  unfold cstr
  rw [List.takeWhile_eq_self_iff]
  intro c hc
  simpa using h c hc

theorem noNul_cstr (s : Str) : NoNul (cstr s) := by
  intro c hc
  have := List.mem_takeWhile_imp hc
  simpa using this

theorem cstr_cstr (s : Str) : cstr (cstr s) = cstr s :=
  cstr_of_noNul _ (noNul_cstr s)



@[simp] theorem cstr_nil : cstr [] = [] := rfl

theorem cstr_cons (c : Char) (s : Str) :
    cstr (c :: s) = if c = NUL then [] else c :: cstr s := by
  by_cases h : c = NUL <;> simp [cstr, List.takeWhile_cons, h]

theorem cstr_append_of_noNul (a b : Str) (h : NoNul a) : cstr (a ++ b) = a ++ cstr b := by
  induction a with
  | nil => rfl
  | cons c t ih =>
    rw [noNul_cons] at h
    simp [cstr_cons, h.1, ih h.2]

theorem cstr_cstr_append (a b : Str) : cstr (cstr a ++ b) = cstr a ++ cstr b :=
  cstr_append_of_noNul _ _ (noNul_cstr a)

/-! ### Decimal rendering -/

theorem digitChar_ne_NUL (n : Nat) : Nat.digitChar n ≠ NUL := by
  by_cases h : n < 16
  · interval_cases n <;> decide
  · obtain ⟨m, rfl⟩ : ∃ m, n = m + 16 := ⟨n - 16, by omega⟩
    simp only [Nat.digitChar]
    simp
    decide

theorem noNul_toDigitsCore (b : Nat) :
    ∀ (fuel n : Nat) (ds : List Char), NoNul ds → NoNul (Nat.toDigitsCore b fuel n ds)
  | 0, _, ds, h => by simpa [Nat.toDigitsCore] using h
  | fuel + 1, n, ds, h => by
    have hd : NoNul (Nat.digitChar (n % b) :: ds) :=
      (noNul_cons _ _).2 ⟨digitChar_ne_NUL _, h⟩
    unfold Nat.toDigitsCore
    by_cases h0 : n / b = 0
    · simpa [h0] using hd
    · simpa [h0] using noNul_toDigitsCore b fuel (n / b) _ hd

theorem noNul_String_ofInt (n : Int) : NoNul (Values.String_ofInt n) := by
  unfold Values.String_ofInt Nat.toDigits
  split
  · rw [noNul_append]
    exact ⟨by simp [noNul_cons, noNul_nil, NUL], noNul_toDigitsCore _ _ _ _ noNul_nil⟩
  · exact noNul_toDigitsCore _ _ _ _ noNul_nil

/-! ### Searching and cutting -/

theorem isPrefixOf_append_self (pat post : Str) : pat.isPrefixOf (pat ++ post) = true := by
  rw [List.isPrefixOf_iff_prefix]
  exact List.prefix_append pat post

theorem lastIndexOf_append_self (pre pat : Str) (hpat : pat ≠ [])
    (hnn : NoNul (pre ++ pat)) :
    lastIndexOf (pre ++ pat) pat = (pre.length : Int) := by
  have hlen : 0 < pat.length := List.length_pos.mpr hpat
  have hcond : ¬ (pat.length = 0 ∨ (pre ++ pat).length = 0 ∨ pat.length > (pre ++ pat).length) := by
    simp only [List.length_append]
    omega
  have hsub : (pre ++ pat).length - pat.length = pre.length := by
    simp [List.length_append]
  unfold lastIndexOf
  rw [if_neg hcond, hsub, cstr_of_noNul _ hnn]
  have hp : pat.isPrefixOf (List.drop pre.length (pre ++ pat)) = true := by
    rw [List.drop_left]
    simp
  cases hn : pre.length with
  | zero =>
    rw [hn] at hp
    simp only [List.drop_zero] at hp
    simp [lastIndexOfAux, hp]
  | succ m =>
    rw [hn] at hp
    simp [lastIndexOfAux, hp]

theorem toUnsigned_natCast (n : Nat) : toUnsigned (n : Int) = n := by
  simp [toUnsigned]

theorem substring_zero_left (pre suf : Str) (hsuf : suf ≠ []) :
    substring (pre ++ suf) 0 pre.length = pre := by
  have hlen : 0 < suf.length := List.length_pos.mpr hsuf
  have h1 : ¬ (0 ≥ (pre ++ suf).length) := by
    simp only [List.length_append]; omega
  have h2 : ¬ (pre.length > (pre ++ suf).length) := by
    simp only [List.length_append]; omega
  simp only [substring, gt_iff_lt, Nat.not_lt_zero, if_false, if_neg h1, List.drop_zero]
  rw [if_neg h2, List.take_left]

theorem usub1_succ (n : Nat) : usub1 (n + 1) = n := by
  simp [usub1]

theorem substring_strip (c e : Char) (mid : Str) :
    substring (c :: (mid ++ [e])) 1 (usub1 (c :: (mid ++ [e])).length) = mid := by
  have hl : (c :: (mid ++ [e])).length = (mid.length + 1) + 1 := by simp
  rw [hl, usub1_succ]
  have h0 : ¬ (1 > mid.length + 1) := by omega
  have h1 : ¬ (1 ≥ mid.length + 1 + 1) := by omega
  have h2 : ¬ (mid.length + 1 > mid.length + 1 + 1) := by omega
  simp only [substring, if_neg h0]
  rw [hl, if_neg h1, if_neg h2]
  simp [List.take_append_eq_append_take]

theorem setLast_append_singleton (pre : Str) (e c : Char) :
    setLast (pre ++ [e]) c = pre ++ [c] := by
  have hl : (pre ++ [e]).length = pre.length + 1 := by simp
  unfold setLast
  rw [hl, usub1_succ, List.set_append]
  simp

theorem addArray_closed (pre v : Str) (hpre : NoNul pre) :
    FSUT.addArray (pre ++ "]\x7d".toList) v = pre ++ ",".toList ++ v ++ "]\x7d".toList := by
  unfold FSUT.addArray
  simp only []
  rw [lastIndexOf_append_self _ _ (by decide) ((noNul_append _ _).2 ⟨hpre, by decide⟩),
    toUnsigned_natCast,
    substring_zero_left _ _ (by decide)]

theorem addObject_closed (pre mid : Str) (c e : Char) (hpre : NoNul pre) :
    FSUT.addObject (pre ++ "\x7d\x7d".toList) (c :: (mid ++ [e]))
      = pre ++ ",".toList ++ mid ++ "\x7d\x7d".toList := by
  unfold FSUT.addObject
  simp only []
  rw [lastIndexOf_append_self _ _ (by decide) ((noNul_append _ _).2 ⟨hpre, by decide⟩),
    toUnsigned_natCast,
    substring_zero_left _ _ (by decide), substring_strip]

theorem indexOfAux_found (pat : Str) (hpat : pat ≠ []) :
    ∀ (pre post : Str) (i : Nat), indexOfAux pat (pre ++ pat ++ post) i > -1
  | [], post, i => by
    obtain ⟨c, t, rfl⟩ := List.exists_cons_of_ne_nil hpat
    have hp : (c :: t).isPrefixOf (c :: (t ++ post)) = true :=
      isPrefixOf_append_self (c :: t) post
    show indexOfAux (c :: t) (c :: (t ++ post)) i > -1
    rw [indexOfAux, if_pos hp]
    omega
  | d :: pre, post, i => by
    simp only [List.cons_append, indexOfAux]
    split
    · omega
    · have := indexOfAux_found pat hpat pre post (i + 1)
      simp [List.append_assoc] at this ⊢
      exact this

theorem indexOf_found (pat pre post : Str) (hpat : pat ≠ [])
    (hnn : NoNul (pre ++ pat ++ post)) :
    indexOf (pre ++ pat ++ post) pat > -1 := by
  unfold indexOf
  rw [cstr_of_noNul _ hnn]
  exact indexOfAux_found pat hpat pre post 0

theorem joinComma_snoc : ∀ (l : List Str) (x : Str), l ≠ [] →
    joinComma (l ++ [x]) = joinComma l ++ ",".toList ++ x
  | [], _, h => absurd rfl h
  | [y], x, _ => by simp [joinComma]
  | y :: z :: rest, x, _ => by
    have ih := joinComma_snoc (z :: rest) x (by simp)
    simp only [List.cons_append] at ih ⊢
    simp [joinComma, ih, List.append_assoc]

theorem MAP_c_str (key : Str) (value : TValue) (hk : NoNul key) :
    (Values.MAP.new key value true).c_str
      = '\x7b' :: (member key value.val ++ ['\x7d']) := by
  simp [Values.MAP.new, Values.MAP.c_str, FSUT.setPair, JsonHelper.addObject, member, TValue.val, cstr_cons,
    NUL, cstr_append_of_noNul, hk, cstr_cstr_append]

theorem noNul_joinComma : ∀ (l : List Str), (∀ x ∈ l, NoNul x) → NoNul (joinComma l)
  | [], _ => noNul_nil
  | [x], h => h x (List.mem_cons_self _ _)
  | x :: y :: rest, h => by
    have ih := noNul_joinComma (y :: rest) (fun z hz => h z (List.mem_cons_of_mem _ hz))
    have hx := h x (List.mem_cons_self _ _)
    simp [joinComma, noNul_append, noNul_cons, noNul_nil, NUL, hx, ih]

theorem noNul_val (v : TValue) : NoNul v.val := noNul_cstr _

theorem noNul_member (key value : Str) (hk : NoNul key) (hv : NoNul value) :
    NoNul (member key value) := by
  simp [member, noNul_append, noNul_cons, noNul_nil, NUL, hk, hv]

theorem noNul_members (kvs : List (Str × TValue)) (hk : ∀ kv ∈ kvs, NoNul kv.1) :
    NoNul (joinComma (kvs.map (fun kv => member kv.1 kv.2.val))) := by
  apply noNul_joinComma
  intro x hx
  obtain ⟨kv, hkv, rfl⟩ := List.mem_map.1 hx
  exact noNul_member _ _ (hk kv hkv) (noNul_val _)

theorem MapValue_set_buf (m : Values.MapValue) (key : Str) (value : TValue) (hk : NoNul key) :
    (m.set key value).buf
      = "\x7b\"fields\":\x7b".toList ++ member key value.val ++ "\x7d\x7d".toList := by
  simp [Values.MapValue.set, MAP_c_str key value hk, FSUT.setPair, JsonHelper.addObject]

theorem MapValue_add_buf (m : Values.MapValue) (X key : Str) (value : TValue) (hk : NoNul key)
    (hX : NoNul X)
    (hm : m.buf = "\x7b\"fields\":\x7b".toList ++ X ++ "\x7d\x7d".toList) :
    (m.add key value).buf
      = "\x7b\"fields\":\x7b".toList ++ (X ++ ",".toList ++ member key value.val)
          ++ "\x7d\x7d".toList := by
  have hne : ¬ (m.buf.length = 0) := by rw [hm]; simp
  unfold Values.MapValue.add
  rw [if_neg hne, MAP_c_str key value hk]
  simp only [hm]
  rw [addObject_closed _ _ _ _ ((noNul_append _ _).2 ⟨by decide, hX⟩)]
  simp [List.append_assoc]

theorem MapValue_adds_buf : ∀ (kvs : List (Str × TValue)) (m : Values.MapValue) (done : List Str),
    done ≠ [] → (∀ x ∈ done, NoNul x) → (∀ kv ∈ kvs, NoNul kv.1) →
    m.buf = "\x7b\"fields\":\x7b".toList ++ joinComma done ++ "\x7d\x7d".toList →
    (m.adds kvs).buf
      = "\x7b\"fields\":\x7b".toList
          ++ joinComma (done ++ kvs.map (fun kv => member kv.1 kv.2.val))
          ++ "\x7d\x7d".toList
  | [], m, done, _, _, _, hm => by simpa [Values.MapValue.adds] using hm
  | kv :: kvs, m, done, hd, hdn, hk, hm => by
    have hk1 : NoNul kv.1 := hk kv (List.mem_cons_self _ _)
    have hstep := MapValue_add_buf m (joinComma done) kv.1 kv.2 hk1
      (noNul_joinComma done hdn) hm
    rw [← joinComma_snoc done _ hd] at hstep
    have hdn' : ∀ x ∈ done ++ [member kv.1 kv.2.val], NoNul x := by
      intro x hx
      rcases List.mem_append.1 hx with h | h
      · exact hdn x h
      · rw [List.mem_singleton] at h
        subst h
        exact noNul_member _ _ hk1 (noNul_val _)
    have ih := MapValue_adds_buf kvs (m.add kv.1 kv.2) (done ++ [member kv.1 kv.2.val])
      (by simp) hdn' (fun x hx => hk x (List.mem_cons_of_mem _ hx)) hstep
    simpa [Values.MapValue.adds, List.append_assoc] using ih

theorem MapValue_val_of_buf (m : Values.MapValue) (X : Str) (hX : NoNul X)
    (hm : m.buf = "\x7b\"fields\":\x7b".toList ++ X ++ "\x7d\x7d".toList) :
    m.val = "\x7b\"mapValue\":\x7b\"fields\":\x7b".toList ++ X ++ "\x7d\x7d\x7d".toList := by
  simp [Values.MapValue.val, hm, FSUT.setPair, JsonHelper.addObject, firestore_const_key_text,
    firestore_const_key, firestore_const_key_mapValue, cstr_cons, NUL, cstr_append_of_noNul, hX]

theorem MapValue_new_adds_buf (k1 : Str) (v1 : TValue) (kvs : List (Str × TValue))
    (hk1 : NoNul k1) (hk : ∀ kv ∈ kvs, NoNul kv.1) :
    ((Values.MapValue.new k1 v1).adds kvs).buf
      = "\x7b\"fields\":\x7b".toList
          ++ joinComma (((k1, v1) :: kvs).map (fun kv => member kv.1 kv.2.val))
          ++ "\x7d\x7d".toList := by
  have h0 := MapValue_set_buf Values.MapValue.empty k1 v1 hk1
  have hd1 : ∀ x ∈ [member k1 v1.val], NoNul x := by
    intro x hx
    rw [List.mem_singleton] at hx
    subst hx
    exact noNul_member _ _ hk1 (noNul_val _)
  have := MapValue_adds_buf kvs (Values.MapValue.new k1 v1) [member k1 v1.val] (by simp) hd1 hk
    (by simpa [Values.MapValue.new, joinComma] using h0)
  simpa using this

/-! ### Documents -/

theorem noNul_getDocPath (name : Str) (hn : NoNul name) : NoNul (FSUT.getDocPath name) := by
  unfold FSUT.getDocPath FIRESTORE_RESOURCE_PATH_BASE
  simp only []
  split
  · split <;> simp [noNul_append, noNul_cons, NUL, hn]
  · decide

theorem Document_getBuf_mv (d : Document) : d.getBuf.mv = d.mv := rfl

theorem Document_getBuf_name (d : Document) : d.getBuf.name = d.name := rfl

theorem Document_run_mv : ∀ (ops : List DocOp) (d : Document),
    (d.run ops).mv = d.mv.adds ((DocOp.fields ops).map (fun kv => (kv.1, kv.2.toT)))
  | [], _ => rfl
  | .add key value :: ops, d => by
    have ih := Document_run_mv ops (d.add key value)
    simpa [Document.run, Document.apply, DocOp.fields, Values.MapValue.adds, Document.add,
      Document_getBuf_mv] using ih
  | .setName name :: ops, d => by
    have ih := Document_run_mv ops (d.setName name)
    simpa [Document.run, Document.apply, DocOp.fields, Values.MapValue.adds, Document.setName,
      Document_getBuf_mv] using ih

theorem Document_run_name : ∀ (ops : List DocOp) (d : Document),
    (d.run ops).name = DocOp.lastName d.name ops
  | [], _ => rfl
  | .add key value :: ops, d => by
    have ih := Document_run_name ops (d.add key value)
    simpa [Document.run, Document.apply, DocOp.lastName, Document.add,
      Document_getBuf_name] using ih
  | .setName name :: ops, d => by
    have ih := Document_run_name ops (d.setName name)
    simpa [Document.run, Document.apply, DocOp.lastName, Document.setName,
      Document_getBuf_name] using ih

theorem Document_c_str_fields (d : Document) (X : Str) (hX : NoNul X)
    (h : d.mv.buf = "\x7b\"fields\":\x7b".toList ++ X ++ "\x7d\x7d".toList)
    (hn : NoNul d.name) :
    d.c_str = "\x7b\"name\":\"".toList ++ FSUT.getDocPath d.name
        ++ "\",\"fields\":\x7b".toList ++ X ++ "\x7d\x7d".toList := by
  have hp := noNul_getDocPath d.name hn
  have hmap : d.mv.c_str = '\x7b' :: (("\"fields\":\x7b".toList ++ X ++ "\x7d".toList) ++ ['\x7d']) := by
    simp [Values.MapValue.c_str, h, cstr_cons, NUL, cstr_append_of_noNul, hX]
  have hname : JsonHelper.addObject [] "name".toList
      (JsonHelper.toString (FSUT.getDocPath d.name)) true
      = ("\x7b\"name\":\"".toList ++ FSUT.getDocPath d.name ++ "\"".toList) ++ ['\x7d'] := by
    simp [JsonHelper.addObject, JsonHelper.toString]
  have hne : (d.mv.c_str).length ≠ 0 := by rw [hmap]; simp
  unfold Document.c_str Document.getBuf
  simp only []
  rw [if_pos hne, hname, setLast_append_singleton, hmap, substring_strip]
  simp [cstr_cons, NUL, cstr_append_of_noNul, hp, hX]

/-! ### The tag flags of `ArrayValue` -/

theorem getD_set_of_ne (l : List Bool) (i j : Nat) (h : i ≠ j) :
    (l.set i true).getD j false = l.getD j false := by
  simp [List.getD_eq_getElem?_getD, List.getElem?_set_ne h]

theorem getD_set_self (l : List Bool) (i : Nat) (h : i < l.length) :
    (l.set i true).getD i false = true := by
  simp [List.getD_eq_getElem?_getD, List.getElem?_set_self, h]

theorem getD_set_mono (l : List Bool) (i j : Nat) (h : l.getD j false = true) :
    (l.set i true).getD j false = true := by
  by_cases hij : i = j
  · subst hij
    have hlt : i < l.length := by
      by_contra hge
      rw [List.getD_eq_default _ _ (by omega)] at h
      exact Bool.false_ne_true h
    exact getD_set_self l i hlt
  · rw [getD_set_of_ne l i j hij]; exact h

theorem isExistedLoop_length (tmp : Str) : ∀ (is : List Nat) (flags : List Bool),
    (Values.ArrayValue.isExistedLoop tmp is flags).2.length = flags.length
  | [], _ => rfl
  | i :: rest, flags => by
    unfold Values.ArrayValue.isExistedLoop
    split
    · split
      · rfl
      · rw [isExistedLoop_length tmp rest, List.length_set]
    · exact isExistedLoop_length tmp rest flags

theorem isExistedLoop_mono (tmp : Str) (j : Nat) : ∀ (is : List Nat) (flags : List Bool),
    flags.getD j false = true →
    (Values.ArrayValue.isExistedLoop tmp is flags).2.getD j false = true
  | [], _, h => h
  | i :: rest, flags, h => by
    unfold Values.ArrayValue.isExistedLoop
    split
    · split
      · exact h
      · exact isExistedLoop_mono tmp j rest _ (getD_set_mono flags i j h)
    · exact isExistedLoop_mono tmp j rest flags h

theorem isExistedLoop_true (tmp : Str) : ∀ (is : List Nat) (flags : List Bool),
    (∃ k ∈ is, indexOf tmp (firestore_const_key_text k) > -1 ∧ flags.getD k false = true) →
    (Values.ArrayValue.isExistedLoop tmp is flags).1 = true
  | [], _, h => by
    obtain ⟨k, hk, _⟩ := h
    cases hk
  | i :: rest, flags, h => by
    obtain ⟨k, hk, hocc, hflag⟩ := h
    unfold Values.ArrayValue.isExistedLoop
    split
    · split
      · rfl
      · rename_i hfi
        have hne : k ≠ i := by
          rintro rfl
          exact hfi hflag
        have hk' : k ∈ rest := by
          rcases List.mem_cons.1 hk with h | h
          · exact absurd h hne
          · exact h
        exact isExistedLoop_true tmp rest _ ⟨k, hk', hocc, getD_set_mono flags i k hflag⟩
    · rename_i hoi
      have hne : k ≠ i := by
        rintro rfl
        exact hoi hocc
      have hk' : k ∈ rest := by
        rcases List.mem_cons.1 hk with h | h
        · exact absurd h hne
        · exact h
      exact isExistedLoop_true tmp rest flags ⟨k, hk', hocc, hflag⟩

theorem isExistedLoop_false_sets (tmp : Str) : ∀ (is : List Nat) (flags : List Bool),
    (Values.ArrayValue.isExistedLoop tmp is flags).1 = false →
    ∀ k ∈ is, k < flags.length → indexOf tmp (firestore_const_key_text k) > -1 →
      (Values.ArrayValue.isExistedLoop tmp is flags).2.getD k false = true
  | [], _, _, k, hk, _, _ => by cases hk
  | i :: rest, flags, h, k, hk, hlt, hocc => by
    unfold Values.ArrayValue.isExistedLoop at h ⊢
    split
    · rename_i hoi
      rw [if_pos hoi] at h
      split
      · rename_i hfi
        rw [if_pos hfi] at h
        exact absurd h (by simp)
      · rename_i hfi
        rw [if_neg hfi] at h
        rcases List.mem_cons.1 hk with rfl | hk'
        · exact isExistedLoop_mono tmp k rest _ (getD_set_self flags k hlt)
        · exact isExistedLoop_false_sets tmp rest _ h k hk' (by rw [List.length_set]; exact hlt)
            hocc
    · rename_i hoi
      rw [if_neg hoi] at h
      rcases List.mem_cons.1 hk with rfl | hk'
      · exact absurd hocc hoi
      · exact isExistedLoop_false_sets tmp rest flags h k hk' hlt hocc

theorem isExistedLoop_fresh (tmp : Str) : ∀ (is : List Nat) (flags : List Bool),
    is.Nodup → (∀ k ∈ is, flags.getD k false = false) →
    (Values.ArrayValue.isExistedLoop tmp is flags).1 = false
  | [], _, _, _ => rfl
  | i :: rest, flags, hnd, h => by
    have hi : flags.getD i false = false := h i (List.mem_cons_self _ _)
    have hnd' := List.nodup_cons.1 hnd
    unfold Values.ArrayValue.isExistedLoop
    split
    · rw [if_neg (by rw [hi]; simp)]
      apply isExistedLoop_fresh tmp rest _ hnd'.2
      intro k hk
      have hne : i ≠ k := by
        rintro rfl
        exact hnd'.1 hk
      rw [getD_set_of_ne flags i k hne]
      exact h k (List.mem_cons_of_mem _ hk)
    · exact isExistedLoop_fresh tmp rest flags hnd'.2
        (fun k hk => h k (List.mem_cons_of_mem _ hk))

theorem isExisted_buf (a : Values.ArrayValue) (v : TValue) : (a.isExisted v).2.buf = a.buf := rfl

theorem isExisted_length (a : Values.ArrayValue) (v : TValue) :
    (a.isExisted v).2.flags.length = a.flags.length :=
  isExistedLoop_length _ _ _

theorem isExisted_mono (a : Values.ArrayValue) (v : TValue) (j : Nat)
    (h : a.flags.getD j false = true) : (a.isExisted v).2.flags.getD j false = true :=
  isExistedLoop_mono _ j _ _ h

theorem ArrayValue_new_inv (v1 : TValue) : ArrInv (Values.ArrayValue.new v1) [v1] := by
  have hfresh : (Values.ArrayValue.isExisted ⟨[], List.replicate 11 false⟩ v1).1 = false := by
    apply isExistedLoop_fresh _ _ _ (List.nodup_range _)
    intro k _
    rw [List.getD_eq_getElem?_getD, List.getElem?_replicate]
    split <;> rfl
  have hnew : Values.ArrayValue.new v1
      = { (Values.ArrayValue.isExisted ⟨[], List.replicate 11 false⟩ v1).2 with
          buf := FSUT.setPair "values".toList v1.val true } := by
    simp only [Values.ArrayValue.new, Values.ArrayValue.set, hfresh, Bool.false_eq_true,
      if_false]
  refine ⟨?_, by simp, ?_, ?_⟩
  · rw [hnew]
    simpa using isExisted_length ⟨[], List.replicate 11 false⟩ v1
  · rw [hnew]
    simp [FSUT.setPair, FSUT.getArrayStr, JsonHelper.addObject, joinComma]
  · intro e he k hk hocc
    rw [List.mem_singleton] at he
    subst he
    rw [hnew]
    exact isExistedLoop_false_sets _ _ _ hfresh k
      (List.mem_range.2 (by simp [firestore_const_key_mapValue]; omega)) (by simpa using hk) hocc

theorem ArrayValue_add_rejected (a : Values.ArrayValue) (v : TValue)
    (h : (a.isExisted v).1 = true) : a.add v = (a.isExisted v).2 := by
  simp [Values.ArrayValue.add, h]

theorem ArrayValue_add_accepted (a : Values.ArrayValue) (v : TValue)
    (h : (a.isExisted v).1 = false) (hb : a.buf.length ≠ 0) :
    a.add v = { (a.isExisted v).2 with buf := FSUT.addArray a.buf v.val } := by
  simp [Values.ArrayValue.add, h, isExisted_buf, hb]

theorem ArrayValue_add_inv (a : Values.ArrayValue) (es : List TValue) (v : TValue)
    (hinv : ArrInv a es) :
    ArrInv (a.add v) (if (a.isExisted v).1 then es else es ++ [v]) := by
  obtain ⟨hlen, hne, hbuf, hflags⟩ := hinv
  cases hex : (a.isExisted v).1 with
  | true =>
    rw [ArrayValue_add_rejected a v hex]
    simp only [if_true]
    exact ⟨by rw [isExisted_length]; exact hlen, hne, by rw [isExisted_buf]; exact hbuf,
      fun e he k hk hocc => isExisted_mono a v k (hflags e he k hk hocc)⟩
  | false =>
    have hb : a.buf.length ≠ 0 := by rw [hbuf]; simp
    rw [ArrayValue_add_accepted a v hex hb]
    simp only [Bool.false_eq_true, if_false]
    refine ⟨by simpa using (isExisted_length a v).trans hlen, by simp, ?_, ?_⟩
    · simp only [hbuf]
      have hes : NoNul (joinComma (es.map TValue.val)) := by
        apply noNul_joinComma
        intro x hx
        obtain ⟨e, _, rfl⟩ := List.mem_map.1 hx
        exact noNul_val e
      rw [addArray_closed _ _ ((noNul_append _ _).2 ⟨by decide, hes⟩), List.map_append,
        List.map_singleton,
        joinComma_snoc _ _ (by simpa using hne)]
      simp [List.append_assoc]
    · intro e he k hk hocc
      rcases List.mem_append.1 he with he | he
      · exact isExisted_mono a v k (hflags e he k hk hocc)
      · rw [List.mem_singleton] at he
        subst he
        exact isExistedLoop_false_sets _ _ _ hex k
          (List.mem_range.2 (by simp [firestore_const_key_mapValue]; omega))
          (by rw [hlen]; exact hk) hocc

theorem ArrayValue_adds_inv : ∀ (vs : List TValue) (a : Values.ArrayValue) (es : List TValue),
    ArrInv a es → ArrInv (a.adds vs) (Values.ArrayValue.heldAfter a es vs)
  | [], _, _, h => h
  | v :: vs, a, es, h => by
    have := ArrayValue_adds_inv vs (a.add v) _ (ArrayValue_add_inv a es v h)
    simpa [Values.ArrayValue.adds, Values.ArrayValue.heldAfter] using this

theorem heldAfter_allAccepted : ∀ (vs : List TValue) (a : Values.ArrayValue) (es : List TValue),
    a.allAccepted vs = true → Values.ArrayValue.heldAfter a es vs = es ++ vs
  | [], _, _, _ => by simp [Values.ArrayValue.heldAfter]
  | v :: vs, a, es, h => by
    simp only [Values.ArrayValue.allAccepted, Bool.and_eq_true, Bool.not_eq_true'] at h
    have := heldAfter_allAccepted vs (a.add v) (es ++ [v]) h.2
    simp [Values.ArrayValue.heldAfter, h.1, this]

theorem ArrayValue_val_of_inv (a : Values.ArrayValue) (es : List TValue) (hinv : ArrInv a es) :
    a.val = "\x7b\"arrayValue\":\x7b\"values\":[".toList ++ joinComma (es.map TValue.val)
      ++ "]\x7d\x7d".toList
    ∧ a.c_str = "\x7b\"values\":[".toList ++ joinComma (es.map TValue.val) ++ "]\x7d".toList := by
  have hX : NoNul (joinComma (es.map TValue.val)) := by
    apply noNul_joinComma
    intro x hx
    obtain ⟨e, _, rfl⟩ := List.mem_map.1 hx
    exact noNul_val e
  constructor
  · simp [Values.ArrayValue.val, hinv.2.2.1, FSUT.setPair, JsonHelper.addObject,
      firestore_const_key_text, firestore_const_key, firestore_const_key_arrayValue, cstr_cons,
      NUL, cstr_append_of_noNul, hX]
  · simp [Values.ArrayValue.c_str, hinv.2.2.1, cstr_cons, NUL, cstr_append_of_noNul, hX]
theorem heldAfter_append : ∀ (vs ws : List TValue) (a : Values.ArrayValue) (es : List TValue),
    Values.ArrayValue.heldAfter a es (vs ++ ws)
      = Values.ArrayValue.heldAfter (a.adds vs) (Values.ArrayValue.heldAfter a es vs) ws
  | [], _, _, _ => rfl
  | v :: vs, ws, a, es => by
    have := heldAfter_append vs ws (a.add v) (if (a.isExisted v).1 then es else es ++ [v])
    simpa [Values.ArrayValue.heldAfter, Values.ArrayValue.adds] using this

theorem firestore_const_key_text_ne_nil (k : Nat) (hk : k < 11) :
    firestore_const_key_text k ≠ [] := by
  interval_cases k <;> decide

theorem occurs_of_topTag (k : Nat) (v : TValue) (hk : k < 11) (h : topTag k v = true) :
    indexOf v.val (firestore_const_key_text k) > -1 := by
  unfold topTag at h
  rw [List.isPrefixOf_iff_prefix] at h
  obtain ⟨rest, hrest⟩ := h
  rw [← hrest]
  have hnn : NoNul ("\x7b\"".toList ++ firestore_const_key_text k ++ ("\":".toList ++ rest)) := by
    have := noNul_val v
    rw [← hrest] at this
    simpa [List.append_assoc] using this
  have := indexOf_found (firestore_const_key_text k) "\x7b\"".toList ("\":".toList ++ rest)
    (firestore_const_key_text_ne_nil k hk) hnn
  simpa [List.append_assoc] using this

theorem isExisted_of_tag_held (a : Values.ArrayValue) (es : List TValue) (v : TValue) (k : Nat)
    (hinv : ArrInv a es) (hk : k < 11) (hv : topTag k v = true)
    (he : ∃ e ∈ es, topTag k e = true) : (a.isExisted v).1 = true := by
  obtain ⟨e, hmem, htag⟩ := he
  have hflag := hinv.2.2.2 e hmem k hk (occurs_of_topTag k e hk htag)
  exact isExistedLoop_true _ _ _
    ⟨k, List.mem_range.2 (by simp [firestore_const_key_mapValue]; omega),
      occurs_of_topTag k v hk hv, hflag⟩

/-! ### Writes -/

theorem noNul_Document_c_str (d : Document) : NoNul d.c_str := noNul_cstr _

theorem Write_newUpdate_buf_eq_c_str (updateMask : DocumentMask) (update : Document)
    (currentDocument : Precondition) :
    (Write.newUpdate updateMask update currentDocument).buf
      = (Write.newUpdate updateMask update currentDocument).c_str := by
  have hD : NoNul update.c_str := noNul_cstr _
  have hM : NoNul updateMask.c_str := noNul_cstr _
  have hP : NoNul currentDocument.c_str := noNul_cstr _
  by_cases hm : updateMask.c_str = [] <;> by_cases hp : currentDocument.c_str = [] <;>
    simp [Write.newUpdate, Write.c_str, JsonHelper.addObject, hm, hp, cstr_cons, NUL,
      cstr_append_of_noNul, hD, hM, hP, cstr_of_noNul]

theorem Write_newUpdate_buf_closed (updateMask : DocumentMask) (update : Document)
    (currentDocument : Precondition) :
    ∃ S : Str, NoNul S ∧ (Write.newUpdate updateMask update currentDocument).buf = S ++ ['\x7d'] := by
  have hD : NoNul update.c_str := noNul_cstr _
  have hM : NoNul updateMask.c_str := noNul_cstr _
  have hP : NoNul currentDocument.c_str := noNul_cstr _
  by_cases hm : updateMask.c_str = [] <;> by_cases hp : currentDocument.c_str = []
  · exact ⟨"\x7b\"update\":".toList ++ update.c_str,
      by simp [noNul_append, noNul_cons, noNul_nil, NUL, hD],
      by simp [Write.newUpdate, JsonHelper.addObject, hm, hp]⟩
  · exact ⟨"\x7b\"update\":".toList ++ update.c_str ++ ",\"currentDocument\":".toList
        ++ currentDocument.c_str,
      by simp [noNul_append, noNul_cons, noNul_nil, NUL, hD, hP],
      by simp [Write.newUpdate, JsonHelper.addObject, hm, hp]⟩
  · exact ⟨"\x7b\"update\":".toList ++ update.c_str ++ ",\"updateMask\":".toList
        ++ updateMask.c_str,
      by simp [noNul_append, noNul_cons, noNul_nil, NUL, hD, hM],
      by simp [Write.newUpdate, JsonHelper.addObject, hm, hp]⟩
  · exact ⟨"\x7b\"update\":".toList ++ update.c_str ++ ",\"updateMask\":".toList
        ++ updateMask.c_str ++ ",\"currentDocument\":".toList ++ currentDocument.c_str,
      by simp [noNul_append, noNul_cons, noNul_nil, NUL, hD, hM, hP],
      by simp [Write.newUpdate, JsonHelper.addObject, hm, hp]⟩

theorem cstr_append_NUL (S rest : Str) (hS : NoNul S) : cstr (S ++ NUL :: rest) = S := by
  rw [cstr_append_of_noNul _ _ hS]
  simp [cstr_cons]
theorem Writes_adds_buf : ∀ (ws : List Write) (w : Writes) (pre : Str) (done : List Str),
    done ≠ [] → NoNul pre → (∀ x ∈ done, NoNul x) →
    w.buf = pre ++ joinComma done ++ "]\x7d".toList →
    (w.adds ws).buf = pre ++ joinComma (done ++ ws.map Write.c_str) ++ "]\x7d".toList
  | [], _, _, _, _, _, _, hw => by simpa [Writes.adds] using hw
  | x :: ws, w, pre, done, hd, hpre, hdn, hw => by
    have hstep : (w.add x).buf = pre ++ joinComma (done ++ [x.c_str]) ++ "]\x7d".toList := by
      simp only [Writes.add, hw]
      rw [addArray_closed _ _ ((noNul_append _ _).2 ⟨hpre, noNul_joinComma done hdn⟩),
        joinComma_snoc done _ hd]
      simp [List.append_assoc]
    have hdn' : ∀ y ∈ done ++ [x.c_str], NoNul y := by
      intro y hy
      rcases List.mem_append.1 hy with h | h
      · exact hdn y h
      · rw [List.mem_singleton] at h
        subst h
        exact noNul_cstr _
    have ih := Writes_adds_buf ws (w.add x) pre (done ++ [x.c_str]) (by simp) hpre hdn' hstep
    simpa [Writes.adds, List.append_assoc] using ih

/-! ### Dispatchers -/

theorem FirestoreBase_setClientError_eq (request : FirestoreBase.async_request_data_t)
    (code : Int) :
    (FirestoreBase.setClientError request code).calls
        = errorCallbacks request.cb request.aResult code
    ∧ (FirestoreBase.setClientError request code).request
        = (match request.aResult with
           | some _ => { request with aResult := some (markedResult request.aResult code) }
           | none => request)
    ∧ (FirestoreBase.setClientError request code).temporary
        = (match request.aResult with
           | some _ => none
           | none => some (markedResult none code)) := by
  cases hr : request.aResult <;> cases hc : request.cb <;>
    simp [FirestoreBase.setClientError, errorCallbacks, markedResult, hr, hc,
      FirebaseError.setClientError]

theorem CloudStorage_setClientError_eq (request : GoogleCloudStorage.async_request_data_t)
    (code : Int) :
    (CloudStorage.setClientError request code).calls
        = errorCallbacks request.cb request.aResult code
    ∧ (CloudStorage.setClientError request code).request
        = (match request.aResult with
           | some _ => { request with aResult := some (markedResult request.aResult code) }
           | none => request)
    ∧ (CloudStorage.setClientError request code).temporary
        = (match request.aResult with
           | some _ => none
           | none => some (markedResult none code)) := by
  cases hr : request.aResult <;> cases hc : request.cb <;>
    simp [CloudStorage.setClientError, errorCallbacks, markedResult, hr, hc,
      FirebaseError.setClientError]

theorem errorCallbacks_not_onTransport (cb : Option AsyncResultCallback)
    (r : Option AsyncResult) (code : Int) :
    ∀ c ∈ errorCallbacks cb r code, c.onTransport = false := by
  cases cb <;> simp [errorCallbacks, Call.onTransport]

theorem FirestoreBase_appToken_none (fb : FirestoreBase) (aVec : List Nat)
    (h : existed aVec fb.app_addr = false ∨ fb.app_token = none) : fb.appToken aVec = none := by
  unfold FirestoreBase.appToken
  rcases h with h | h
  · simp [h]
  · simp [h]

theorem CloudStorage_appToken_none (cs : CloudStorage) (aVec : List Nat)
    (h : existed aVec cs.app_addr = false ∨ cs.app_token = none) : cs.appToken aVec = none := by
  unfold CloudStorage.appToken
  rcases h with h | h
  · simp [h]
  · simp [h]

/-! ### The slot handed on by `asyncRequest` -/

theorem setFileStatus_request_ota (s : async_data_item_t)
    (r : GoogleCloudStorage.async_request_data_t) :
    (CloudStorage.setFileStatus s r).request_ota = s.request_ota := by
  unfold CloudStorage.setFileStatus
  split <;> rfl

theorem setFileStatus_download_data_ota (s : async_data_item_t)
    (r : GoogleCloudStorage.async_request_data_t) :
    (CloudStorage.setFileStatus s r).aResult_download_data_ota = s.aResult_download_data_ota := by
  unfold CloudStorage.setFileStatus
  split <;> rfl

theorem setFileStatus_cb (s : async_data_item_t)
    (r : GoogleCloudStorage.async_request_data_t) :
    (CloudStorage.setFileStatus s r).cb = s.cb := by
  unfold CloudStorage.setFileStatus
  split <;> rfl

theorem setFileStatus_refResult (s : async_data_item_t)
    (r : GoogleCloudStorage.async_request_data_t) :
    (CloudStorage.setFileStatus s r).refResult = s.refResult := by
  unfold CloudStorage.setFileStatus
  split <;> rfl

theorem methodsRequested_append (xs ys : List Call) :
    methodsRequested (xs ++ ys) = methodsRequested xs ++ methodsRequested ys := by
  induction xs with
  | nil => rfl
  | cons c xs ih => cases c <;> simp [methodsRequested, ih]

theorem methodsRequested_errorCallbacks (cb : Option AsyncResultCallback)
    (r : Option AsyncResult) (code : Int) : methodsRequested (errorCallbacks cb r code) = [] := by
  cases cb <;> rfl

theorem FirestoreBase_asyncRequest_methodsRequested (notAssigned cancelled : Int)
    (aVec : List Nat) (fb : FirestoreBase) (request : FirestoreBase.async_request_data_t)
    (beta : Int) (created : Option async_data_item_t) :
    methodsRequested (FirestoreBase.asyncRequest notAssigned cancelled aVec fb request beta
        created).calls
      = if (fb.appToken aVec).isSome ∧ created.isSome then [request.method] else [] := by
  cases hF : fb.appToken aVec with
  | none =>
    simp [FirestoreBase.asyncRequest, hF, (FirestoreBase_setClientError_eq _ _).1,
      methodsRequested_errorCallbacks]
  | some token =>
    cases created with
    | none =>
      simp [FirestoreBase.asyncRequest, hF, (FirestoreBase_setClientError_eq _ _).1,
        methodsRequested_errorCallbacks, methodsRequested]
    | some sData =>
      by_cases hp : request.options.payload = [] <;>
        simp [FirestoreBase.asyncRequest, hF, hp, methodsRequested]

/-! ### `String::replace` -/

theorem replaceAux_char (a : Char) (repl : Str) :
    ∀ (fuel : Nat) (s : Str), s.length ≤ fuel →
      replaceAux [a] repl fuel s = substChar a repl s
  | 0, s, h => by
    have hs : s = [] := List.length_eq_zero.1 (Nat.le_zero.1 h)
    subst hs
    rfl
  | _ + 1, [], _ => rfl
  | fuel + 1, c :: s, h => by
    have hl : s.length ≤ fuel := by simpa using h
    by_cases hc : c = a
    · subst hc
      simp [replaceAux, substChar, replaceAux_char _ repl fuel s hl]
    · have hc2 : ¬ a = c := fun e => hc e.symm
      simp [replaceAux, substChar, replaceAux_char a repl fuel s hl, hc, hc2]

theorem replace_char (s : Str) (a : Char) (repl : Str) (hs : NoNul s) :
    replace s [a] repl = substChar a repl s := by
  unfold replace
  by_cases h0 : s.length = 0
  · have hs0 : s = [] := List.length_eq_zero.1 h0
    subst hs0
    simp [substChar]
  · rw [if_neg (by simp [h0]), cstr_of_noNul s hs, replaceAux_char a repl _ s (Nat.le_refl _)]
    simp

theorem noNul_substChar (a : Char) (repl s : Str) (hr : NoNul repl) (hs : NoNul s) :
    NoNul (substChar a repl s) := by
  induction s with
  | nil => simpa [substChar] using noNul_nil
  | cons c s ih =>
    have hc := (noNul_cons c s).1 hs
    unfold substChar
    split
    · exact (noNul_append _ _).2 ⟨hr, ih hc.2⟩
    · exact (noNul_append _ _).2 ⟨(noNul_cons c []).2 ⟨hc.1, noNul_nil⟩, ih hc.2⟩

theorem substChar_append (a : Char) (repl x y : Str) :
    substChar a repl (x ++ y) = substChar a repl x ++ substChar a repl y := by
  induction x with
  | nil => rfl
  | cons c x ih => simp [substChar, ih]

theorem substChar_comma_space (e : Str) :
    substChar ',' "%2C".toList (substChar ' ' "%20".toList e) = encodeExtras e := by
  induction e with
  | nil => rfl
  | cons c e ih =>
    by_cases h1 : c = ' '
    · subst h1
      simpa [substChar, encodeExtras, substChar_append] using ih
    · by_cases h2 : c = ','
      · subst h2
        simpa [substChar, encodeExtras, substChar_append] using ih
      · simpa [substChar, encodeExtras, substChar_append, h1, h2] using ih

theorem encodeExtras_no_space_comma (e : Str) :
    ' ' ∉ encodeExtras e ∧ ',' ∉ encodeExtras e := by
  induction e with
  | nil => simp [encodeExtras]
  | cons c e ih =>
    by_cases h1 : c = ' '
    · subst h1
      simpa [encodeExtras] using ih
    · by_cases h2 : c = ','
      · subst h2
        simpa [encodeExtras] using ih
      · have h1s : ¬ ' ' = c := fun e => h1 e.symm
        have h2s : ¬ ',' = c := fun e => h2 e.symm
        simpa [encodeExtras, h1, h2, h1s, h2s] using ih

theorem encodeExtras_length (e : Str) :
    (encodeExtras e).length = e.length + 2 * (e.count ' ' + e.count ',') := by
  induction e with
  | nil => rfl
  | cons c e ih =>
    by_cases h1 : c = ' '
    · subst h1
      simp [encodeExtras, ih, List.count_cons]
      omega
    · by_cases h2 : c = ','
      · subst h2
        simp [encodeExtras, ih, List.count_cons]
        omega
      · simp [encodeExtras, ih, List.count_cons, h1, h2]
        omega

theorem replace_space_comma (e : Str) (he : NoNul e) :
    replace (replace e " ".toList "%20".toList) ",".toList "%2C".toList = encodeExtras e := by
  have h1 : replace e " ".toList "%20".toList = substChar ' ' "%20".toList e :=
    replace_char e ' ' _ he
  have hn : NoNul (substChar ' ' "%20".toList e) :=
    noNul_substChar _ _ _ (by simp [noNul_cons, noNul_nil, NUL]) he
  rw [h1]
  exact (replace_char _ ',' _ hn).trans (substChar_comma_space e)

theorem prefix_of_prefix_append_cons {pat u y : Str} {c : Char} (hc : c ∉ pat)
    (h : pat <+: u ++ c :: y) : pat <+: u := by
  rcases List.prefix_or_prefix_of_prefix h (List.prefix_append u (c :: y)) with h1 | h1
  · exact h1
  · obtain ⟨w, rfl⟩ := h1
    have hw : w <+: c :: y := (List.prefix_append_right_inj u).1 h
    rcases List.prefix_cons_iff.1 hw with h2 | ⟨t, h2, _⟩
    · subst h2
      simp
    · subst h2
      exact absurd (by simp) hc

theorem infix_split_at {pat : Str} {c : Char} (hc : c ∉ pat) :
    ∀ (x y : Str), pat <:+: x ++ c :: y → pat <:+: x ∨ pat <:+: y
  | [], y, h => by
    rcases List.infix_cons_iff.1 h with h1 | h1
    · exact Or.inl (prefix_of_prefix_append_cons (u := []) hc h1).isInfix
    · exact Or.inr h1
  | a :: x, y, h => by
    rcases List.infix_cons_iff.1 h with h1 | h1
    · exact Or.inl (prefix_of_prefix_append_cons (u := a :: x) hc h1).isInfix
    · rcases infix_split_at hc x y h1 with h2 | h2
      · exact Or.inl (List.infix_cons h2)
      · exact Or.inr h2

theorem infix_drop_left {pat pat' : Str} {z : Char} (hp : pat = z :: pat') :
    ∀ (a b : Str), z ∉ a → pat <:+: a ++ b → pat <:+: b
  | [], _, _, h => h
  | x :: a, b, hz, h => by
    have hx : z ≠ x := fun e => hz (by simp [e])
    have ha : z ∉ a := fun e => hz (List.mem_cons_of_mem _ e)
    rcases List.infix_cons_iff.1 h with h1 | h1
    · rw [hp] at h1
      exact absurd (List.cons_prefix_cons.1 h1).1 hx
    · exact infix_drop_left hp a b ha h1

theorem infix_drop_right {pat pat' : Str} {z : Char} (hp : pat.reverse = z :: pat')
    (a b : Str) (hz : z ∉ b) (h : pat <:+: a ++ b) : pat <:+: a := by
  have h1 : pat.reverse <:+: b.reverse ++ a.reverse := by
    rw [← List.reverse_append]
    exact List.reverse_infix.2 h
  exact List.reverse_infix.1 (infix_drop_left hp b.reverse a.reverse (by simpa using hz) h1)
theorem replaceAux_of_absent (find repl : Str) :
    ∀ (fuel : Nat) (s : Str), ¬ find <:+: s → replaceAux find repl fuel s = s
  | 0, _, _ => by simp [replaceAux]
  | _ + 1, [], _ => rfl
  | fuel + 1, c :: s, h => by
    have h1 : ¬ find <+: c :: s := fun e => h e.isInfix
    have h2 : ¬ find <:+: s := fun e => h (List.infix_cons e)
    simp [replaceAux, h1, replaceAux_of_absent find repl fuel s h2]

theorem replace_of_noNul (s find repl : Str) (hs : NoNul s) (hf : find ≠ []) :
    replace s find repl = replaceAux find repl s.length s := by
  unfold replace
  by_cases h0 : s.length = 0
  · have hs0 : s = [] := List.length_eq_zero.1 h0
    subst hs0
    simp [replaceAux]
  · rw [if_neg (by simp [h0, hf]), cstr_of_noNul s hs]
    simp

theorem replace_of_absent (s find repl : Str) (h : ¬ find <:+: s) :
    replace s find repl = s := by
  unfold replace
  split
  · rfl
  · have hpre : cstr s <+: s := List.takeWhile_prefix _
    have hc : ¬ find <:+: cstr s := fun e => h (e.trans hpre.isInfix)
    rw [replaceAux_of_absent find repl _ _ hc]
    conv_rhs => rw [← List.take_append_drop (cstr s).length s]
    rw [← List.prefix_iff_eq_take.1 hpre]

theorem joinWith_cons (sep p : Str) (ps : List Str) (h : ps ≠ []) :
    joinWith sep (p :: ps) = p ++ sep ++ joinWith sep ps := by
  cases ps with
  | nil => exact absurd rfl h
  | cons q qs => rfl

theorem joinWith_cons_first (sep : Str) (c : Char) (p : Str) (ps : List Str) :
    joinWith sep ((c :: p) :: ps) = c :: joinWith sep (p :: ps) := by
  cases ps with
  | nil => rfl
  | cons q qs => simp [joinWith]

theorem replaceAux_pieces (find repl : Str) (hf : find ≠ []) :
    ∀ (fuel : Nat) (s : Str), s.length ≤ fuel →
      ∃ pieces : List Str, pieces ≠ [] ∧ s = joinWith find pieces
        ∧ (∀ p ∈ pieces, ¬ find <:+: p)
        ∧ replaceAux find repl fuel s = joinWith repl pieces
  | 0, s, h => by
    have hs : s = [] := List.length_eq_zero.1 (Nat.le_zero.1 h)
    subst hs
    exact ⟨[[]], by simp, rfl, by simpa using hf, rfl⟩
  | _ + 1, [], _ => ⟨[[]], by simp, rfl, by simpa using hf, rfl⟩
  | fuel + 1, c :: s, h => by
    have hl : s.length ≤ fuel := by simpa using h
    by_cases hp : find <+: c :: s
    · obtain ⟨rest, hrest⟩ := hp
      have hfl : 0 < find.length := List.length_pos.2 hf
      have hlen : (c :: s).length = find.length + rest.length := by
        rw [← hrest, List.length_append]
      have hr : rest.length ≤ fuel := by
        simp only [List.length_cons] at hlen
        omega
      obtain ⟨pieces, hne, hj, hfree, hrep⟩ := replaceAux_pieces find repl hf fuel rest hr
      refine ⟨[] :: pieces, by simp, ?_, ?_, ?_⟩
      · rw [joinWith_cons _ _ _ hne, ← hj, ← hrest]
        simp
      · intro p hp
        rcases List.mem_cons.1 hp with h1 | h1
        · subst h1
          simpa using hf
        · exact hfree p h1
      · have hd : (c :: s).drop find.length = rest := by
          rw [← hrest]
          simp
        have hpre : find.isPrefixOf (c :: s) = true := by
          rw [List.isPrefixOf_iff_prefix]
          exact ⟨rest, hrest⟩
        rw [joinWith_cons _ _ _ hne, ← hrep]
        simp only [replaceAux, hpre, if_true, hd, List.nil_append]
    · obtain ⟨pieces, hne, hj, hfree, hrep⟩ := replaceAux_pieces find repl hf fuel s hl
      cases pieces with
      | nil => exact absurd rfl hne
      | cons p ps =>
        refine ⟨(c :: p) :: ps, by simp, ?_, ?_, ?_⟩
        · rw [joinWith_cons_first, ← hj]
        · intro q hq
          rcases List.mem_cons.1 hq with h1 | h1
          · subst h1
            intro hin
            rcases List.infix_cons_iff.1 hin with h2 | h2
            · apply hp
              have hps : c :: p <+: c :: s := by
                rw [hj]
                cases ps with
                | nil => exact List.prefix_refl _
                | cons q2 qs =>
                  simp only [joinWith, List.append_assoc]
                  exact (List.prefix_cons_inj c).2 (List.prefix_append _ _)
              exact h2.trans hps
            · exact hfree p (List.mem_cons_self _ _) h2
          · exact hfree q (List.mem_cons_of_mem _ h1)
        · have hpre : find.isPrefixOf (c :: s) = false := by
            rw [Bool.eq_false_iff]
            intro e
            exact hp (List.isPrefixOf_iff_prefix.1 e)
          rw [joinWith_cons_first, ← hrep]
          simp [replaceAux, hpre]
theorem makeResourcePath_shape (parent : ParentResource) :
    FirestoreBase.makeResourcePath parent
      = "projects".toList ++ '/' :: (parent.projectId ++ '/' :: ("databases".toList ++ '/' ::
          ((if parent.databaseId.length > 0 then parent.databaseId else "(default)".toList)
            ++ '/' :: "documents".toList))) := by
  simp [FirestoreBase.makeResourcePath, FirestoreBase.addDatabasePath,
    FirestoreBase.addDocsPath]

theorem placeholder_not_in_joined (pid D : Str) (hpid : ¬ RESOURCE_PATH_BASE <:+: pid)
    (hD : ¬ RESOURCE_PATH_BASE <:+: D) :
    ∀ (pieces : List Str) (pre : Str), pieces ≠ [] →
      (∀ p ∈ pieces, ¬ RESOURCE_PATH_BASE <:+: p) → '<' ∉ pre →
      ¬ RESOURCE_PATH_BASE <:+: pre ++ joinWith
          ("projects".toList ++ '/' :: (pid ++ '/' :: ("databases".toList ++ '/' ::
            (D ++ '/' :: "documents".toList)))) pieces
  | [], _, hne, _, _ => absurd rfl hne
  | [p], pre, _, hfree, hpre => by
    intro h
    have hfst : RESOURCE_PATH_BASE = '<' :: "resource_path>".toList := by decide
    exact hfree p (List.mem_cons_self _ _) (infix_drop_left hfst pre p hpre h)
  | p :: q :: qs, pre, _, hfree, hpre => by
    intro h
    have hslash : '/' ∉ RESOURCE_PATH_BASE := by decide
    have hshape : pre ++ joinWith
          ("projects".toList ++ '/' :: (pid ++ '/' :: ("databases".toList ++ '/' ::
            (D ++ '/' :: "documents".toList)))) (p :: q :: qs)
        = ((pre ++ p) ++ "projects".toList) ++ '/' :: (pid ++ '/' :: ("databases".toList
            ++ '/' :: (D ++ '/' :: ("documents".toList ++ joinWith
              ("projects".toList ++ '/' :: (pid ++ '/' :: ("databases".toList ++ '/' ::
                (D ++ '/' :: "documents".toList)))) (q :: qs))))) := by
      simp [joinWith, List.append_assoc]
    rw [hshape] at h
    rcases infix_split_at hslash _ _ h with h1 | h1
    · have hrev : RESOURCE_PATH_BASE.reverse = '>' :: "htap_ecruoser<".toList := by decide
      have h2 := infix_drop_right hrev (pre ++ p) "projects".toList (by decide) h1
      have hfst : RESOURCE_PATH_BASE = '<' :: "resource_path>".toList := by decide
      exact hfree p (List.mem_cons_self _ _) (infix_drop_left hfst pre p hpre h2)
    · rcases infix_split_at hslash _ _ h1 with h2 | h2
      · exact hpid h2
      · rcases infix_split_at hslash _ _ h2 with h3 | h3
        · have := h3.length_le
          simp [RESOURCE_PATH_BASE, FIRESTORE_RESOURCE_PATH_BASE] at this
        · rcases infix_split_at hslash _ _ h3 with h4 | h4
          · exact hD h4
          · exact placeholder_not_in_joined pid D hpid hD (q :: qs) "documents".toList
              (by simp) (fun r hr => hfree r (List.mem_cons_of_mem _ hr)) (by decide) h4

theorem jsonStringContent_plain : ∀ s : Str, QUOTE ∉ s → BACKSLASH ∉ s →
    jsonStringContent s = true
  | [], _, _ => rfl
  | [c], hq, hb => by
    have h1 : c ≠ QUOTE := fun e => hq (by simp [e])
    have h2 : c ≠ BACKSLASH := fun e => hb (by simp [e])
    simp [jsonStringContent, h1, h2]
  | c :: d :: rest, hq, hb => by
    have h1 : c ≠ QUOTE := fun e => hq (by simp [e])
    have h2 : c ≠ BACKSLASH := fun e => hb (by simp [e])
    have ih := jsonStringContent_plain (d :: rest) (fun e => hq (List.mem_cons_of_mem _ e))
      (fun e => hb (List.mem_cons_of_mem _ e))
    simp [jsonStringContent, h1, h2, ih]

/-! ### The scan for the top-level keys -/

theorem KeyScan_run_append (st : KeyScan) (a b : Str) :
    KeyScan.run st (a ++ b) = KeyScan.run (KeyScan.run st a) b := by
  simp [KeyScan.run, List.foldl_append]

theorem KeyScan_run_cons (st : KeyScan) (c : Char) (s : Str) :
    KeyScan.run st (c :: s) = KeyScan.run (st.step c) s := rfl

theorem KeyScan_run_string : ∀ (s : Str) (st : KeyScan), QUOTE ∉ s → BACKSLASH ∉ s →
    st.mode = .str → KeyScan.run st s = { st with cur := st.cur ++ s }
  | [], st, _, _, _ => by simp [KeyScan.run]
  | c :: s, st, hq, hb, hm => by
    have h1 : c ≠ QUOTE := fun e => hq (by simp [e])
    have h2 : c ≠ BACKSLASH := fun e => hb (by simp [e])
    have hstep : st.step c = { st with cur := st.cur ++ [c] } := by
      simp [KeyScan.step, hm, h1, h2]
    have ih := KeyScan_run_string s { st with cur := st.cur ++ [c] }
      (fun e => hq (List.mem_cons_of_mem _ e)) (fun e => hb (List.mem_cons_of_mem _ e)) hm
    rw [KeyScan_run_cons, hstep, ih]
    simp

theorem KeyScan_run_plain : ∀ (s : Str) (st : KeyScan), plainText s = true →
    st.mode = .out → KeyScan.run st s = st
  | [], st, _, _ => rfl
  | c :: s, st, hp, hm => by
    simp only [plainText, List.all_cons, Bool.and_eq_true, bne_iff_ne, ne_eq] at hp
    obtain ⟨⟨⟨⟨⟨⟨h1, h2⟩, h3⟩, h4⟩, h5⟩, h6⟩, hrest⟩ := hp
    have hstep : st.step c = st := by
      simp [KeyScan.step, hm, h1, h2, h3, h4, h5, h6]
    rw [KeyScan_run_cons, hstep]
    exact KeyScan_run_plain s st (by simpa [plainText] using hrest) hm
theorem KeyScan_step_control (st st' : KeyScan) (c : Char) (hd : st.depth = st'.depth)
    (hm : st.mode = st'.mode) :
    (st.step c).depth = (st'.step c).depth ∧ (st.step c).mode = (st'.step c).mode
    ∧ (st.step c).keys.length + st'.keys.length = (st'.step c).keys.length + st.keys.length
    ∧ st.keys <+: (st.step c).keys := by
  obtain ⟨d, m, cur, last, keys⟩ := st
  obtain ⟨d', m', cur', last', keys'⟩ := st'
  simp only at hd hm
  subst hd hm
  cases m with
  | esc => exact ⟨rfl, rfl, Nat.add_comm _ _, List.prefix_refl _⟩
  | str =>
    simp only [KeyScan.step]
    split_ifs <;> exact ⟨rfl, rfl, Nat.add_comm _ _, List.prefix_refl _⟩
  | out =>
    simp only [KeyScan.step]
    split_ifs
    · exact ⟨rfl, rfl, Nat.add_comm _ _, List.prefix_refl _⟩
    · exact ⟨rfl, rfl, Nat.add_comm _ _, List.prefix_refl _⟩
    · exact ⟨rfl, rfl, Nat.add_comm _ _, List.prefix_refl _⟩
    · refine ⟨rfl, rfl, ?_, List.prefix_append _ _⟩
      simp only [List.length_append, List.length_singleton]
      omega
    · exact ⟨rfl, rfl, Nat.add_comm _ _, List.prefix_refl _⟩

theorem KeyScan_run_control : ∀ (s : Str) (st st' : KeyScan), st.depth = st'.depth →
    st.mode = st'.mode →
    (KeyScan.run st s).depth = (KeyScan.run st' s).depth
    ∧ (KeyScan.run st s).mode = (KeyScan.run st' s).mode
    ∧ (KeyScan.run st s).keys.length + st'.keys.length
        = (KeyScan.run st' s).keys.length + st.keys.length
    ∧ st.keys <+: (KeyScan.run st s).keys
  | [], st, st', hd, hm => ⟨hd, hm, Nat.add_comm _ _, List.prefix_refl _⟩
  | c :: s, st, st', hd, hm => by
    obtain ⟨h1, h2, hn, hp⟩ := KeyScan_step_control st st' c hd hm
    obtain ⟨i1, i2, hk, ip⟩ := KeyScan_run_control s (st.step c) (st'.step c) h1 h2
    refine ⟨i1, i2, ?_, hp.trans ip⟩
    rw [KeyScan_run_cons, KeyScan_run_cons]
    omega

theorem KeyScan_run_value (s : Str) (hs : jsonValueText s = true) (st : KeyScan)
    (hd : st.depth = 1) (hm : st.mode = .out) :
    (KeyScan.run st s).depth = 1 ∧ (KeyScan.run st s).mode = .out
    ∧ (KeyScan.run st s).keys = st.keys := by
  simp only [jsonValueText, decide_eq_true_eq] at hs
  obtain ⟨h1, h2, h3⟩ := hs
  obtain ⟨c1, c2, hn, hp⟩ := KeyScan_run_control s st ⟨1, .out, [], [], []⟩ hd hm
  refine ⟨c1.trans h1, c2.trans h2, ?_⟩
  rw [h3] at hn
  exact (hp.eq_of_length (by simpa using hn.symm)).symm

theorem jsonValueText_of_run (s : Str)
    (h : KeyScan.run ⟨1, .out, [], [], []⟩ s = ⟨1, .out, [], [], []⟩
      ∨ ∃ cur last, KeyScan.run ⟨1, .out, [], [], []⟩ s = ⟨1, .out, cur, last, []⟩) :
    jsonValueText s = true := by
  simp only [jsonValueText, decide_eq_true_eq]
  rcases h with h | ⟨cur, last, h⟩ <;> rw [h] <;> exact ⟨rfl, rfl, rfl⟩

theorem jsonValueText_plain (s : Str) (h : plainText s = true) : jsonValueText s = true :=
  jsonValueText_of_run s (Or.inl (KeyScan_run_plain s _ h rfl))

theorem jsonValueText_string (s : Str) (hq : QUOTE ∉ s) (hb : BACKSLASH ∉ s) :
    jsonValueText ("\"".toList ++ s ++ "\"".toList) = true := by
  apply jsonValueText_of_run
  refine Or.inr ⟨s, s, ?_⟩
  rw [KeyScan_run_append, KeyScan_run_append]
  have h1 : KeyScan.run ⟨1, .out, [], [], []⟩ "\"".toList = ⟨1, .str, [], [], []⟩ := by decide
  rw [h1, KeyScan_run_string s _ hq hb rfl]
  simp [KeyScan.run, KeyScan.step, QUOTE, BACKSLASH]

theorem topLevelKeys_member (key v : Str) (hkq : QUOTE ∉ key) (hkb : BACKSLASH ∉ key)
    (hv : jsonValueText v = true) :
    topLevelKeys ("\x7b\"".toList ++ key ++ "\":".toList ++ v ++ "\x7d".toList) = [key] := by
  unfold topLevelKeys
  rw [KeyScan_run_append, KeyScan_run_append, KeyScan_run_append, KeyScan_run_append]
  have h1 : KeyScan.run ⟨0, .out, [], [], []⟩ "\x7b\"".toList = ⟨1, .str, [], [], []⟩ := by
    decide
  rw [h1, KeyScan_run_string key _ hkq hkb rfl]
  have h2 : KeyScan.run { (⟨1, .str, [], [], []⟩ : KeyScan) with cur := [] ++ key } "\":".toList
      = ⟨1, .out, key, key, [key]⟩ := by
    simp [KeyScan.run, KeyScan.step, QUOTE, BACKSLASH, LBRACE, RBRACE]
  rw [h2]
  obtain ⟨hd, hm, hk⟩ := KeyScan_run_value v hv ⟨1, .out, key, key, [key]⟩ rfl rfl
  have h3 : ∀ st : KeyScan, st.mode = .out → (KeyScan.run st "\x7d".toList).keys = st.keys := by
    intro st hmo
    simp [KeyScan.run, KeyScan.step, hmo, QUOTE, LBRACE, RBRACE]
  rw [h3 _ hm, hk]

theorem DocumentMask_new_c_str_eq_nil_iff (fieldPaths : Str) :
    (DocumentMask.new fieldPaths).c_str = [] ↔ (DocumentMask.new fieldPaths).fieldPaths = [] := by
  by_cases h : tokensAux [] fieldPaths = []
  · simp [DocumentMask.new, DocumentMask.c_str, DocumentMask.fieldPaths, JsonHelper.addTokens, h,
      cstr]
  · simp [DocumentMask.new, DocumentMask.c_str, DocumentMask.fieldPaths, JsonHelper.addTokens, h,
      JsonHelper.addObject, cstr_cons, NUL]

theorem digitChar_ne_QUOTE (n : Nat) : Nat.digitChar n ≠ QUOTE := by
  by_cases h : n < 16
  · interval_cases n <;> decide
  · obtain ⟨m, rfl⟩ : ∃ m, n = m + 16 := ⟨n - 16, by omega⟩
    simp only [Nat.digitChar]
    simp
    decide

theorem digitChar_ne_BACKSLASH (n : Nat) : Nat.digitChar n ≠ BACKSLASH := by
  by_cases h : n < 16
  · interval_cases n <;> decide
  · obtain ⟨m, rfl⟩ : ∃ m, n = m + 16 := ⟨n - 16, by omega⟩
    simp only [Nat.digitChar]
    simp
    decide

theorem toDigitsCore_forall (P : Char → Prop) (hP : ∀ k, P (Nat.digitChar k)) (b : Nat) :
    ∀ (fuel n : Nat) (ds : List Char), (∀ c ∈ ds, P c) →
      ∀ c ∈ Nat.toDigitsCore b fuel n ds, P c
  | 0, _, ds, h => by simpa [Nat.toDigitsCore] using h
  | fuel + 1, n, ds, h => by
    have hd : ∀ c ∈ Nat.digitChar (n % b) :: ds, P c := by
      intro c hc
      rcases List.mem_cons.1 hc with e | e
      · rw [e]
        exact hP _
      · exact h c e
    unfold Nat.toDigitsCore
    by_cases h0 : n / b = 0
    · simpa [h0] using hd
    · simpa [h0] using toDigitsCore_forall P hP b fuel (n / b) _ hd

theorem String_ofInt_forall (P : Char → Prop) (hP : ∀ k, P (Nat.digitChar k)) (hm : P '-')
    (n : Int) : ∀ c ∈ Values.String_ofInt n, P c := by
  unfold Values.String_ofInt Nat.toDigits
  split
  · intro c hc
    rcases List.mem_append.1 hc with e | e
    · have : c = '-' := by simpa using e
      rw [this]
      exact hm
    · exact toDigitsCore_forall P hP _ _ _ _ (by simp) c e
  · exact toDigitsCore_forall P hP _ _ _ _ (by simp)

theorem String_ofInt_no_quote (n : Int) :
    QUOTE ∉ Values.String_ofInt n ∧ BACKSLASH ∉ Values.String_ofInt n :=
  ⟨fun h => String_ofInt_forall (fun c => c ≠ QUOTE) digitChar_ne_QUOTE (by decide) n _ h rfl,
   fun h => String_ofInt_forall (fun c => c ≠ BACKSLASH) digitChar_ne_BACKSLASH (by decide) n _ h
     rfl⟩

theorem jsonValueText_geoPoint (lat lng : Str) (hlat : plainText lat = true)
    (hlng : plainText lng = true) :
    jsonValueText ("\x7b\"latitude\":".toList ++ lat ++ ",\"longitude\":".toList ++ lng
      ++ "\x7d".toList) = true := by
  apply jsonValueText_of_run
  refine Or.inr ⟨"longitude".toList, "longitude".toList, ?_⟩
  rw [KeyScan_run_append, KeyScan_run_append, KeyScan_run_append, KeyScan_run_append]
  have h1 : KeyScan.run ⟨1, .out, [], [], []⟩ "\x7b\"latitude\":".toList
      = ⟨2, .out, "latitude".toList, "latitude".toList, []⟩ := by decide
  have h2 : KeyScan.run ⟨2, .out, "latitude".toList, "latitude".toList, []⟩
        ",\"longitude\":".toList
      = ⟨2, .out, "longitude".toList, "longitude".toList, []⟩ := by decide
  have h3 : KeyScan.run ⟨2, .out, "longitude".toList, "longitude".toList, []⟩ "\x7d".toList
      = ⟨1, .out, "longitude".toList, "longitude".toList, []⟩ := by decide
  rw [h1, KeyScan_run_plain lat _ hlat rfl, h2, KeyScan_run_plain lng _ hlng rfl, h3]

/-- C9: `getDocPath(d)` is the resource path placeholder when `d` is empty,
the placeholder followed by `d` when `d` begins with a slash, and the
placeholder, one slash and `d` otherwise. -/
theorem getDocPath_cases (d : Str) :
    FSUT.getDocPath d =
      if d = [] then "<resource_path>".toList
      else if d.head? = some '/' then "<resource_path>".toList ++ d
      else "<resource_path>".toList ++ "/".toList ++ d := by
  cases d with
  | nil => rfl
  | cons c t =>
    by_cases h : c = '/'
    · subst h; rfl
    · simp [FSUT.getDocPath, FIRESTORE_RESOURCE_PATH_BASE, h]

/-- C3: for every integer `n`, `IntegerValue(n).val()` is the object whose
member `integerValue` is the decimal rendering of `n` enclosed in double
quotes (a JSON string), and `c_str()` is that quoted rendering; the rendering
is the usual decimal one, as for 5 and -12. -/
theorem integerValue_val (n : Int) :
    (Values.IntegerValue n).val
        = "\x7b\"integerValue\":\"".toList ++ Values.String_ofInt n ++ "\"\x7d".toList
    ∧ (Values.IntegerValue n).c_str = "\"".toList ++ Values.String_ofInt n ++ "\"".toList
    ∧ (Values.String_ofInt n).asString = toString n
    ∧ (Values.IntegerValue 5).val = "\x7b\"integerValue\":\"5\"\x7d".toList
    ∧ (Values.IntegerValue (-12)).val = "\x7b\"integerValue\":\"-12\"\x7d".toList := by
  refine ⟨?_, ?_, ?_, by decide, by decide⟩
  · simp [Values.IntegerValue, Values.Scalar.val, Values.StringValue, Values.Scalar.c_str,
      FSUT.setString, FSUT.setPair, JsonHelper.addObject, firestore_const_key_text,
      firestore_const_key, firestore_const_key_integerValue, cstr_cons, NUL,
      cstr_append_of_noNul, noNul_String_ofInt]
  · simp [Values.IntegerValue, Values.StringValue, Values.Scalar.c_str, FSUT.setString,
      cstr_cons, NUL, cstr_append_of_noNul, noNul_String_ofInt]
  · cases n with
    | ofNat m => simp [Values.String_ofInt, toString, Int.repr, Nat.repr]
    | negSucc m =>
      simp [Values.String_ofInt, toString, Int.repr, Nat.repr, Int.negSucc_lt_zero]
      rfl

/-- C2: for each of the nine scalar classes and every constructor argument (a
C text, without NUL), `val()` is the text that opens with a brace, the quoted
tag of the class in `firestore_const_key` and a colon, holds the text
`c_str()` returns, and ends with a brace.  Its only top-level key is that tag
for `NullValue`, `BooleanValue` and `IntegerValue`, for the four string
classes when the string has no double quote and no backslash, and for
`DoubleValue` and `GeoPointValue` when the texts of the numbers have no double
quote, brace, bracket or colon. -/
theorem scalar_val_single_member (s d lat lng : Str) (b : Bool) (n : Int)
    (hs : NoNul s) (hd : NoNul d) (hlat : NoNul lat) (hlng : NoNul lng) :
    Values.NullValue.val = "\x7b\"nullValue\":".toList ++ Values.NullValue.c_str ++ "\x7d".toList
    ∧ (Values.BooleanValue b).val
        = "\x7b\"booleanValue\":".toList ++ (Values.BooleanValue b).c_str ++ "\x7d".toList
    ∧ (Values.IntegerValue n).val
        = "\x7b\"integerValue\":".toList ++ (Values.IntegerValue n).c_str ++ "\x7d".toList
    ∧ (Values.DoubleValue d).val
        = "\x7b\"doubleValue\":".toList ++ (Values.DoubleValue d).c_str ++ "\x7d".toList
    ∧ (Values.TimestampValue s).val
        = "\x7b\"timestampValue\":".toList ++ (Values.TimestampValue s).c_str ++ "\x7d".toList
    ∧ (Values.StringValue s).val
        = "\x7b\"stringValue\":".toList ++ (Values.StringValue s).c_str ++ "\x7d".toList
    ∧ (Values.BytesValue s).val
        = "\x7b\"bytesValue\":".toList ++ (Values.BytesValue s).c_str ++ "\x7d".toList
    ∧ (Values.ReferenceValue s).val
        = "\x7b\"referenceValue\":".toList ++ (Values.ReferenceValue s).c_str ++ "\x7d".toList
    ∧ (Values.GeoPointValue lat lng).val
        = "\x7b\"geoPointValue\":".toList ++ (Values.GeoPointValue lat lng).c_str
            ++ "\x7d".toList
    ∧ topLevelKeys Values.NullValue.val = ["nullValue".toList]
    ∧ topLevelKeys (Values.BooleanValue b).val = ["booleanValue".toList]
    ∧ topLevelKeys (Values.IntegerValue n).val = ["integerValue".toList]
    ∧ (plainText d = true → topLevelKeys (Values.DoubleValue d).val = ["doubleValue".toList])
    ∧ (QUOTE ∉ s → BACKSLASH ∉ s →
        topLevelKeys (Values.TimestampValue s).val = ["timestampValue".toList]
        ∧ topLevelKeys (Values.StringValue s).val = ["stringValue".toList]
        ∧ topLevelKeys (Values.BytesValue s).val = ["bytesValue".toList]
        ∧ topLevelKeys (Values.ReferenceValue s).val = ["referenceValue".toList])
    ∧ (plainText lat = true → plainText lng = true →
        topLevelKeys (Values.GeoPointValue lat lng).val = ["geoPointValue".toList]) := by
  have hInt : (Values.IntegerValue n).val
      = "\x7b\"".toList ++ "integerValue".toList ++ "\":".toList
          ++ ("\"".toList ++ Values.String_ofInt n ++ "\"".toList) ++ "\x7d".toList := by
    simp [Values.IntegerValue, Values.DoubleValue, Values.TimestampValue, Values.StringValue,
      Values.BytesValue, Values.ReferenceValue, Values.GeoPointValue, Values.Scalar.val,
      Values.Scalar.c_str, FSUT.setString, FSUT.setPair, JsonHelper.addObject,
      firestore_const_key_text, firestore_const_key, firestore_const_key_integerValue,
      firestore_const_key_doubleValue, firestore_const_key_timestampValue,
      firestore_const_key_stringValue, firestore_const_key_bytesValue,
      firestore_const_key_referenceValue, firestore_const_key_geoPointValue, cstr_cons, NUL,
      cstr_append_of_noNul, noNul_String_ofInt, cstr_of_noNul, hs, hd, hlat, hlng]
  have hDbl : (Values.DoubleValue d).val
      = "\x7b\"".toList ++ "doubleValue".toList ++ "\":".toList ++ d ++ "\x7d".toList := by
    simp [Values.IntegerValue, Values.DoubleValue, Values.TimestampValue, Values.StringValue,
      Values.BytesValue, Values.ReferenceValue, Values.GeoPointValue, Values.Scalar.val,
      Values.Scalar.c_str, FSUT.setString, FSUT.setPair, JsonHelper.addObject,
      firestore_const_key_text, firestore_const_key, firestore_const_key_integerValue,
      firestore_const_key_doubleValue, firestore_const_key_timestampValue,
      firestore_const_key_stringValue, firestore_const_key_bytesValue,
      firestore_const_key_referenceValue, firestore_const_key_geoPointValue, cstr_cons, NUL,
      cstr_append_of_noNul, noNul_String_ofInt, cstr_of_noNul, hs, hd, hlat, hlng]
  have hStr : ∀ (key : Nat) (tag : Str), firestore_const_key_text key = tag → NoNul tag →
      (Values.Scalar.mk key (Values.StringValue s).c_str).val
        = "\x7b\"".toList ++ tag ++ "\":".toList ++ ("\"".toList ++ s ++ "\"".toList)
            ++ "\x7d".toList := by
    intro key tag hk ht
    simp [Values.StringValue, Values.Scalar.val, Values.Scalar.c_str, FSUT.setString,
      FSUT.setPair, JsonHelper.addObject, hk, cstr_cons, NUL, cstr_append_of_noNul,
      cstr_of_noNul, hs, ht]
  have hStr5 : (Values.StringValue s).val
      = "\x7b\"".toList ++ "stringValue".toList ++ "\":".toList
          ++ ("\"".toList ++ s ++ "\"".toList) ++ "\x7d".toList := by
    simp [Values.IntegerValue, Values.DoubleValue, Values.TimestampValue, Values.StringValue,
      Values.BytesValue, Values.ReferenceValue, Values.GeoPointValue, Values.Scalar.val,
      Values.Scalar.c_str, FSUT.setString, FSUT.setPair, JsonHelper.addObject,
      firestore_const_key_text, firestore_const_key, firestore_const_key_integerValue,
      firestore_const_key_doubleValue, firestore_const_key_timestampValue,
      firestore_const_key_stringValue, firestore_const_key_bytesValue,
      firestore_const_key_referenceValue, firestore_const_key_geoPointValue, cstr_cons, NUL,
      cstr_append_of_noNul, noNul_String_ofInt, cstr_of_noNul, hs, hd, hlat, hlng]
  have hGeo : (Values.GeoPointValue lat lng).val
      = "\x7b\"".toList ++ "geoPointValue".toList ++ "\":".toList
          ++ ("\x7b\"latitude\":".toList ++ lat ++ ",\"longitude\":".toList ++ lng
            ++ "\x7d".toList) ++ "\x7d".toList := by
    simp [Values.IntegerValue, Values.DoubleValue, Values.TimestampValue, Values.StringValue,
      Values.BytesValue, Values.ReferenceValue, Values.GeoPointValue, Values.Scalar.val,
      Values.Scalar.c_str, FSUT.setString, FSUT.setPair, JsonHelper.addObject,
      firestore_const_key_text, firestore_const_key, firestore_const_key_integerValue,
      firestore_const_key_doubleValue, firestore_const_key_timestampValue,
      firestore_const_key_stringValue, firestore_const_key_bytesValue,
      firestore_const_key_referenceValue, firestore_const_key_geoPointValue, cstr_cons, NUL,
      cstr_append_of_noNul, noNul_String_ofInt, cstr_of_noNul, hs, hd, hlat, hlng]
  refine ⟨by decide, ?_, ?_, ?_, ?_, ?_, ?_, ?_, ?_, by decide, ?_, ?_, ?_, ?_, ?_⟩
  · cases b <;> decide
  iterate 7
    simp [Values.IntegerValue, Values.DoubleValue, Values.TimestampValue, Values.StringValue,
      Values.BytesValue, Values.ReferenceValue, Values.GeoPointValue, Values.Scalar.val,
      Values.Scalar.c_str, FSUT.setString, FSUT.setPair, JsonHelper.addObject,
      firestore_const_key_text, firestore_const_key, firestore_const_key_integerValue,
      firestore_const_key_doubleValue, firestore_const_key_timestampValue,
      firestore_const_key_stringValue, firestore_const_key_bytesValue,
      firestore_const_key_referenceValue, firestore_const_key_geoPointValue, cstr_cons, NUL,
      cstr_append_of_noNul, noNul_String_ofInt, cstr_of_noNul, hs, hd, hlat, hlng]
  · cases b <;> decide
  · rw [hInt]
    exact topLevelKeys_member _ _ (by decide) (by decide)
      (jsonValueText_string _ (String_ofInt_no_quote n).1 (String_ofInt_no_quote n).2)
  · intro hp
    rw [hDbl]
    exact topLevelKeys_member _ _ (by decide) (by decide) (jsonValueText_plain d hp)
  · intro hq hb
    have hv := jsonValueText_string s hq hb
    refine ⟨?_, ?_, ?_, ?_⟩
    · exact (congrArg topLevelKeys
        (hStr firestore_const_key_timestampValue _ rfl (by decide))).trans
        (topLevelKeys_member _ _ (by decide) (by decide) hv)
    · rw [hStr5]
      exact topLevelKeys_member _ _ (by decide) (by decide) hv
    · exact (congrArg topLevelKeys
        (hStr firestore_const_key_bytesValue _ rfl (by decide))).trans
        (topLevelKeys_member _ _ (by decide) (by decide) hv)
    · exact (congrArg topLevelKeys
        (hStr firestore_const_key_referenceValue _ rfl (by decide))).trans
        (topLevelKeys_member _ _ (by decide) (by decide) hv)
  · intro h1 h2
    rw [hGeo]
    exact topLevelKeys_member _ _ (by decide) (by decide) (jsonValueText_geoPoint lat lng h1 h2)

theorem scalar_val_single_member_witness :
    (NoNul "a b".toList ∧ NoNul "1.50".toList ∧ NoNul "-2.25".toList)
    ∧ (QUOTE ∉ "a b".toList ∧ BACKSLASH ∉ "a b".toList ∧ plainText "1.50".toList = true
        ∧ plainText "-2.25".toList = true)
    ∧ (Values.StringValue "a b".toList).val
        = "\x7b\"stringValue\":".toList ++ (Values.StringValue "a b".toList).c_str
            ++ "\x7d".toList
    ∧ (Values.StringValue "a b".toList).val = "\x7b\"stringValue\":\"a b\"\x7d".toList
    ∧ topLevelKeys (Values.StringValue "a b".toList).val = ["stringValue".toList]
    ∧ topLevelKeys (Values.GeoPointValue "1.50".toList "-2.25".toList).val
        = ["geoPointValue".toList] := by
  have h := scalar_val_single_member "a b".toList "1.50".toList "1.50".toList "-2.25".toList
    true 7 (by decide) (by decide) (by decide) (by decide)
  exact ⟨by decide, by decide, h.2.2.2.2.2.1, by decide,
    (h.2.2.2.2.2.2.2.2.2.2.2.2.2.1 (by decide) (by decide)).2.1,
    h.2.2.2.2.2.2.2.2.2.2.2.2.2.2 (by decide) (by decide)⟩

/-- C2, as stated, fails for a string with double quotes: the string is copied
as it stands, so for `a","x":"b` the text of `StringValue` has a second
top-level key, `x`. -/
theorem scalar_val_second_key :
    (Values.StringValue "a\",\"x\":\"b".toList).val
        = "\x7b\"stringValue\":\"a\",\"x\":\"b\"\x7d".toList
    ∧ topLevelKeys (Values.StringValue "a\",\"x\":\"b".toList).val
        = ["stringValue".toList, "x".toList] := by
  constructor <;> decide

/-- C7: for every non-empty sequence of (key, value) pairs put into a
`MapValue` in order (keys are C texts, without NUL), `val()` is the object
whose member `mapValue` holds the object `fields` with one member per pair, in
insertion order; it does not matter whether the first pair goes through the
constructor or through `add` on the empty map; and one more `add`, whatever its
key, appends one member after the existing ones, which are unchanged. -/
theorem mapValue_val (k1 : Str) (v1 : TValue) (kvs : List (Str × TValue))
    (hk1 : NoNul k1) (hk : ∀ kv ∈ kvs, NoNul kv.1) :
    ((Values.MapValue.new k1 v1).adds kvs).val
        = "\x7b\"mapValue\":\x7b\"fields\":\x7b".toList
            ++ joinComma (((k1, v1) :: kvs).map (fun kv => member kv.1 kv.2.val))
            ++ "\x7d\x7d\x7d".toList
    ∧ (Values.MapValue.empty.add k1 v1).adds kvs = (Values.MapValue.new k1 v1).adds kvs
    ∧ ∀ (k : Str) (v : TValue), NoNul k →
        (((Values.MapValue.new k1 v1).adds kvs).add k v).val
          = "\x7b\"mapValue\":\x7b\"fields\":\x7b".toList
              ++ joinComma (((k1, v1) :: kvs).map (fun kv => member kv.1 kv.2.val))
              ++ ",".toList ++ member k v.val ++ "\x7d\x7d\x7d".toList := by
  have hall : ∀ kv ∈ (k1, v1) :: kvs, NoNul kv.1 := by
    intro kv hkv
    rcases List.mem_cons.1 hkv with rfl | h
    · exact hk1
    · exact hk kv h
  refine ⟨?_, rfl, ?_⟩
  · exact MapValue_val_of_buf _ _ (noNul_members _ hall) (MapValue_new_adds_buf k1 v1 kvs hk1 hk)
  · intro k v hkk
    have hb := MapValue_add_buf _ _ k v hkk (noNul_members _ hall)
      (MapValue_new_adds_buf k1 v1 kvs hk1 hk)
    have hX : NoNul (joinComma (((k1, v1) :: kvs).map (fun kv => member kv.1 kv.2.val))
        ++ ",".toList ++ member k v.val) := by
      rw [noNul_append, noNul_append]
      exact ⟨⟨noNul_members _ hall, by decide⟩, noNul_member _ _ hkk (noNul_val _)⟩
    have := MapValue_val_of_buf _ _ hX hb
    simpa [List.append_assoc] using this

theorem mapValue_val_witness :
    (NoNul "a".toList ∧ ∀ kv ∈ [("a".toList, (Values.IntegerValue 2).toT)], NoNul kv.1)
    ∧ ((Values.MapValue.new "a".toList (Values.IntegerValue 1).toT).adds
          [("a".toList, (Values.IntegerValue 2).toT)]).val
        = ("\x7b\"mapValue\":\x7b\"fields\":\x7b\"a\":\x7b\"integerValue\":\"1\"\x7d,"
            ++ "\"a\":\x7b\"integerValue\":\"2\"\x7d\x7d\x7d\x7d").toList := by
  have h := mapValue_val "a".toList (Values.IntegerValue 1).toT
    [("a".toList, (Values.IntegerValue 2).toT)] (by decide) (by decide)
  exact ⟨⟨by decide, by decide⟩, h.1.trans (by decide)⟩

/-- C1: for every document name and every non-empty sequence of (key, value)
pairs added in order (names and keys are C texts, without NUL), `c_str()` is
the object with the member `name`, holding `getDocPath(name)` in quotes, and
the member `fields`, an object with one member per added pair, in insertion
order, identical keys included; the key/value constructor is the empty name
followed by one `add`; the document `docs/a` with the field `n` set to
`IntegerValue(5)` serialises as the example says. -/
theorem document_c_str (n0 : Str) (ops : List DocOp)
    (hne : DocOp.fields ops ≠ []) (hkeys : ∀ kv ∈ DocOp.fields ops, NoNul kv.1)
    (hn : NoNul (DocOp.lastName n0 ops)) :
    ((Document.new n0).run ops).c_str
        = "\x7b\"name\":\"".toList ++ FSUT.getDocPath (DocOp.lastName n0 ops)
            ++ "\",\"fields\":\x7b".toList
            ++ joinComma ((DocOp.fields ops).map (fun kv => member kv.1 kv.2.val))
            ++ "\x7d\x7d".toList
    ∧ (∀ (key : Str) (value : Values.Value),
        Document.newKV key value = (Document.new []).run [DocOp.add key value])
    ∧ ((Document.new "docs/a".toList).add "n".toList
          (Values.Value.new (Values.IntegerValue 5).toT)).c_str
        = "\x7b\"name\":\"<resource_path>/docs/a\",\"fields\":\x7b\"n\":\x7b\"integerValue\":\"5\"\x7d\x7d\x7d".toList := by
  refine ⟨?_, fun _ _ => rfl, by decide⟩
  have hname : ((Document.new n0).run ops).name = DocOp.lastName n0 ops := by
    rw [Document_run_name]
    rfl
  obtain ⟨kv1, rest, hfields⟩ := List.exists_cons_of_ne_nil hne
  have hk : ∀ kv ∈ (DocOp.fields ops).map (fun kv => (kv.1, kv.2.toT)), NoNul kv.1 := by
    intro kv hkv
    obtain ⟨x, hx, rfl⟩ := List.mem_map.1 hkv
    exact hkeys x hx
  have hmv : ((Document.new n0).run ops).mv.buf
      = "\x7b\"fields\":\x7b".toList
          ++ joinComma ((DocOp.fields ops).map (fun kv => member kv.1 kv.2.val))
          ++ "\x7d\x7d".toList := by
    rw [Document_run_mv]
    rw [hfields] at hk ⊢
    have hk1 : NoNul kv1.1 :=
      hk (kv1.1, kv1.2.toT) (List.mem_map.2 ⟨kv1, List.mem_cons_self _ _, rfl⟩)
    have hrest : ∀ kv ∈ rest.map (fun kv => (kv.1, kv.2.toT)), NoNul kv.1 := by
      intro kv hkv
      obtain ⟨x, hx, rfl⟩ := List.mem_map.1 hkv
      exact hk _ (List.mem_map.2 ⟨x, List.mem_cons_of_mem _ hx, rfl⟩)
    have := MapValue_new_adds_buf kv1.1 kv1.2.toT (rest.map (fun kv => (kv.1, kv.2.toT))) hk1
      hrest
    simpa [Values.MapValue.adds, Document.new, Document_getBuf_mv, Values.MapValue.new,
      Values.MapValue.add, Values.MapValue.empty, Values.Value.toT, Values.Value.val,
      TValue.val, Function.comp_def] using this
  have hX : NoNul (joinComma ((DocOp.fields ops).map (fun kv => member kv.1 kv.2.val))) := by
    apply noNul_joinComma
    intro x hx
    obtain ⟨kv, hkv, rfl⟩ := List.mem_map.1 hx
    exact noNul_member _ _ (hkeys kv hkv) (noNul_cstr _)
  have := Document_c_str_fields _ _ hX hmv (by rw [hname]; exact hn)
  rw [hname] at this
  exact this

theorem document_c_str_witness :
    (DocOp.fields [DocOp.add "n".toList (Values.Value.new (Values.IntegerValue 5).toT),
        DocOp.setName "docs/a".toList,
        DocOp.add "n".toList (Values.Value.new (Values.BooleanValue true).toT)] ≠ [])
    ∧ ((Document.new []).run
        [DocOp.add "n".toList (Values.Value.new (Values.IntegerValue 5).toT),
         DocOp.setName "docs/a".toList,
         DocOp.add "n".toList (Values.Value.new (Values.BooleanValue true).toT)]).c_str
        = ("\x7b\"name\":\"<resource_path>/docs/a\",\"fields\":\x7b\"n\":\x7b\"integerValue\":\"5\"\x7d,"
            ++ "\"n\":\x7b\"booleanValue\":true\x7d\x7d\x7d").toList := by
  have h := document_c_str []
    [DocOp.add "n".toList (Values.Value.new (Values.IntegerValue 5).toT),
     DocOp.setName "docs/a".toList,
     DocOp.add "n".toList (Values.Value.new (Values.BooleanValue true).toT)]
    (by decide) (by decide) (by decide)
  exact ⟨by decide, h.1.trans (by decide)⟩

/-- C10: an Update write serialises to the object that opens with the member
`update` holding the document text, followed by the member `updateMask` exactly
when the mask text is not empty, followed by the member `currentDocument`
exactly when the precondition text is not empty, and closed by one brace after
the last member present; the members keep this order in each of the four
combinations.  The mask text is empty exactly when the mask has no entries
(the default-constructed mask, or one constructed from a string without field
paths), and the precondition text is empty exactly for the default-constructed
precondition, the one that is not set: so `updateMask` is written exactly
when the mask has entries and `currentDocument` exactly when the precondition
is set. -/
theorem write_update_c_str (updateMask : DocumentMask) (update : Document)
    (currentDocument : Precondition) (fieldPaths updateTime : Str) (b : Bool) :
    (Write.newUpdate updateMask update currentDocument).c_str
      = "\x7b\"update\":".toList ++ update.c_str
          ++ (if updateMask.c_str = [] then []
              else ",\"updateMask\":".toList ++ updateMask.c_str)
          ++ (if currentDocument.c_str = [] then []
              else ",\"currentDocument\":".toList ++ currentDocument.c_str)
          ++ "\x7d".toList
    ∧ (DocumentMask.empty.c_str = [] ∧ DocumentMask.empty.fieldPaths = [])
    ∧ ((DocumentMask.new fieldPaths).c_str = []
        ↔ (DocumentMask.new fieldPaths).fieldPaths = [])
    ∧ (Precondition.empty.c_str = [] ∧ (Precondition.ofExists b).c_str ≠ []
        ∧ (Precondition.ofUpdateTime updateTime).c_str ≠ [])
    ∧ (Write.newUpdate DocumentMask.empty update currentDocument).c_str
      = "\x7b\"update\":".toList ++ update.c_str
          ++ (if currentDocument.c_str = [] then []
              else ",\"currentDocument\":".toList ++ currentDocument.c_str)
          ++ "\x7d".toList
    ∧ (Write.newUpdate (DocumentMask.new fieldPaths) update currentDocument).c_str
      = "\x7b\"update\":".toList ++ update.c_str
          ++ (if (DocumentMask.new fieldPaths).fieldPaths = [] then []
              else ",\"updateMask\":".toList ++ (DocumentMask.new fieldPaths).c_str)
          ++ (if currentDocument.c_str = [] then []
              else ",\"currentDocument\":".toList ++ currentDocument.c_str)
          ++ "\x7d".toList := by
  have hgen : ∀ m : DocumentMask, (Write.newUpdate m update currentDocument).c_str
      = "\x7b\"update\":".toList ++ update.c_str
          ++ (if m.c_str = [] then [] else ",\"updateMask\":".toList ++ m.c_str)
          ++ (if currentDocument.c_str = [] then []
              else ",\"currentDocument\":".toList ++ currentDocument.c_str)
          ++ "\x7d".toList := by
    intro m
    have hD : NoNul update.c_str := noNul_cstr _
    have hM : NoNul m.c_str := noNul_cstr _
    have hP : NoNul currentDocument.c_str := noNul_cstr _
    by_cases hm : m.c_str = [] <;> by_cases hp : currentDocument.c_str = [] <;>
      simp [Write.newUpdate, Write.c_str, JsonHelper.addObject, hm, hp, cstr_cons, NUL,
        cstr_append_of_noNul, hD, hM, hP, cstr_of_noNul]
  have hlink := DocumentMask_new_c_str_eq_nil_iff fieldPaths
  refine ⟨hgen updateMask, ⟨rfl, rfl⟩, hlink, ⟨rfl, ?_, ?_⟩, ?_, ?_⟩
  · cases b <;> decide
  · simp [Precondition.ofUpdateTime, Precondition.c_str, FSUT.setPair, JsonHelper.addObject,
      cstr_cons, NUL]
  · have h := hgen DocumentMask.empty
    have he : DocumentMask.empty.c_str = [] := rfl
    rw [he] at h
    simpa using h
  · have h := hgen (DocumentMask.new fieldPaths)
    by_cases hf : (DocumentMask.new fieldPaths).fieldPaths = []
    · rw [if_pos (hlink.2 hf)] at h
      rw [if_pos hf]
      exact h
    · rw [if_neg (fun e => hf (hlink.1 e))] at h
      rw [if_neg hf]
      exact h

/-- C4: for an array built from a first value and then `add` calls that are
all accepted, `val()` is the object whose member `arrayValue` holds the object
`values` listing the `val()` texts of the values in the order they were
supplied; `add` hands back the array after the call, so a chain of calls is
the calls made one after the other. -/
theorem arrayValue_val (v1 : TValue) (vs : List TValue)
    (hacc : (Values.ArrayValue.new v1).allAccepted vs = true) :
    ((Values.ArrayValue.new v1).adds vs).val
        = "\x7b\"arrayValue\":\x7b\"values\":[".toList
            ++ joinComma ((v1 :: vs).map TValue.val) ++ "]\x7d\x7d".toList
    ∧ ∀ w : TValue,
        (Values.ArrayValue.new v1).adds (vs ++ [w]) = ((Values.ArrayValue.new v1).adds vs).add w := by
  constructor
  · have hinv := ArrayValue_adds_inv vs _ _ (ArrayValue_new_inv v1)
    rw [heldAfter_allAccepted vs _ _ hacc] at hinv
    exact (ArrayValue_val_of_inv _ _ hinv).1
  · intro w
    simp [Values.ArrayValue.adds, List.foldl_append]

theorem arrayValue_val_witness :
    (Values.ArrayValue.new (Values.IntegerValue 1).toT).allAccepted
        [(Values.StringValue "x".toList).toT, (Values.BooleanValue true).toT] = true
    ∧ ((Values.ArrayValue.new (Values.IntegerValue 1).toT).adds
        [(Values.StringValue "x".toList).toT, (Values.BooleanValue true).toT]).val
        = ("\x7b\"arrayValue\":\x7b\"values\":[\x7b\"integerValue\":\"1\"\x7d,"
            ++ "\x7b\"stringValue\":\"x\"\x7d,\x7b\"booleanValue\":true\x7d]\x7d\x7d").toList := by
  have h := arrayValue_val (Values.IntegerValue 1).toT
    [(Values.StringValue "x".toList).toT, (Values.BooleanValue true).toT] (by decide)
  exact ⟨by decide, h.1.trans (by decide)⟩

/-- C5: when the tag of a value already is the tag of an element the array
holds, `add` leaves the serialisation unchanged: `c_str()` and `val()` are the
same texts as before and the array holds the same elements; so
`ArrayValue(IntegerValue(1)).add(IntegerValue(2))` still holds the single
element with the integer 1. -/
theorem arrayValue_add_existing_tag (v1 : TValue) (vs : List TValue) (v : TValue) (k : Nat)
    (hk : k < 11) (hv : topTag k v = true)
    (he : ∃ e ∈ Values.ArrayValue.held v1 vs, topTag k e = true) :
    (((Values.ArrayValue.new v1).adds vs).add v).c_str = ((Values.ArrayValue.new v1).adds vs).c_str
    ∧ (((Values.ArrayValue.new v1).adds vs).add v).val = ((Values.ArrayValue.new v1).adds vs).val
    ∧ Values.ArrayValue.held v1 (vs ++ [v]) = Values.ArrayValue.held v1 vs
    ∧ ((Values.ArrayValue.new (Values.IntegerValue 1).toT).add (Values.IntegerValue 2).toT).val
        = "\x7b\"arrayValue\":\x7b\"values\":[\x7b\"integerValue\":\"1\"\x7d]\x7d\x7d".toList := by
  have hinv := ArrayValue_adds_inv vs _ _ (ArrayValue_new_inv v1)
  have hrej := isExisted_of_tag_held _ _ v k hinv hk hv he
  have hbuf : (((Values.ArrayValue.new v1).adds vs).add v).buf
      = ((Values.ArrayValue.new v1).adds vs).buf := by
    rw [ArrayValue_add_rejected _ _ hrej, isExisted_buf]
  refine ⟨?_, ?_, ?_, by decide⟩
  · simp [Values.ArrayValue.c_str, hbuf]
  · simp [Values.ArrayValue.val, hbuf]
  · simp [Values.ArrayValue.held, heldAfter_append, Values.ArrayValue.heldAfter, hrej]

theorem arrayValue_add_existing_tag_witness :
    (2 < 11 ∧ topTag 2 (Values.IntegerValue 7).toT = true
      ∧ ∃ e ∈ Values.ArrayValue.held (Values.StringValue "x".toList).toT
          [(Values.IntegerValue 1).toT], topTag 2 e = true)
    ∧ (((Values.ArrayValue.new (Values.StringValue "x".toList).toT).adds
          [(Values.IntegerValue 1).toT]).add (Values.IntegerValue 7).toT).val
        = ((Values.ArrayValue.new (Values.StringValue "x".toList).toT).adds
          [(Values.IntegerValue 1).toT]).val :=
  ⟨⟨by decide, by decide, by decide⟩,
   (arrayValue_add_existing_tag (Values.StringValue "x".toList).toT [(Values.IntegerValue 1).toT]
      (Values.IntegerValue 7).toT 2 (by decide) (by decide) (by decide)).2.1⟩

/-- C6 (the code differs): `add` of `ArrayValue` accepts an `ArrayValue`: `add`
of the array holding the integer 1 to the array holding the string x appends
it as second element, an element whose top-level tag is `arrayValue`.
`ArrayValue(v)` for an array `v` is the copy constructor: the new array holds
what `v` holds and does not nest it. -/
theorem arrayValue_holds_array (v : Values.ArrayValue) :
    (Values.ArrayValue.copy v).c_str = v.c_str
    ∧ topTag firestore_const_key_arrayValue
        (Values.ArrayValue.new (Values.IntegerValue 1).toT).toT = true
    ∧ ((Values.ArrayValue.new (Values.StringValue "x".toList).toT).isExisted
          (Values.ArrayValue.new (Values.IntegerValue 1).toT).toT).1 = false
    ∧ ((Values.ArrayValue.new (Values.StringValue "x".toList).toT).add
          (Values.ArrayValue.new (Values.IntegerValue 1).toT).toT).c_str
        = ("\x7b\"values\":[\x7b\"stringValue\":\"x\"\x7d,"
            ++ "\x7b\"arrayValue\":\x7b\"values\":[\x7b\"integerValue\":\"1\"\x7d]\x7d\x7d]"
            ++ "\x7d").toList := by
  refine ⟨rfl, ?_, ?_, ?_⟩ <;> decide

/-- C12: a Delete write serialises to the object with the member `delete`
holding `getDocPath(path)` in quotes (the path is a C text, without NUL), a
Transform write to the object with the member `transform` holding the text of
the document transform; when the precondition is set (its text is not empty)
the member `currentDocument` comes first in both. -/
theorem write_delete_transform_c_str (deletePath : Str) (transform : DocumentTransform)
    (currentDocument : Precondition) (hpath : NoNul deletePath) :
    (Write.newDelete deletePath currentDocument).c_str
        = (if currentDocument.c_str = [] then "\x7b".toList
            else "\x7b\"currentDocument\":".toList ++ currentDocument.c_str ++ ",".toList)
          ++ "\"delete\":\"".toList ++ FSUT.getDocPath deletePath ++ "\"\x7d".toList
    ∧ (Write.newTransform transform currentDocument).c_str
        = (if currentDocument.c_str = [] then "\x7b".toList
            else "\x7b\"currentDocument\":".toList ++ currentDocument.c_str ++ ",".toList)
          ++ "\"transform\":".toList ++ transform.c_str ++ "\x7d".toList := by
  have hP : NoNul currentDocument.c_str := noNul_cstr _
  have hT : NoNul transform.c_str := noNul_cstr _
  have hR := noNul_getDocPath deletePath hpath
  constructor <;> by_cases hp : currentDocument.c_str = [] <;>
    simp [Write.newDelete, Write.newTransform, Write.c_str, JsonHelper.addObject,
      JsonHelper.toString, hp, cstr_cons, NUL, cstr_append_of_noNul, hP, hT, hR]

theorem write_delete_transform_c_str_witness :
    NoNul "docs/a".toList
    ∧ (Write.newDelete "docs/a".toList (Precondition.ofExists true)).c_str
        = ("\x7b\"currentDocument\":\x7b\"exists\":true\x7d,"
            ++ "\"delete\":\"<resource_path>/docs/a\"\x7d").toList
    ∧ (Write.newDelete "docs/a".toList Precondition.empty).c_str
        = "\x7b\"delete\":\"<resource_path>/docs/a\"\x7d".toList := by
  have h1 := (write_delete_transform_c_str "docs/a".toList ⟨[]⟩ (Precondition.ofExists true)
    (by decide)).1
  have h2 := (write_delete_transform_c_str "docs/a".toList ⟨[]⟩ Precondition.empty
    (by decide)).1
  exact ⟨by decide, h1.trans (by decide), h2.trans (by decide)⟩

/-- C13: after the first `addUpdateTransform` on an Update write, `c_str()`
is the serialisation the write had before without its closing brace: the
last character of the buffer has been overwritten with NUL, so the appended
member `updateTransforms` lies behind the end of the C string; a second call
does not bring it back. -/
theorem write_addUpdateTransform_c_str (updateMask : DocumentMask) (update : Document)
    (currentDocument : Precondition) (t : FieldTransform) :
    ((Write.newUpdate updateMask update currentDocument).addUpdateTransform t).c_str
        = (Write.newUpdate updateMask update currentDocument).c_str.dropLast
    ∧ ((Write.newUpdate updateMask update currentDocument).addUpdateTransform t).buf
        = (Write.newUpdate updateMask update currentDocument).c_str.dropLast
            ++ NUL :: (",\"updateTransforms\":[".toList ++ t.c_str ++ "]\x7d".toList)
    ∧ (((Write.newUpdate DocumentMask.empty (Document.new "a".toList)
          Precondition.empty).addUpdateTransform ⟨"1".toList⟩).addUpdateTransform
          ⟨"2".toList⟩).c_str
        = "\x7b\"update\":\x7b\"name\":\"<resource_path>/a\"\x7d".toList := by
  obtain ⟨S, hS, hbuf⟩ := Write_newUpdate_buf_closed updateMask update currentDocument
  have hc : (Write.newUpdate updateMask update currentDocument).c_str = S ++ ['\x7d'] := by
    rw [← Write_newUpdate_buf_eq_c_str, hbuf]
  have htype : (Write.newUpdate updateMask update currentDocument).write_type
      = .firestore_write_type_update := rfl
  have htrans : (Write.newUpdate updateMask update currentDocument).updateTrans = false := rfl
  have hb : ((Write.newUpdate updateMask update currentDocument).addUpdateTransform t).buf
      = S ++ NUL :: (",\"updateTransforms\":[".toList ++ t.c_str ++ "]\x7d".toList) := by
    simp only [Write.addUpdateTransform, htype, htrans, hbuf, if_true, Bool.not_false]
    rw [setLast_append_singleton]
    simp [JsonHelper.addObject, FSUT.getArrayStr]
  refine ⟨?_, ?_, by decide⟩
  · rw [hc, List.dropLast_concat]
    unfold Write.c_str
    rw [hb, cstr_append_NUL _ _ hS]
  · rw [hc, List.dropLast_concat, hb]

/-- C14: on a Delete write and on a Transform write `addUpdateTransform`
changes nothing: the write after the call, which is what the call returns, is
the write before it, with its buffer, its kind and its `updateTrans` flag. -/
theorem write_addUpdateTransform_not_update (deletePath : Str) (transform : DocumentTransform)
    (currentDocument : Precondition) (t : FieldTransform) :
    (Write.newDelete deletePath currentDocument).addUpdateTransform t
        = Write.newDelete deletePath currentDocument
    ∧ (Write.newTransform transform currentDocument).addUpdateTransform t
        = Write.newTransform transform currentDocument
    ∧ (Write.newDelete deletePath currentDocument).write_type = .firestore_write_type_delete
    ∧ (Write.newTransform transform currentDocument).write_type
        = .firestore_write_type_transform := by
  refine ⟨?_, ?_, rfl, rfl⟩ <;> simp [Write.addUpdateTransform, Write.newDelete, Write.newTransform]
/-- C15: for every transaction text (a C text, without NUL) and every
non-empty sequence of writes, the first given to the constructor and the rest
to `add`, `Writes` serialises to the object with the member `writes` listing
the texts of the writes in the order they were added, preceded by the member
`transaction` holding the quoted text exactly when that text is not empty. -/
theorem writes_c_str (transaction : Str) (w1 : Write) (ws : List Write)
    (htx : NoNul transaction) :
    ((Writes.new w1 transaction).adds ws).c_str
      = (if transaction = [] then "\x7b".toList
          else "\x7b\"transaction\":\"".toList ++ transaction ++ "\",".toList)
        ++ "\"writes\":[".toList ++ joinComma ((w1 :: ws).map Write.c_str) ++ "]\x7d".toList := by
  have hw1 : NoNul w1.c_str := noNul_cstr _
  have hall : ∀ x ∈ (w1 :: ws).map Write.c_str, NoNul x := by
    intro x hx
    obtain ⟨w, _, rfl⟩ := List.mem_map.1 hx
    exact noNul_cstr _
  have hj := noNul_joinComma _ hall
  have hd1 : ∀ x ∈ [w1.c_str], NoNul x := by
    intro x hx
    rw [List.mem_singleton] at hx
    subst hx
    exact hw1
  by_cases ht : transaction = []
  · subst ht
    have h0 : (Writes.new w1 []).buf
        = "\x7b\"writes\":[".toList ++ joinComma [w1.c_str] ++ "]\x7d".toList := by
      simp [Writes.new, JsonHelper.addObject, FSUT.getArrayStr, joinComma]
    have h := Writes_adds_buf ws _ _ [w1.c_str] (by simp) (by decide) hd1 h0
    have hj' : NoNul (joinComma (w1.c_str :: ws.map Write.c_str)) := by simpa using hj
    simp only [Writes.c_str, h, if_true]
    simp [cstr_cons, NUL, cstr_append_of_noNul, hj']
  · have hpre : NoNul ("\x7b\"transaction\":\"".toList ++ transaction
        ++ "\",\"writes\":[".toList) := by
      simp [noNul_append, noNul_cons, noNul_nil, NUL, htx]
    have h0 : (Writes.new w1 transaction).buf
        = ("\x7b\"transaction\":\"".toList ++ transaction ++ "\",\"writes\":[".toList)
            ++ joinComma [w1.c_str] ++ "]\x7d".toList := by
      simp [Writes.new, ht, JsonHelper.addObject, JsonHelper.toString, FSUT.getArrayStr,
        joinComma]
    have h := Writes_adds_buf ws _ _ [w1.c_str] (by simp) hpre hd1 h0
    have hj' : NoNul (joinComma (w1.c_str :: ws.map Write.c_str)) := by simpa using hj
    simp only [Writes.c_str, h, ht, if_false]
    simp [cstr_cons, NUL, cstr_append_of_noNul, hj', htx]

theorem writes_c_str_witness :
    NoNul "tx".toList
    ∧ ((Writes.new (Write.newDelete "x".toList (Precondition.ofExists true)) "tx".toList).adds
          [Write.newDelete "y".toList Precondition.empty]).c_str
        = ("\x7b\"transaction\":\"tx\",\"writes\":[\x7b\"currentDocument\":\x7b\"exists\":true\x7d,"
            ++ "\"delete\":\"<resource_path>/x\"\x7d,\x7b\"delete\":\"<resource_path>/y\"\x7d]\x7d").toList
    ∧ ((Writes.new (Write.newDelete "x".toList Precondition.empty) []).adds
          [Write.newDelete "y".toList Precondition.empty]).c_str
        = ("\x7b\"writes\":[\x7b\"delete\":\"<resource_path>/x\"\x7d,"
            ++ "\x7b\"delete\":\"<resource_path>/y\"\x7d]\x7d").toList := by
  have h1 := writes_c_str "tx".toList (Write.newDelete "x".toList (Precondition.ofExists true))
    [Write.newDelete "y".toList Precondition.empty] (by decide)
  have h2 := writes_c_str [] (Write.newDelete "x".toList Precondition.empty)
    [Write.newDelete "y".toList Precondition.empty] (by decide)
  exact ⟨by decide, h1.trans (by decide), h2.trans (by decide)⟩

/-- C19: in both dispatchers `setClientError` marks one result with the
"error available" flag and the code: the caller's result when the request
points to one (no temporary is made), a fresh temporary otherwise, which is
deleted and leaves the request as it was; the callback is called once, with
the marked result, when the request has one, and no call is made otherwise. -/
theorem setClientError_marks_one (requestF : FirestoreBase.async_request_data_t)
    (requestC : GoogleCloudStorage.async_request_data_t) (code : Int) :
    ((FirestoreBase.setClientError requestF code).calls
        = (match requestF.cb with
           | some cb => [Call.callback cb (markedResult requestF.aResult code)]
           | none => [])
      ∧ (FirestoreBase.setClientError requestF code).request
        = (match requestF.aResult with
           | some _ => { requestF with aResult := some (markedResult requestF.aResult code) }
           | none => requestF)
      ∧ (FirestoreBase.setClientError requestF code).temporary
        = (match requestF.aResult with
           | some _ => none
           | none => some (markedResult none code)))
    ∧ ((CloudStorage.setClientError requestC code).calls
        = (match requestC.cb with
           | some cb => [Call.callback cb (markedResult requestC.aResult code)]
           | none => [])
      ∧ (CloudStorage.setClientError requestC code).request
        = (match requestC.aResult with
           | some _ => { requestC with aResult := some (markedResult requestC.aResult code) }
           | none => requestC)
      ∧ (CloudStorage.setClientError requestC code).temporary
        = (match requestC.aResult with
           | some _ => none
           | none => some (markedResult none code)))
    ∧ (∀ r : Option AsyncResult,
        (markedResult r code).error_available = true
        ∧ (markedResult r code).lastError.code = code
        ∧ (markedResult r code).download_data_ota
            = (r.getD AsyncResult.new).download_data_ota) := by
  refine ⟨?_, ?_, fun r => ⟨rfl, rfl, rfl⟩⟩
  · have h := FirestoreBase_setClientError_eq requestF code
    refine ⟨?_, h.2.1, h.2.2⟩
    rw [h.1]
    cases requestF.cb <;> rfl
  · have h := CloudStorage_setClientError_eq requestC code
    refine ⟨?_, h.2.1, h.2.2⟩
    rw [h.1]
    cases requestC.cb <;> rfl

/-- C17: in both dispatchers, when `appToken()` yields no token (the address
of the application is not registered, or the stored token is null),
`asyncRequest` is the call of `setClientError` with the code
`FIREBASE_ERROR_APP_WAS_NOT_ASSIGNED` on the request as it was given: no slot,
no call on the transport (`createSlot`, `newRequest`, `setContentLength`,
`process`), and the path, the options and the `service_url` are untouched. -/
theorem asyncRequest_without_token (notAssigned cancelled : Int) (aVec : List Nat)
    (fb : FirestoreBase) (cs : CloudStorage) (requestF : FirestoreBase.async_request_data_t)
    (requestC : GoogleCloudStorage.async_request_data_t) (beta : Int)
    (created : Option async_data_item_t)
    (hF : existed aVec fb.app_addr = false ∨ fb.app_token = none)
    (hC : existed aVec cs.app_addr = false ∨ cs.app_token = none) :
    ((FirestoreBase.asyncRequest notAssigned cancelled aVec fb requestF beta created).request
        = (FirestoreBase.setClientError requestF notAssigned).request
      ∧ (FirestoreBase.asyncRequest notAssigned cancelled aVec fb requestF beta created).calls
        = (FirestoreBase.setClientError requestF notAssigned).calls
      ∧ (FirestoreBase.asyncRequest notAssigned cancelled aVec fb requestF beta created).temporary
        = (FirestoreBase.setClientError requestF notAssigned).temporary
      ∧ (FirestoreBase.asyncRequest notAssigned cancelled aVec fb requestF beta created).slot
        = none
      ∧ (FirestoreBase.asyncRequest notAssigned cancelled aVec fb requestF beta
          created).service_url = fb.service_url
      ∧ (∀ c ∈ (FirestoreBase.asyncRequest notAssigned cancelled aVec fb requestF beta
          created).calls, c.onTransport = false))
    ∧ ((CloudStorage.asyncRequest notAssigned cancelled aVec cs requestC beta created).request
        = (CloudStorage.setClientError requestC notAssigned).request
      ∧ (CloudStorage.asyncRequest notAssigned cancelled aVec cs requestC beta created).calls
        = (CloudStorage.setClientError requestC notAssigned).calls
      ∧ (CloudStorage.asyncRequest notAssigned cancelled aVec cs requestC beta created).temporary
        = (CloudStorage.setClientError requestC notAssigned).temporary
      ∧ (CloudStorage.asyncRequest notAssigned cancelled aVec cs requestC beta created).slot
        = none
      ∧ (CloudStorage.asyncRequest notAssigned cancelled aVec cs requestC beta
          created).service_url = cs.service_url
      ∧ (∀ c ∈ (CloudStorage.asyncRequest notAssigned cancelled aVec cs requestC beta
          created).calls, c.onTransport = false)) := by
  have hf := FirestoreBase_appToken_none fb aVec hF
  have hc := CloudStorage_appToken_none cs aVec hC
  constructor
  · have hd : FirestoreBase.asyncRequest notAssigned cancelled aVec fb requestF beta created
        = ⟨(FirestoreBase.setClientError requestF notAssigned).request, fb.service_url, none,
            (FirestoreBase.setClientError requestF notAssigned).calls,
            (FirestoreBase.setClientError requestF notAssigned).temporary⟩ := by
      simp [FirestoreBase.asyncRequest, hf]
    rw [hd]
    refine ⟨rfl, rfl, rfl, rfl, rfl, ?_⟩
    rw [(FirestoreBase_setClientError_eq requestF notAssigned).1]
    exact errorCallbacks_not_onTransport _ _ _
  · have hd : CloudStorage.asyncRequest notAssigned cancelled aVec cs requestC beta created
        = ⟨(CloudStorage.setClientError requestC notAssigned).request, cs.service_url, none,
            (CloudStorage.setClientError requestC notAssigned).calls,
            (CloudStorage.setClientError requestC notAssigned).temporary⟩ := by
      simp [CloudStorage.asyncRequest, hc]
    rw [hd]
    refine ⟨rfl, rfl, rfl, rfl, rfl, ?_⟩
    rw [(CloudStorage_setClientError_eq requestC notAssigned).1]
    exact errorCallbacks_not_onTransport _ _ _
theorem asyncRequest_without_token_witness :
    (existed [3] 7 = false ∨ (some (app_token_t.mk "p".toList)) = none)
    ∧ (existed [7] 7 = false ∨ (none : Option app_token_t) = none)
    ∧ (FirestoreBase.asyncRequest (-1) (-2) [3] ⟨[], [], [], 7, some ⟨"p".toList⟩⟩
          ⟨"x".toList, [], .http_get, ⟨true, false, none⟩, ⟨⟨[], [], [], false⟩, [], []⟩,
            none, some 1⟩ 0
          (some ⟨[], [], ⟨[]⟩, true, false, false, none, none, true, false, false⟩)).calls
        = [Call.callback 1 ⟨true, ⟨-1⟩, false⟩] := by
  have h := asyncRequest_without_token (-1) (-2) [3] ⟨[], [], [], 7, some ⟨"p".toList⟩⟩
    ⟨[], [], [], 7, none⟩
    ⟨"x".toList, [], .http_get, ⟨true, false, none⟩, ⟨⟨[], [], [], false⟩, [], []⟩,
      none, some 1⟩
    ⟨"x".toList, [], .http_get, ⟨true, false, none⟩, ⟨[], []⟩, none, [], none, some 1⟩ 0
    (some ⟨[], [], ⟨[]⟩, true, false, false, none, none, true, false, false⟩)
    (Or.inl (by decide)) (Or.inr rfl)
  exact ⟨Or.inl (by decide), Or.inr rfl, h.1.2.1.trans (by decide)⟩

/-- C18: in both dispatchers, when a token is present and `createSlot` answers
with no slot, the only call on the transport is `createSlot`; what follows is
`setClientError` with the code `FIREBASE_ERROR_OPERATION_CANCELLED`: the
caller's result, or a temporary, is marked, the callback is called with it
when there is one, and there is no slot, so no `newRequest`, no payload or
content length, no binding of a channel and no `process`. -/
theorem asyncRequest_without_slot (notAssigned cancelled : Int) (aVec : List Nat)
    (fb : FirestoreBase) (cs : CloudStorage) (requestF : FirestoreBase.async_request_data_t)
    (requestC : GoogleCloudStorage.async_request_data_t) (beta : Int)
    (tokenF tokenC : app_token_t)
    (hF : fb.appToken aVec = some tokenF) (hC : cs.appToken aVec = some tokenC) :
    ((FirestoreBase.asyncRequest notAssigned cancelled aVec fb requestF beta none).calls
        = Call.createSlot { requestF.opt with app_token := some tokenF }
            :: errorCallbacks requestF.cb requestF.aResult cancelled
      ∧ (FirestoreBase.asyncRequest notAssigned cancelled aVec fb requestF beta none).slot = none
      ∧ (FirestoreBase.asyncRequest notAssigned cancelled aVec fb requestF beta
          none).request.aResult
        = (match requestF.aResult with
           | some _ => some (markedResult requestF.aResult cancelled)
           | none => none)
      ∧ (FirestoreBase.asyncRequest notAssigned cancelled aVec fb requestF beta none).temporary
        = (match requestF.aResult with
           | some _ => none
           | none => some (markedResult none cancelled)))
    ∧ ((CloudStorage.asyncRequest notAssigned cancelled aVec cs requestC beta none).calls
        = Call.createSlot { requestC.opt with app_token := some tokenC }
            :: errorCallbacks requestC.cb requestC.aResult cancelled
      ∧ (CloudStorage.asyncRequest notAssigned cancelled aVec cs requestC beta none).slot = none
      ∧ (CloudStorage.asyncRequest notAssigned cancelled aVec cs requestC beta
          none).request.aResult
        = (match requestC.aResult with
           | some _ => some (markedResult requestC.aResult cancelled)
           | none => none)
      ∧ (CloudStorage.asyncRequest notAssigned cancelled aVec cs requestC beta none).temporary
        = (match requestC.aResult with
           | some _ => none
           | none => some (markedResult none cancelled))) := by
  constructor
  · cases hr : requestF.aResult <;> cases hcb : requestF.cb <;>
      simp [FirestoreBase.asyncRequest, hF, FirestoreBase.setClientError, errorCallbacks,
        markedResult, hr, hcb, FirebaseError.setClientError]
  · cases hr : requestC.aResult <;> cases hcb : requestC.cb <;>
      simp [CloudStorage.asyncRequest, hC, CloudStorage.setClientError, errorCallbacks,
        markedResult, hr, hcb, FirebaseError.setClientError]

theorem asyncRequest_without_slot_witness :
    ((FirestoreBase.mk [] [] [] 7 (some ⟨"p".toList⟩)).appToken [7] = some ⟨"p".toList⟩
      ∧ (CloudStorage.mk [] [] [] 7 (some ⟨"p".toList⟩)).appToken [7] = some ⟨"p".toList⟩)
    ∧ (CloudStorage.asyncRequest (-1) (-2) [7] ⟨[], [], [], 7, some ⟨"p".toList⟩⟩
          ⟨"x".toList, [], .http_get, ⟨true, false, none⟩, ⟨"body".toList, []⟩, none, [],
            some AsyncResult.new, some 1⟩ 0 none).calls
        = [Call.createSlot ⟨true, false, some ⟨"p".toList⟩⟩,
           Call.callback 1 ⟨true, ⟨-2⟩, false⟩] := by
  have h := asyncRequest_without_slot (-1) (-2) [7] ⟨[], [], [], 7, some ⟨"p".toList⟩⟩
    ⟨[], [], [], 7, some ⟨"p".toList⟩⟩
    ⟨"x".toList, [], .http_get, ⟨true, false, none⟩, ⟨⟨[], [], [], false⟩, [], []⟩,
      none, some 1⟩
    ⟨"x".toList, [], .http_get, ⟨true, false, none⟩, ⟨"body".toList, []⟩, none, [],
      some AsyncResult.new, some 1⟩ 0 ⟨"p".toList⟩ ⟨"p".toList⟩ (by decide) (by decide)
  exact ⟨⟨by decide, by decide⟩, h.2.1.trans (by decide)⟩

/-- C20: each boolean operation of `CloudStorage` returns `true` whatever the
state of the object, also when no application was ever assigned to it:
`sendRequest` ends without calling `asyncRequest`, so the local result is read
as it was created. -/
theorem cloudStorage_boolean_operations {P F O : Type} (cs : CloudStorage) (parent : P)
    (file : F) (options : O) :
    cs.download parent file options = true
    ∧ cs.upload parent file options = true
    ∧ cs.ota parent options = true
    ∧ cs.getMetadata parent options = true
    ∧ cs.list parent options = true
    ∧ cs.deleteObject parent options = true
    ∧ (CloudStorage.mk [] [] [] 0 none).appToken [] = none
    ∧ (CloudStorage.mk [] [] [] 0 none).download parent file options = true
    ∧ (cs.sendRequest (some AsyncResult.new) none [] parent file (some options)
          (none : Option Unit) (none : Option Unit)
          .google_cloud_storage_request_type_download false).calls = [] := by
  refine ⟨rfl, rfl, rfl, rfl, rfl, rfl, rfl, rfl, rfl⟩

/-- C21 (the code differs): in the result form and in the callback form of each
operation of `CloudStorage`, `sendRequest` ends without calling `asyncRequest`
or `setClientError`, so with no application assigned the callback is not
called and the caller's result is left as it was: no client error is reported
through either channel. -/
theorem cloudStorage_no_error_reported {P F O : Type} (cs : CloudStorage) (parent : P)
    (file : F) (options : O) (aResult : AsyncResult) (cb : AsyncResultCallback) (uid : Str) :
    ((cs.downloadResult parent file options aResult).result = some aResult
      ∧ (cs.uploadResult parent file options aResult).result = some aResult
      ∧ (cs.otaResult parent options aResult).result = some aResult
      ∧ (cs.getMetadataResult parent options aResult).result = some aResult
      ∧ (cs.listResult parent options aResult).result = some aResult
      ∧ (cs.deleteObjectResult parent options aResult).result = some aResult)
    ∧ ((cs.downloadCallback parent file options cb uid).calls = []
      ∧ (cs.uploadCallback parent file options cb uid).calls = []
      ∧ (cs.otaCallback parent options cb uid).calls = []
      ∧ (cs.getMetadataCallback parent options cb uid).calls = []
      ∧ (cs.listCallback parent options cb uid).calls = []
      ∧ (cs.deleteObjectCallback parent options cb uid).calls = [])
    ∧ (CloudStorage.mk [] [] [] 0 none).appToken [] = none
    ∧ ((CloudStorage.mk [] [] [] 0 none).downloadResult parent file options
          AsyncResult.new).result = some ⟨false, ⟨0⟩, false⟩
    ∧ ((CloudStorage.mk [] [] [] 0 none).downloadCallback parent file options cb uid).calls
        = [] :=
  ⟨⟨rfl, rfl, rfl, rfl, rfl, rfl⟩, ⟨rfl, rfl, rfl, rfl, rfl, rfl⟩, rfl, rfl, rfl⟩

/-- C30 (the code differs): for the `MapValue` made by the default constructor,
to which no entry was added, `val()` is the text `{"mapValue":}`: the member
has no value, the text does not start with `{"mapValue":{"fields":{` and ends
with one closing brace. -/
theorem mapValue_default_val :
    Values.MapValue.empty.val = "\x7b\"mapValue\":\x7d".toList
    ∧ ¬ "\x7b\"mapValue\":\x7b\"fields\":\x7b".toList <+: Values.MapValue.empty.val
    ∧ ¬ "\x7d\x7d\x7d".toList <:+ Values.MapValue.empty.val := by
  have h : Values.MapValue.empty.val = "\x7b\"mapValue\":\x7d".toList := by decide
  rw [h]
  decide

/-- C28: when a token is present and `createSlot` answers with a slot,
`CloudStorage::asyncRequest` hands that slot on with, for a request whose
option `ota` is set, `request.ota = true`, `request.base64 = false` and
`aResult.download_data.ota = true`; for a request without the option the two
OTA flags of the slot are what they were. -/
theorem cloudStorage_asyncRequest_ota (notAssigned cancelled : Int) (aVec : List Nat)
    (cs : CloudStorage) (request : GoogleCloudStorage.async_request_data_t) (beta : Int)
    (sData : async_data_item_t) (token : app_token_t) (h : cs.appToken aVec = some token) :
    ∃ slot, (CloudStorage.asyncRequest notAssigned cancelled aVec cs request beta
          (some sData)).slot = some slot
      ∧ (request.opt.ota = true →
          slot.request_ota = true ∧ slot.request_base64 = false
            ∧ slot.aResult_download_data_ota = true)
      ∧ (request.opt.ota = false →
          slot.request_ota = sData.request_ota
            ∧ slot.aResult_download_data_ota = sData.aResult_download_data_ota) := by
  cases hcb : request.cb <;> cases hr : request.aResult <;> cases ho : request.opt.ota <;>
    cases hf : request.file <;> by_cases hp : request.options.payload = [] <;>
    simp [CloudStorage.asyncRequest, h, hcb, hr, ho, hf, hp, setFileStatus_request_ota,
      setFileStatus_download_data_ota]

theorem cloudStorage_asyncRequest_ota_witness :
    (CloudStorage.mk [] [] [] 7 (some ⟨"p".toList⟩)).appToken [7] = some ⟨"p".toList⟩
    ∧ ∃ slot, (CloudStorage.asyncRequest (-1) (-2) [7] ⟨[], [], [], 7, some ⟨"p".toList⟩⟩
          ⟨"x".toList, [], .http_get, ⟨true, true, none⟩, ⟨[], []⟩, none, [], none, some 1⟩ 0
          (some ⟨[], [], ⟨[]⟩, true, false, false, none, none, true, false, false⟩)).slot
          = some slot
      ∧ ((true : Bool) = true →
          slot.request_ota = true ∧ slot.request_base64 = false
            ∧ slot.aResult_download_data_ota = true)
      ∧ ((true : Bool) = false →
          slot.request_ota = false ∧ slot.aResult_download_data_ota = false) :=
  ⟨by decide, cloudStorage_asyncRequest_ota (-1) (-2) [7] ⟨[], [], [], 7, some ⟨"p".toList⟩⟩
    ⟨"x".toList, [], .http_get, ⟨true, true, none⟩, ⟨[], []⟩, none, [], none, some 1⟩ 0
    ⟨[], [], ⟨[]⟩, true, false, false, none, none, true, false, false⟩ ⟨"p".toList⟩
    (by decide)⟩

/-- C29: in both dispatchers, when a token is present and `createSlot` answers
with a slot, the two channels are bound independently: the callback of the
slot is that of the request when the request has one and is left as it was
otherwise, and so is the bound result; to a slot created with neither, the
callback is bound exactly when the request has a callback, the result exactly
when it has a result, and both when it has both. -/
theorem asyncRequest_binds_channels (notAssigned cancelled : Int) (aVec : List Nat)
    (fb : FirestoreBase) (cs : CloudStorage) (requestF : FirestoreBase.async_request_data_t)
    (requestC : GoogleCloudStorage.async_request_data_t) (beta : Int)
    (sData : async_data_item_t) (tokenF tokenC : app_token_t)
    (hF : fb.appToken aVec = some tokenF) (hC : cs.appToken aVec = some tokenC) :
    (∃ slot, (FirestoreBase.asyncRequest notAssigned cancelled aVec fb requestF beta
          (some sData)).slot = some slot
      ∧ slot.cb = (requestF.cb <|> sData.cb)
      ∧ slot.refResult = (requestF.aResult <|> sData.refResult)
      ∧ (sData.cb = none → sData.refResult = none →
          slot.cb = requestF.cb ∧ slot.refResult = requestF.aResult))
    ∧ (∃ slot, (CloudStorage.asyncRequest notAssigned cancelled aVec cs requestC beta
          (some sData)).slot = some slot
      ∧ slot.cb = (requestC.cb <|> sData.cb)
      ∧ slot.refResult = (requestC.aResult <|> sData.refResult)
      ∧ (sData.cb = none → sData.refResult = none →
          slot.cb = requestC.cb ∧ slot.refResult = requestC.aResult)) := by
  constructor
  · cases hcb : requestF.cb <;> cases hr : requestF.aResult <;>
      by_cases hp : requestF.options.payload = [] <;>
      simp +contextual [FirestoreBase.asyncRequest, hF, hcb, hr, hp]
  · cases hcb : requestC.cb <;> cases hr : requestC.aResult <;> cases ho : requestC.opt.ota <;>
      cases hf : requestC.file <;> by_cases hp : requestC.options.payload = [] <;>
      simp +contextual [CloudStorage.asyncRequest, hC, hcb, hr, ho, hf, hp, setFileStatus_cb,
        setFileStatus_refResult]

theorem asyncRequest_binds_channels_witness :
    ((FirestoreBase.mk [] [] [] 7 (some ⟨"p".toList⟩)).appToken [7] = some ⟨"p".toList⟩
      ∧ (CloudStorage.mk [] [] [] 7 (some ⟨"p".toList⟩)).appToken [7] = some ⟨"p".toList⟩)
    ∧ ∃ slot, (CloudStorage.asyncRequest (-1) (-2) [7] ⟨[], [], [], 7, some ⟨"p".toList⟩⟩
          ⟨"x".toList, [], .http_get, ⟨true, false, none⟩, ⟨"body".toList, []⟩, none, [],
            none, some 1⟩ 0
          (some ⟨[], [], ⟨[]⟩, true, false, false, none, none, true, false, false⟩)).slot
          = some slot
      ∧ slot.cb = some 1 ∧ slot.refResult = none := by
  have h := asyncRequest_binds_channels (-1) (-2) [7] ⟨[], [], [], 7, some ⟨"p".toList⟩⟩
    ⟨[], [], [], 7, some ⟨"p".toList⟩⟩
    ⟨"x".toList, [], .http_get, ⟨true, false, none⟩, ⟨⟨[], [], [], false⟩, [], []⟩,
      none, some 1⟩
    ⟨"x".toList, [], .http_get, ⟨true, false, none⟩, ⟨"body".toList, []⟩, none, [],
      none, some 1⟩ 0
    ⟨[], [], ⟨[]⟩, true, false, false, none, none, true, false, false⟩
    ⟨"p".toList⟩ ⟨"p".toList⟩ (by decide) (by decide)
  obtain ⟨slot, hs, _, _, hfresh⟩ := h.2
  exact ⟨⟨by decide, by decide⟩, slot, hs, hfresh rfl rfl⟩

/-- C29, as stated, fails for a request that carries a callback and a result,
as the operations build it when they are called with both: `asyncRequest`
binds both channels to the slot. -/
theorem asyncRequest_binds_both :
    (FirestoreBase.asyncRequest (-1) (-2) [7] ⟨[], [], [], 7, some ⟨"p".toList⟩⟩
        ⟨"x".toList, [], .http_get, ⟨true, false, none⟩, ⟨⟨[], [], [], false⟩, [], []⟩,
          some AsyncResult.new, some 1⟩ 0
        (some ⟨[], [], ⟨[]⟩, true, false, false, none, none, true, false, false⟩)).slot
      = some ⟨[], [], ⟨[]⟩, true, false, false, some 1, some AsyncResult.new, true, false,
          false⟩
    ∧ (CloudStorage.asyncRequest (-1) (-2) [7] ⟨[], [], [], 7, some ⟨"p".toList⟩⟩
        ⟨"x".toList, [], .http_get, ⟨true, false, none⟩, ⟨[], []⟩, none, [],
          some AsyncResult.new, some 1⟩ 0
        (some ⟨[], [], ⟨[]⟩, true, false, false, none, none, true, false, false⟩)).slot
      = some ⟨[], [], ⟨[]⟩, true, false, false, some 1, some AsyncResult.new, true, false,
          false⟩ := by
  constructor <;> decide

/-- C27: the method and the verb of the operations of `FirestoreBase` are
fixed by the operation: the request built by `createDoc`, `commitDoc`,
`batchWriteDoc`, `batchGetDoc`, `beginTrans`, `transRollback`, `runQueryImpl`,
`listCollIds` and `eximDocs` has the method POST, and but for `createDoc` its
extras end with the colon verb of the operation; `getDoc` and `listDocs` use
GET, `patchDoc` PATCH, `deleteDocBase` DELETE.  Each operation is one call of
`asyncRequest` on the request it builds, and a call of `asyncRequest` makes
one call of `newRequest`, with the method of the request, when there is a
token and a slot, and none otherwise. -/
theorem operations_method_and_verb (notAssigned cancelled : Int) (aVec : List Nat)
    (uh : URLHelper) (fb : FirestoreBase) (result : Option AsyncResult)
    (cb : Option AsyncResultCallback) (uid : Str) (parent : ParentResource)
    (collectionId documentId documentPath transaction currentDocumentQuery : Str)
    (mask : DocumentMask) (document : Document) (writes : Writes) (o : Options)
    (isImport async : Bool) (created : Option async_data_item_t) :
    ((fb.createDocReq uh result cb uid parent collectionId documentId mask document
          async).method = .http_post
      ∧ (fb.commitDocReq result cb uid parent writes async).method = .http_post
      ∧ (fb.batchWriteDocReq result cb uid parent writes async).method = .http_post
      ∧ (fb.batchGetDocReq result cb uid parent o async).method = .http_post
      ∧ (fb.beginTransReq result cb uid parent o async).method = .http_post
      ∧ (fb.transRollbackReq result cb uid parent transaction async).method = .http_post
      ∧ (fb.runQueryImplReq uh result cb uid parent documentPath o async).method = .http_post
      ∧ (fb.listCollIdsReq uh result cb uid parent documentPath o async).method = .http_post
      ∧ (fb.eximDocsReq result cb uid parent o isImport async).method = .http_post
      ∧ (fb.getDocReq result cb uid parent documentPath o async).method = .http_get
      ∧ (fb.listDocsReq uh result cb uid parent collectionId o async).method = .http_get
      ∧ (fb.patchDocReq result cb uid parent documentPath o document async).method
          = .http_patch
      ∧ (fb.deleteDocBaseReq uh result cb uid parent documentPath currentDocumentQuery
          async).method = .http_delete)
    ∧ ((fb.commitDocReq result cb uid parent writes async).options.extras
          = "/documents:commit".toList
      ∧ (fb.batchWriteDocReq result cb uid parent writes async).options.extras
          = "/documents:batchWrite".toList
      ∧ (fb.batchGetDocReq result cb uid parent o async).options.extras
          = "/documents:batchGet".toList
      ∧ (fb.beginTransReq result cb uid parent o async).options.extras
          = "/documents:beginTransaction".toList
      ∧ (fb.transRollbackReq result cb uid parent transaction async).options.extras
          = "/documents:rollback".toList
      ∧ ":runQuery".toList
          <:+ (fb.runQueryImplReq uh result cb uid parent documentPath o async).options.extras
      ∧ ":listCollectionIds".toList
          <:+ (fb.listCollIdsReq uh result cb uid parent documentPath o async).options.extras
      ∧ (fb.eximDocsReq result cb uid parent o true async).options.extras
          = ":importDocuments".toList
      ∧ (fb.eximDocsReq result cb uid parent o false async).options.extras
          = ":exportDocuments".toList)
    ∧ (FirestoreBase.createDoc notAssigned cancelled aVec uh fb result cb uid parent
          collectionId documentId mask document async created
        = FirestoreBase.asyncRequest notAssigned cancelled aVec fb
            (fb.createDocReq uh result cb uid parent collectionId documentId mask document
              async) 0 created
      ∧ FirestoreBase.commitDoc notAssigned cancelled aVec fb result cb uid parent writes
          async created
        = FirestoreBase.asyncRequest notAssigned cancelled aVec fb
            (fb.commitDocReq result cb uid parent writes async) 0 created
      ∧ FirestoreBase.batchWriteDoc notAssigned cancelled aVec fb result cb uid parent writes
          async created
        = FirestoreBase.asyncRequest notAssigned cancelled aVec fb
            (fb.batchWriteDocReq result cb uid parent writes async) 0 created
      ∧ FirestoreBase.batchGetDoc notAssigned cancelled aVec fb result cb uid parent o
          async created
        = FirestoreBase.asyncRequest notAssigned cancelled aVec fb
            (fb.batchGetDocReq result cb uid parent o async) 0 created
      ∧ FirestoreBase.beginTrans notAssigned cancelled aVec fb result cb uid parent o
          async created
        = FirestoreBase.asyncRequest notAssigned cancelled aVec fb
            (fb.beginTransReq result cb uid parent o async) 0 created
      ∧ FirestoreBase.transRollback notAssigned cancelled aVec fb result cb uid parent
          transaction async created
        = FirestoreBase.asyncRequest notAssigned cancelled aVec fb
            (fb.transRollbackReq result cb uid parent transaction async) 0 created
      ∧ FirestoreBase.runQueryImpl notAssigned cancelled aVec uh fb result cb uid parent
          documentPath o async created
        = FirestoreBase.asyncRequest notAssigned cancelled aVec fb
            (fb.runQueryImplReq uh result cb uid parent documentPath o async) 0 created
      ∧ FirestoreBase.listCollIds notAssigned cancelled aVec uh fb result cb uid parent
          documentPath o async created
        = FirestoreBase.asyncRequest notAssigned cancelled aVec fb
            (fb.listCollIdsReq uh result cb uid parent documentPath o async) 0 created
      ∧ FirestoreBase.eximDocs notAssigned cancelled aVec fb result cb uid parent o isImport
          async created
        = FirestoreBase.asyncRequest notAssigned cancelled aVec fb
            (fb.eximDocsReq result cb uid parent o isImport async) 0 created
      ∧ FirestoreBase.getDoc notAssigned cancelled aVec fb result cb uid parent documentPath o
          async created
        = FirestoreBase.asyncRequest notAssigned cancelled aVec fb
            (fb.getDocReq result cb uid parent documentPath o async) 0 created
      ∧ FirestoreBase.listDocs notAssigned cancelled aVec uh fb result cb uid parent
          collectionId o async created
        = FirestoreBase.asyncRequest notAssigned cancelled aVec fb
            (fb.listDocsReq uh result cb uid parent collectionId o async) 0 created
      ∧ FirestoreBase.patchDoc notAssigned cancelled aVec fb result cb uid parent documentPath
          o document async created
        = FirestoreBase.asyncRequest notAssigned cancelled aVec fb
            (fb.patchDocReq result cb uid parent documentPath o document async) 0 created
      ∧ FirestoreBase.deleteDocBase notAssigned cancelled aVec uh fb result cb uid parent
          documentPath currentDocumentQuery async created
        = FirestoreBase.asyncRequest notAssigned cancelled aVec fb
            (fb.deleteDocBaseReq uh result cb uid parent documentPath currentDocumentQuery
              async) 0 created)
    ∧ (∀ (request : FirestoreBase.async_request_data_t) (beta : Int),
        methodsRequested (FirestoreBase.asyncRequest notAssigned cancelled aVec fb request
            beta created).calls
          = if (fb.appToken aVec).isSome ∧ created.isSome then [request.method] else []) := by
  refine ⟨⟨rfl, rfl, rfl, rfl, rfl, rfl, rfl, rfl, rfl, rfl, rfl, rfl, rfl⟩,
    ⟨rfl, rfl, rfl, rfl, rfl, ⟨_, rfl⟩, ⟨_, rfl⟩, rfl, rfl⟩,
    ⟨rfl, rfl, rfl, rfl, rfl, rfl, rfl, rfl, rfl, rfl, rfl, rfl, rfl⟩, ?_⟩
  intro request beta
  exact FirestoreBase_asyncRequest_methodsRequested notAssigned cancelled aVec fb request beta
    created

/-- C24: `makeResourcePath(parent)` is `projects/`, the project id,
`/databases/`, the database id or `(default)` when that is empty, and
`/documents`; and when a token is present and the database id is not passed
as a query parameter, `asyncRequest` leaves the request with the path made of
the version prefix, the project, `/databases/` and the same database
segment (with the parameter the path stops after `/databases`). -/
theorem makeResourcePath_and_request_path (notAssigned cancelled : Int) (aVec : List Nat)
    (fb : FirestoreBase) (request : FirestoreBase.async_request_data_t) (beta : Int)
    (created : Option async_data_item_t) (parent : ParentResource) (token : app_token_t)
    (h : fb.appToken aVec = some token) :
    FirestoreBase.makeResourcePath parent
        = "projects/".toList ++ parent.projectId ++ "/databases/".toList
            ++ (if parent.databaseId = [] then "(default)".toList else parent.databaseId)
            ++ "/documents".toList
    ∧ (request.options.parent.databaseIdParam = false →
        (FirestoreBase.asyncRequest notAssigned cancelled aVec fb request beta
            created).request.path
          = (if beta = 2 then URLHelper.addGAPIv1beta2Path request.path
             else if beta = 1 then URLHelper.addGAPIv1beta1Path request.path
             else URLHelper.addGAPIv1Path request.path)
            ++ (if request.options.parent.projectId = [] then token.project_id
                else request.options.parent.projectId)
            ++ "/databases/".toList
            ++ (if request.options.parent.databaseId = [] then "(default)".toList
                else request.options.parent.databaseId))
    ∧ (request.options.parent.databaseIdParam = true →
        (FirestoreBase.asyncRequest notAssigned cancelled aVec fb request beta
            created).request.path
          = (if beta = 2 then URLHelper.addGAPIv1beta2Path request.path
             else if beta = 1 then URLHelper.addGAPIv1beta1Path request.path
             else URLHelper.addGAPIv1Path request.path)
            ++ (if request.options.parent.projectId = [] then token.project_id
                else request.options.parent.projectId)
            ++ "/databases".toList) := by
  refine ⟨?_, ?_, ?_⟩
  · by_cases hd : parent.databaseId = [] <;>
      simp [FirestoreBase.makeResourcePath, FirestoreBase.addDatabasePath,
        FirestoreBase.addDocsPath, hd, List.length_pos]
  · intro hq
    cases created <;> cases hr : request.aResult <;> cases hcb : request.cb <;>
      by_cases hd : request.options.parent.databaseId = [] <;>
      by_cases hp : request.options.parent.projectId = [] <;>
      by_cases hl : request.options.payload = [] <;>
      simp [FirestoreBase.asyncRequest, FirestoreBase.setClientError, h, hq, hd, hp, hr, hcb,
        hl, List.length_pos]
  · intro hq
    cases created <;> cases hr : request.aResult <;> cases hcb : request.cb <;>
      by_cases hp : request.options.parent.projectId = [] <;>
      by_cases hl : request.options.payload = [] <;>
      simp [FirestoreBase.asyncRequest, FirestoreBase.setClientError, h, hq, hp, hr, hcb,
        hl, List.length_pos]

theorem makeResourcePath_and_request_path_witness :
    (FirestoreBase.mk [] [] [] 7 (some ⟨"p".toList⟩)).appToken [7] = some ⟨"p".toList⟩
    ∧ FirestoreBase.makeResourcePath ⟨"proj".toList, [], [], false⟩
        = "projects/proj/databases/(default)/documents".toList
    ∧ (FirestoreBase.asyncRequest (-1) (-2) [7] ⟨[], [], [], 7, some ⟨"p".toList⟩⟩
          ⟨[], [], .http_get, ⟨true, false, none⟩, ⟨⟨[], [], [], false⟩, [], []⟩,
            none, some 1⟩ 0 none).request.path
        = "/v1/projects/p/databases/(default)".toList := by
  have h := makeResourcePath_and_request_path (-1) (-2) [7]
    ⟨[], [], [], 7, some ⟨"p".toList⟩⟩
    ⟨[], [], .http_get, ⟨true, false, none⟩, ⟨⟨[], [], [], false⟩, [], []⟩, none, some 1⟩ 0
    none ⟨"proj".toList, [], [], false⟩ ⟨"p".toList⟩ (by decide)
  exact ⟨by decide, h.1.trans (by decide), (h.2.1 rfl).trans (by decide)⟩

/-- C25: `databaseIndexManager` selects POST when the text of the index body is
not empty, DELETE when it is empty, the index id is not and the delete flag
is set, GET when it is empty, the index id is not and the flag is not set, and
GET when both are empty; the method depends on nothing else and is never
`http_undefined`. -/
theorem databaseIndexManager_method (fb : FirestoreBase) (result : Option AsyncResult)
    (cb : Option AsyncResultCallback) (uid : Str) (parent : ParentResource) (index : Options)
    (indexId : Str) (deleteMode async : Bool) :
    (fb.databaseIndexManagerReq result cb uid parent index indexId deleteMode async).method
        = (if index.c_str ≠ [] then http_request_method.http_post
           else if indexId ≠ [] then
             (if deleteMode then http_request_method.http_delete
              else http_request_method.http_get)
           else http_request_method.http_get)
    ∧ (fb.databaseIndexManagerReq result cb uid parent index indexId deleteMode async).method
        ≠ .http_undefined
    ∧ (fb.databaseIndexManagerReq result cb uid parent index indexId deleteMode
        async).options.payload = index.c_str := by
  have hm : (fb.databaseIndexManagerReq result cb uid parent index indexId deleteMode
      async).method
        = (if index.c_str ≠ [] then http_request_method.http_post
           else if indexId ≠ [] then
             (if deleteMode then http_request_method.http_delete
              else http_request_method.http_get)
           else http_request_method.http_get) := by
    by_cases hb : index.c_str = [] <;> by_cases hi : indexId = [] <;> cases deleteMode <;>
      simp [FirestoreBase.databaseIndexManagerReq, FirestoreBase.aReq, hb, hi, List.length_pos]
  refine ⟨hm, ?_, rfl⟩
  rw [hm]
  by_cases hb : index.c_str = [] <;> by_cases hi : indexId = [] <;> cases deleteMode <;>
    simp [hb, hi]

/-- C26 (the code differs): `collectionGroupIndexManager` tests the collection
id where the rule tests the index id: for an empty index body the method is
DELETE or GET by the delete flag when the collection id is not empty and the
index id is not, GET when the index id is empty, and stays `http_undefined`
when the collection id is empty and the index id is not, as for the index id
`idx1`. -/
theorem collectionGroupIndexManager_method (fb : FirestoreBase)
    (result : Option AsyncResult) (cb : Option AsyncResultCallback) (uid : Str)
    (parent : ParentResource) (index : Options) (collectionId indexId : Str)
    (deleteMode async : Bool) :
    (fb.collectionGroupIndexManagerReq result cb uid parent index collectionId indexId
        deleteMode async).method
        = (if index.c_str ≠ [] then http_request_method.http_post
           else if indexId = [] then http_request_method.http_get
           else if collectionId ≠ [] then
             (if deleteMode then http_request_method.http_delete
              else http_request_method.http_get)
           else http_request_method.http_undefined)
    ∧ (fb.collectionGroupIndexManagerReq result cb uid parent ⟨[]⟩ [] "idx1".toList
        deleteMode async).method = .http_undefined := by
  constructor
  · by_cases hb : index.c_str = [] <;> by_cases hi : indexId = [] <;>
      by_cases hc : collectionId = [] <;> cases deleteMode <;>
      simp [FirestoreBase.collectionGroupIndexManagerReq, FirestoreBase.aReq, hb, hi, hc,
        List.length_pos]
  · rfl

/-- C22: in both dispatchers, for a request whose extras are a C text (without
NUL), `addParams` on an empty output yields the extras with every space
replaced by `%20`, every comma by `%2C` and every other character kept in
place; the result has no space and no comma, and its length is that of the
extras plus twice the number of their spaces and commas. -/
theorem addParams_encodes (requestF : FirestoreBase.async_request_data_t)
    (requestC : GoogleCloudStorage.async_request_data_t)
    (hF : NoNul requestF.options.extras) (hC : NoNul requestC.options.extras) :
    (FirestoreBase.addParams requestF [] = encodeExtras requestF.options.extras
      ∧ ' ' ∉ FirestoreBase.addParams requestF []
      ∧ ',' ∉ FirestoreBase.addParams requestF []
      ∧ (FirestoreBase.addParams requestF []).length
          = requestF.options.extras.length
            + 2 * (requestF.options.extras.count ' ' + requestF.options.extras.count ','))
    ∧ (CloudStorage.addParams requestC [] = encodeExtras requestC.options.extras
      ∧ ' ' ∉ CloudStorage.addParams requestC []
      ∧ ',' ∉ CloudStorage.addParams requestC []
      ∧ (CloudStorage.addParams requestC []).length
          = requestC.options.extras.length
            + 2 * (requestC.options.extras.count ' ' + requestC.options.extras.count ',')) := by
  have hf : FirestoreBase.addParams requestF [] = encodeExtras requestF.options.extras := by
    simpa [FirestoreBase.addParams] using replace_space_comma _ hF
  have hc : CloudStorage.addParams requestC [] = encodeExtras requestC.options.extras := by
    simpa [CloudStorage.addParams] using replace_space_comma _ hC
  rw [hf, hc]
  exact ⟨⟨rfl, (encodeExtras_no_space_comma _).1, (encodeExtras_no_space_comma _).2,
      encodeExtras_length _⟩,
    ⟨rfl, (encodeExtras_no_space_comma _).1, (encodeExtras_no_space_comma _).2,
      encodeExtras_length _⟩⟩

theorem addParams_encodes_witness :
    (NoNul "?mask.fieldPaths=a b,c".toList ∧ NoNul "?fields=x, y".toList)
    ∧ FirestoreBase.addParams
        ⟨[], [], .http_get, ⟨true, false, none⟩,
          ⟨⟨[], [], [], false⟩, [], "?mask.fieldPaths=a b,c".toList⟩, none, none⟩ []
        = "?mask.fieldPaths=a%20b%2Cc".toList
    ∧ CloudStorage.addParams
        ⟨[], [], .http_get, ⟨true, false, none⟩, ⟨[], "?fields=x, y".toList⟩, none, [], none,
          none⟩ []
        = "?fields=x%2C%20y".toList := by
  have h := addParams_encodes
    ⟨[], [], .http_get, ⟨true, false, none⟩,
      ⟨⟨[], [], [], false⟩, [], "?mask.fieldPaths=a b,c".toList⟩, none, none⟩
    ⟨[], [], .http_get, ⟨true, false, none⟩, ⟨[], "?fields=x, y".toList⟩, none, [], none, none⟩
    (by decide) (by decide)
  exact ⟨⟨by decide, by decide⟩, h.1.1.trans (by decide), h.2.1.trans (by decide)⟩

/-- C23: for a parent whose project and database identifiers do not contain the
placeholder, the payload of the request `commitDoc`, `batchWriteDoc` and
`batchGetDoc` build is the serialised body after `replace` of the placeholder
by `makeResourcePath(parent)`: the body cut at the occurrences of the
placeholder and put together again with the resource path in their place.  It
contains no placeholder, so a second `replace` would leave it as it is. -/
theorem payload_substitution (fb : FirestoreBase) (result : Option AsyncResult)
    (cb : Option AsyncResultCallback) (uid : Str) (parent : ParentResource) (writes : Writes)
    (batchOptions : Options) (async : Bool)
    (hp : ¬ RESOURCE_PATH_BASE <:+: parent.projectId)
    (hd : ¬ RESOURCE_PATH_BASE <:+: parent.databaseId) :
    ((fb.commitDocReq result cb uid parent writes async).options.payload
        = replace writes.c_str RESOURCE_PATH_BASE (FirestoreBase.makeResourcePath parent)
      ∧ (fb.batchWriteDocReq result cb uid parent writes async).options.payload
        = replace writes.c_str RESOURCE_PATH_BASE (FirestoreBase.makeResourcePath parent)
      ∧ (fb.batchGetDocReq result cb uid parent batchOptions async).options.payload
        = replace batchOptions.c_str RESOURCE_PATH_BASE
            (FirestoreBase.makeResourcePath parent))
    ∧ ∀ buf : Str,
        (∃ pieces : List Str, cstr buf = joinWith RESOURCE_PATH_BASE pieces
          ∧ (∀ p ∈ pieces, ¬ RESOURCE_PATH_BASE <:+: p)
          ∧ replace (cstr buf) RESOURCE_PATH_BASE (FirestoreBase.makeResourcePath parent)
              = joinWith (FirestoreBase.makeResourcePath parent) pieces)
        ∧ ¬ RESOURCE_PATH_BASE
              <:+: replace (cstr buf) RESOURCE_PATH_BASE (FirestoreBase.makeResourcePath parent)
        ∧ replace
            (replace (cstr buf) RESOURCE_PATH_BASE (FirestoreBase.makeResourcePath parent))
            RESOURCE_PATH_BASE (FirestoreBase.makeResourcePath parent)
          = replace (cstr buf) RESOURCE_PATH_BASE (FirestoreBase.makeResourcePath parent) := by
  refine ⟨⟨rfl, rfl, rfl⟩, ?_⟩
  intro buf
  have hne : RESOURCE_PATH_BASE ≠ [] := by decide
  have hr := replace_of_noNul (cstr buf) RESOURCE_PATH_BASE
    (FirestoreBase.makeResourcePath parent) (noNul_cstr buf) hne
  obtain ⟨pieces, hpne, hj, hfree, hrep⟩ := replaceAux_pieces RESOURCE_PATH_BASE
    (FirestoreBase.makeResourcePath parent) hne (cstr buf).length (cstr buf) (Nat.le_refl _)
  have hD : ¬ RESOURCE_PATH_BASE
      <:+: (if parent.databaseId.length > 0 then parent.databaseId else "(default)".toList) := by
    split
    · exact hd
    · intro h
      have := h.length_le
      simp [RESOURCE_PATH_BASE, FIRESTORE_RESOURCE_PATH_BASE] at this
  have hfreeP : ¬ RESOURCE_PATH_BASE
      <:+: replace (cstr buf) RESOURCE_PATH_BASE (FirestoreBase.makeResourcePath parent) := by
    rw [hr, hrep, makeResourcePath_shape]
    have := placeholder_not_in_joined parent.projectId _ hp hD pieces [] hpne hfree (by simp)
    simpa using this
  exact ⟨⟨pieces, hj, hfree, hr.trans hrep⟩, hfreeP, replace_of_absent _ _ _ hfreeP⟩

theorem payload_substitution_witness :
    (¬ RESOURCE_PATH_BASE <:+: "proj".toList ∧ ¬ RESOURCE_PATH_BASE <:+: ([] : Str))
    ∧ (FirestoreBase.commitDocReq ⟨[], [], [], 7, none⟩ none (some 1) []
          ⟨"proj".toList, [], [], false⟩
          ⟨"\x7b\"writes\":[\x7b\"delete\":\"<resource_path>/a/b\"\x7d]\x7d".toList⟩
          true).options.payload
        = ("\x7b\"writes\":[\x7b\"delete\":\"projects/proj/databases/(default)/documents/a/b\""
            ++ "\x7d]\x7d").toList := by
  have h := payload_substitution ⟨[], [], [], 7, none⟩ none (some 1) []
    ⟨"proj".toList, [], [], false⟩
    ⟨"\x7b\"writes\":[\x7b\"delete\":\"<resource_path>/a/b\"\x7d]\x7d".toList⟩ ⟨[]⟩ true
    (by decide) (by decide)
  exact ⟨⟨by decide, by decide⟩, h.1.1.trans (by decide)⟩

/-- C31 (the code differs): `DocumentTransform(document, fieldTransforms)`
serialises to the object with the members `document`, the quoted document
path, and `fieldTransforms`, whose value is the text of the field transform
as it stands, not an array holding it: for the document `d` and a transform
`t` the text is `{"document":"<resource_path>/d","fieldTransforms":t}`. -/
theorem documentTransform_c_str (document : Str) (t : FieldTransform) :
    (DocumentTransform.new document t).c_str
        = cstr ("\x7b\"document\":\"".toList ++ FSUT.getDocPath document
            ++ "\",\"fieldTransforms\":".toList ++ t.c_str ++ "\x7d".toList)
    ∧ (DocumentTransform.new "d".toList
          ⟨"\x7b\"fieldPath\":\"f\",\"setToServerValue\":\"REQUEST_TIME\"\x7d".toList⟩).c_str
        = ("\x7b\"document\":\"<resource_path>/d\",\"fieldTransforms\":"
            ++ "\x7b\"fieldPath\":\"f\",\"setToServerValue\":\"REQUEST_TIME\"\x7d\x7d").toList
    ∧ (DocumentTransform.new "d".toList
          ⟨"\x7b\"fieldPath\":\"f\",\"setToServerValue\":\"REQUEST_TIME\"\x7d".toList⟩).c_str
        ≠ ("\x7b\"document\":\"<resource_path>/d\",\"fieldTransforms\":"
            ++ "[\x7b\"fieldPath\":\"f\",\"setToServerValue\":\"REQUEST_TIME\"\x7d]\x7d").toList := by
  refine ⟨?_, by decide, by decide⟩
  simp [DocumentTransform.new, DocumentTransform.c_str, JsonHelper.addObject,
    JsonHelper.toString, List.append_assoc]

/-- C32: every constructor and every mutation of a `Document` ends in
`getBuf()`, which writes the buffer from the name and the fields alone, so
the text `printTo` prints is the text `c_str()` returns; `c_str()` leaves an
object on which `c_str()` returns the same text again; and a mutation made
after `c_str()` gives the object, and so the text, it gives without that
call. -/
theorem document_never_stale (d : Document) (name key : Str) (value : Values.Value) :
    ((Document.new name).printTo = (Document.new name).c_str
      ∧ (Document.newKV key value).printTo = (Document.newKV key value).c_str
      ∧ (d.add key value).printTo = (d.add key value).c_str
      ∧ (d.setName name).printTo = (d.setName name).c_str)
    ∧ (d.getBuf.c_str = d.c_str ∧ d.getBuf.getBuf = d.getBuf)
    ∧ (d.getBuf.add key value = d.add key value
      ∧ d.getBuf.setName name = d.setName name
      ∧ (d.getBuf.add key value).c_str = (d.add key value).c_str
      ∧ (d.getBuf.setName name).c_str = (d.setName name).c_str)
    ∧ ((Document.new "a".toList).c_str = "\x7b\"name\":\"<resource_path>/a\"\x7d".toList
      ∧ ((Document.new "a".toList).getBuf.setName "b".toList).c_str
          = "\x7b\"name\":\"<resource_path>/b\"\x7d".toList
      ∧ ((Document.new "a".toList).getBuf.add "k".toList
            (Values.Value.new Values.NullValue.toT)).c_str
          = ("\x7b\"name\":\"<resource_path>/a\","
              ++ "\"fields\":\x7b\"k\":\x7b\"nullValue\":null\x7d\x7d\x7d").toList) := by
  have hidem : ∀ e : Document, e.getBuf.getBuf = e.getBuf := fun e => rfl
  have hp : ∀ e : Document, e.getBuf.printTo = e.getBuf.c_str := fun e => rfl
  refine ⟨⟨hp _, hp _, hp _, hp _⟩, ⟨rfl, rfl⟩, ⟨rfl, rfl, rfl, rfl⟩, ?_, ?_, ?_⟩ <;> decide

/-- C33: for every string `s` that is a C text, `val()` of `StringValue(s)`,
`TimestampValue(s)`, `BytesValue(s)` and `ReferenceValue(s)` is the object
with the tag of the class whose value is `s` as it stands between two double
quotes; when `s` has no double quote and no backslash, that is a string
literal without unescaped double quote. -/
theorem stringValue_val_verbatim (s : Str) (hs : NoNul s) :
    (Values.StringValue s).val
        = "\x7b\"stringValue\":\"".toList ++ s ++ "\"\x7d".toList
    ∧ (Values.TimestampValue s).val
        = "\x7b\"timestampValue\":\"".toList ++ s ++ "\"\x7d".toList
    ∧ (Values.BytesValue s).val
        = "\x7b\"bytesValue\":\"".toList ++ s ++ "\"\x7d".toList
    ∧ (Values.ReferenceValue s).val
        = "\x7b\"referenceValue\":\"".toList ++ s ++ "\"\x7d".toList
    ∧ (QUOTE ∉ s → BACKSLASH ∉ s → jsonStringContent s = true) := by
  refine ⟨?_, ?_, ?_, ?_, jsonStringContent_plain s⟩
  all_goals
    simp [Values.TimestampValue, Values.StringValue, Values.BytesValue, Values.ReferenceValue,
      Values.Scalar.val, Values.Scalar.c_str, FSUT.setString, FSUT.setPair,
      JsonHelper.addObject, firestore_const_key_text, firestore_const_key,
      firestore_const_key_timestampValue, firestore_const_key_stringValue,
      firestore_const_key_bytesValue, firestore_const_key_referenceValue, cstr_cons, NUL,
      cstr_append_of_noNul, cstr_of_noNul, hs]

theorem stringValue_val_verbatim_witness :
    NoNul "a b".toList
    ∧ (Values.StringValue "a b".toList).val = "\x7b\"stringValue\":\"a b\"\x7d".toList
    ∧ jsonStringContent "a b".toList = true := by
  have h := stringValue_val_verbatim "a b".toList (by decide)
  exact ⟨by decide, h.1, h.2.2.2.2 (by decide) (by decide)⟩

/-- C33, as stated, fails for a string with a double quote or a backslash: the
string is copied as it stands, so for `a"b` the text between the quotes of
the value holds an unescaped double quote, and for a string ending in a
backslash the closing quote is escaped. -/
theorem stringValue_val_unescaped :
    (Values.StringValue "a\"b".toList).val = "\x7b\"stringValue\":\"a\"b\"\x7d".toList
    ∧ jsonStringContent "a\"b".toList = false
    ∧ (Values.StringValue "a\x5c".toList).val = "\x7b\"stringValue\":\"a\x5c\"\x7d".toList
    ∧ jsonStringContent "a\x5c".toList = false
    ∧ (Values.ReferenceValue "a\"b".toList).val
        = "\x7b\"referenceValue\":\"a\"b\"\x7d".toList := by
  decide

/-- C34 (the code differs): `isExisted` sets the flag of every tag text it finds
before it reaches the one whose flag is set, so a rejected `add` leaves the
buffer as it was and the flags changed.  On the array holding the map
`j: "s"`, `add` of the map `k: null` is rejected and sets the flag of
`nullValue`; `add(NullValue())`, accepted before that call, is rejected
after it. -/
theorem arrayValue_rejected_add_sets_flags :
    ((Values.ArrayValue.new
          (Values.MapValue.new "j".toList (Values.StringValue "s".toList).toT).toT).isExisted
        (Values.MapValue.new "k".toList Values.NullValue.toT).toT).1 = true
    ∧ ((Values.ArrayValue.new
          (Values.MapValue.new "j".toList (Values.StringValue "s".toList).toT).toT).add
        (Values.MapValue.new "k".toList Values.NullValue.toT).toT).buf
      = (Values.ArrayValue.new
          (Values.MapValue.new "j".toList (Values.StringValue "s".toList).toT).toT).buf
    ∧ (Values.ArrayValue.new
          (Values.MapValue.new "j".toList (Values.StringValue "s".toList).toT).toT).flags
      = [false, false, false, false, false, true, false, false, false, false, true]
    ∧ ((Values.ArrayValue.new
          (Values.MapValue.new "j".toList (Values.StringValue "s".toList).toT).toT).add
        (Values.MapValue.new "k".toList Values.NullValue.toT).toT).flags
      = [true, false, false, false, false, true, false, false, false, false, true]
    ∧ ((Values.ArrayValue.new
          (Values.MapValue.new "j".toList (Values.StringValue "s".toList).toT).toT).add
        Values.NullValue.toT).val
      = ("\x7b\"arrayValue\":\x7b\"values\":[\x7b\"mapValue\":\x7b\"fields\":\x7b\"j\":"
          ++ "\x7b\"stringValue\":\"s\"\x7d\x7d\x7d\x7d,\x7b\"nullValue\":null\x7d]\x7d\x7d").toList
    ∧ (((Values.ArrayValue.new
          (Values.MapValue.new "j".toList (Values.StringValue "s".toList).toT).toT).add
        (Values.MapValue.new "k".toList Values.NullValue.toT).toT).add
        Values.NullValue.toT).val
      = ("\x7b\"arrayValue\":\x7b\"values\":[\x7b\"mapValue\":\x7b\"fields\":\x7b\"j\":"
          ++ "\x7b\"stringValue\":\"s\"\x7d\x7d\x7d\x7d]\x7d\x7d").toList := by
  refine ⟨?_, ?_, ?_, ?_, ?_, ?_⟩ <;> decide

/-- C35 (the code differs): `isExisted` looks for the tag texts anywhere in
`val()`, also inside a string: the array holding the string `integerValue`
has the flag of `integerValue` set and rejects `add(IntegerValue(1))`, whose
top-level tag differs from that of its only element; so does the array
holding the map `k: 1`. -/
theorem arrayValue_rejects_other_tag :
    topTag firestore_const_key_stringValue (Values.StringValue "integerValue".toList).toT = true
    ∧ topTag firestore_const_key_integerValue (Values.IntegerValue 1).toT = true
    ∧ ((Values.ArrayValue.new (Values.StringValue "integerValue".toList).toT).isExisted
        (Values.IntegerValue 1).toT).1 = true
    ∧ ((Values.ArrayValue.new (Values.StringValue "integerValue".toList).toT).add
        (Values.IntegerValue 1).toT).val
      = ("\x7b\"arrayValue\":\x7b\"values\":["
          ++ "\x7b\"stringValue\":\"integerValue\"\x7d]\x7d\x7d").toList
    ∧ topTag firestore_const_key_mapValue
        (Values.MapValue.new "k".toList (Values.IntegerValue 1).toT).toT = true
    ∧ ((Values.ArrayValue.new
          (Values.MapValue.new "k".toList (Values.IntegerValue 1).toT).toT).add
        (Values.IntegerValue 2).toT).val
      = ("\x7b\"arrayValue\":\x7b\"values\":[\x7b\"mapValue\":\x7b\"fields\":\x7b\"k\":"
          ++ "\x7b\"integerValue\":\"1\"\x7d\x7d\x7d\x7d]\x7d\x7d").toList := by
  refine ⟨?_, ?_, ?_, ?_, ?_, ?_⟩ <;> decide

/-- C36 (the code differs): the template constructor of `FieldTransform` hands
to `set` the name `value`, which it does not declare, instead of its parameter
`object`: the text it builds does not depend on the operand it is given.
`set` itself writes the field path first, then the member of the object it
is handed, and closes the object once, as the two constructors for the array
operands show; and `SetToServerValue` holds `"REQUEST_TIME"` or
`"SERVER_VALUE_UNSPECIFIED"`. -/
theorem fieldTransform_operand_unused (fieldPath : Str)
    (object other value : FieldTransform.Operand) :
    FieldTransform.new fieldPath object value = FieldTransform.new fieldPath other value
    ∧ (FieldTransform.new "f".toList
          (FieldTransform.Increment (Values.IntegerValue 1).toT)
          (FieldTransform.SetToServerValue .REQUEST_TIME)).c_str
        = "\x7b\"fieldPath\":\"f\",\"setToServerValue\":\"REQUEST_TIME\"\x7d".toList
    ∧ (FieldTransform.Increment (Values.IntegerValue 1).toT).c_str
        = "\x7b\"increment\":\x7b\"integerValue\":\"1\"\x7d\x7d".toList
    ∧ (FieldTransform.newAppendMissingElements "f".toList
          ⟨("\x7b\"appendMissingElements\":"
            ++ "\x7b\"values\":[\x7b\"nullValue\":null\x7d]\x7d\x7d").toList⟩).c_str
        = ("\x7b\"fieldPath\":\"f\",\"appendMissingElements\":"
            ++ "\x7b\"values\":[\x7b\"nullValue\":null\x7d]\x7d\x7d").toList
    ∧ (FieldTransform.newRemoveAllFromArray "f".toList
          ⟨("\x7b\"removeAllFromArray\":"
            ++ "\x7b\"values\":[\x7b\"nullValue\":null\x7d]\x7d\x7d").toList⟩).c_str
        = ("\x7b\"fieldPath\":\"f\",\"removeAllFromArray\":"
            ++ "\x7b\"values\":[\x7b\"nullValue\":null\x7d]\x7d\x7d").toList
    ∧ (FieldTransform.SetToServerValue .REQUEST_TIME).c_str
        = "\x7b\"setToServerValue\":\"REQUEST_TIME\"\x7d".toList
    ∧ (FieldTransform.SetToServerValue .SERVER_VALUE_UNSPECIFIED).c_str
        = "\x7b\"setToServerValue\":\"SERVER_VALUE_UNSPECIFIED\"\x7d".toList := by
  refine ⟨rfl, ?_, ?_, ?_, ?_, ?_, ?_⟩ <;> decide

/-- C37 (the code differs): `Increment` reads its operand through `val()`,
`Maximum` and `Minimum` read it through `c_str()`: for `IntegerValue(5)` the
texts are `{"increment":{"integerValue":"5"}}`, `{"maximum":"5"}` and
`{"minimum":"5"}`; the three operand texts agree for the class `Value`, whose
`c_str()` and `val()` are the same text. -/
theorem increment_maximum_minimum_operand (x : TValue) (v : Values.Value) :
    (FieldTransform.Increment x).buf = FSUT.setPair "increment".toList x.val false
    ∧ (FieldTransform.Maximum x).buf = FSUT.setPair "maximum".toList x.c_str false
    ∧ (FieldTransform.Minimum x).buf = FSUT.setPair "minimum".toList x.c_str false
    ∧ v.toT.c_str = v.toT.val
    ∧ (FieldTransform.Increment (Values.IntegerValue 5).toT).c_str
        = "\x7b\"increment\":\x7b\"integerValue\":\"5\"\x7d\x7d".toList
    ∧ (FieldTransform.Maximum (Values.IntegerValue 5).toT).c_str
        = "\x7b\"maximum\":\"5\"\x7d".toList
    ∧ (FieldTransform.Minimum (Values.IntegerValue 5).toT).c_str
        = "\x7b\"minimum\":\"5\"\x7d".toList
    ∧ (FieldTransform.Maximum (Values.Value.new (Values.IntegerValue 5).toT).toT).c_str
        = "\x7b\"maximum\":\x7b\"integerValue\":\"5\"\x7d\x7d".toList := by
  refine ⟨rfl, rfl, rfl, rfl, ?_, ?_, ?_, ?_⟩ <;> decide

/-- C38 (the code differs): `makeResourcePath` writes `parent.projectId` as it
is, where `asyncRequest` falls back on the project of the token when it is
empty: for a parent without project id and the token of the project `p`, the
payload of `commitDoc` names `projects//databases/(default)/documents` and the
request path is `/v1/projects/p/databases/(default)`.  The database segment is
the same in both, and so is the project when `parent.projectId` is not
empty. -/
theorem resource_path_project_differs (databaseId documentPath : Str) (param : Bool) :
    "projects//databases/".toList
        <+: FirestoreBase.makeResourcePath ⟨[], databaseId, documentPath, param⟩
    ∧ FirestoreBase.makeResourcePath ⟨[], [], [], false⟩
        = "projects//databases/(default)/documents".toList
    ∧ (FirestoreBase.commitDocReq ⟨[], [], [], 7, some ⟨"p".toList⟩⟩ none (some 1) []
          ⟨[], [], [], false⟩
          ⟨"\x7b\"writes\":[\x7b\"delete\":\"<resource_path>/a/b\"\x7d]\x7d".toList⟩
          true).options.payload
        = ("\x7b\"writes\":[\x7b\"delete\":\"projects//databases/(default)/documents/a/b\""
            ++ "\x7d]\x7d").toList
    ∧ (FirestoreBase.commitDoc (-1) (-2) [7] ⟨[], [], [], 7, some ⟨"p".toList⟩⟩ none (some 1) []
          ⟨[], [], [], false⟩
          ⟨"\x7b\"writes\":[\x7b\"delete\":\"<resource_path>/a/b\"\x7d]\x7d".toList⟩
          true none).request.path
        = "/v1/projects/p/databases/(default)".toList
    ∧ FirestoreBase.makeResourcePath ⟨"q".toList, "d".toList, [], false⟩
        = "projects/q/databases/d/documents".toList
    ∧ (FirestoreBase.commitDoc (-1) (-2) [7] ⟨[], [], [], 7, some ⟨"p".toList⟩⟩ none (some 1) []
          ⟨"q".toList, "d".toList, [], false⟩
          ⟨"\x7b\"writes\":[\x7b\"delete\":\"<resource_path>/a/b\"\x7d]\x7d".toList⟩
          true none).request.path
        = "/v1/projects/q/databases/d".toList := by
  refine ⟨?_, ?_, ?_, ?_, ?_, ?_⟩
  · rw [makeResourcePath_shape]
    exact ⟨_, rfl⟩
  all_goals decide

/-- C39: when a token is present and `createSlot` answers with a slot,
`CloudStorage::asyncRequest` takes the content from one source.  With a file
attached the file is copied into the slot, base64 is switched off, the content
type is set when the request has a mime type and the content length is taken
from the file; the payload of the slot is left as it was, whatever the
payload of the options.  Without a file and with a payload that is not empty,
the payload of the slot is that text and the content length is its length.
With neither, no payload and no content length is set. -/
theorem cloudStorage_payload_sources (notAssigned cancelled : Int) (aVec : List Nat)
    (cs : CloudStorage) (request : GoogleCloudStorage.async_request_data_t) (beta : Int)
    (sData : async_data_item_t) (token : app_token_t) (h : cs.appToken aVec = some token) :
    ∃ slot, (CloudStorage.asyncRequest notAssigned cancelled aVec cs request beta
          (some sData)).slot = some slot
      ∧ slot.request_payload = sData.request_payload
      ∧ (∀ file, request.file = some file →
          slot.request_file_data = file ∧ slot.request_base64 = false
          ∧ slot.request_val_payload = sData.request_val_payload
          ∧ contentCalls (CloudStorage.asyncRequest notAssigned cancelled aVec cs request beta
              (some sData)).calls
            = (if request.mime = [] then [] else [Call.setContentType request.mime])
                ++ [Call.setFileContentLength])
      ∧ (request.file = none → request.options.payload ≠ [] →
          slot.request_val_payload = request.options.payload
          ∧ slot.request_file_data = sData.request_file_data
          ∧ contentCalls (CloudStorage.asyncRequest notAssigned cancelled aVec cs request beta
              (some sData)).calls
            = [Call.setContentLength request.options.payload.length])
      ∧ (request.file = none → request.options.payload = [] →
          slot.request_val_payload = sData.request_val_payload
          ∧ slot.request_file_data = sData.request_file_data
          ∧ contentCalls (CloudStorage.asyncRequest notAssigned cancelled aVec cs request beta
              (some sData)).calls = []) := by
  cases hcb : request.cb <;> cases hr : request.aResult <;> cases ho : request.opt.ota <;>
    cases hf : request.file <;> by_cases hp : request.options.payload = [] <;>
    by_cases hm : request.mime = [] <;>
    simp [CloudStorage.asyncRequest, CloudStorage.setFileStatus, h, hcb, hr, ho, hf, hp, hm,
      contentCalls] <;>
    split <;> simp

theorem cloudStorage_payload_sources_witness :
    (CloudStorage.mk [] [] [] 7 (some ⟨"p".toList⟩)).appToken [7] = some ⟨"p".toList⟩
    ∧ ∃ slot, (CloudStorage.asyncRequest (-1) (-2) [7] ⟨[], [], [], 7, some ⟨"p".toList⟩⟩
          ⟨"x".toList, [], .http_post, ⟨true, false, none⟩, ⟨"body".toList, []⟩,
            some ⟨"f.bin".toList⟩, "text/plain".toList, none, some 1⟩ 0
          (some ⟨[], [], ⟨[]⟩, true, false, false, none, none, true, false, false⟩)).slot
          = some slot
      ∧ slot.request_file_data = ⟨"f.bin".toList⟩ ∧ slot.request_base64 = false
      ∧ slot.request_val_payload = [] := by
  obtain ⟨slot, hs, _, hfile, _, _⟩ := cloudStorage_payload_sources (-1) (-2) [7]
    ⟨[], [], [], 7, some ⟨"p".toList⟩⟩
    ⟨"x".toList, [], .http_post, ⟨true, false, none⟩, ⟨"body".toList, []⟩,
      some ⟨"f.bin".toList⟩, "text/plain".toList, none, some 1⟩ 0
    ⟨[], [], ⟨[]⟩, true, false, false, none, none, true, false, false⟩ ⟨"p".toList⟩ (by decide)
  have hf := hfile ⟨"f.bin".toList⟩ rfl
  exact ⟨by decide, slot, hs, hf.1, hf.2.1, hf.2.2.1⟩

end Firestore
